import Mathlib

/-!
# Bit-banged I2C master (components/i2c/i2c.c): shallow embedding

The C functions of `i2c.c` are translated into Lean functions over explicit
state.

* Machine integers are natural numbers with explicit reduction modulo `2^w`
  where the C type truncates (`uint8_t shiftedAddress`, `uint8_t bitToSend`,
  `uint16_t bitMask`, `uint32_t isrAckCount`).
* A context handle is an address; the machine maps addresses to the records
  stored in live allocations.  A result of type `Option` is `none` when the
  C program has no defined result: an access through a pointer that is not a
  live record, or a loop still running when its fuel is used up.
* Writes to the two lines and calls of `delay` are recorded in a trace.
* The interrupt handler `ReadAckISR` runs at preemption points, one before
  each foreground statement that touches the lines or the shared state.
  Which handler runs happen at which point is given by a schedule that is an
  input of the model.  A call of `setState` is one foreground statement: the
  handler only acts in state ACK, and the only call of `setState` made in
  that state is the forced `setState(ptr, WRITE)` of `writeByte`, whose result
  is discarded and after which the state is WRITE wherever the handler runs.
* The platform SDK is not part of the repository: the macro
  `GPIO_IS_VALID_GPIO`, `malloc` and the results of the SDK calls are
  parameters (`Platform`).
* The busy wait `delay` of timer_util.h is translated over the list of values
  that the cycle counter holds at its successive reads (`timer_util.delay`).
* The functions of the display driver (components/ssd1306/ssd1306.c) that the
  theorems are about are translated over a machine that adds the records of
  the display driver and the list of calls of the I2C driver made so far
  (`Board`).
-/

namespace I2C

/-! ## Data model -/

/-- State of an I2C transmission: `typedef enum _I2C_STATE` of i2c.c. -/
inductive I2C_STATE where
  | ACK
  | READY
  | START
  | STOP
  | WRITE
  deriving DecidableEq, Repr

/-- Result codes: `typedef enum _RESULT` of result_codes.h. -/
inductive RESULT where
  | COORDINATE_OUT_OF_RANGE
  | FAILED_READ
  | FAILED_TO_ALLOCATE_MEMORY
  | FAILED_TO_CONFIGURE_I2C_PINS
  | FAILED_TO_INSTALL_ISR_FUNCTION
  | FAILED_TO_INSTALL_ISR_SERVICE
  | FAILED_TO_SET_INTERRUPT_TYPE
  | FAILED_TO_SET_PIN_LEVEL
  | FAILED_TO_SEND_SLAVE_ADDRESS
  | FAILED_WRITE_RECEIVED_NACK
  | INVALID_ARGUMENT
  | INVALID_CONTEXT
  | INVALID_SCL_PIN
  | INVALID_SDA_PIN
  | INVALID_SLAVE_ADDRESS_GT7F
  | INVALID_SLAVE_ADDRESS_RESERVED
  | INVALID_STATE_CHANGE_REQUEST
  | NOT_IMPLEMENTED
  | OK
  deriving DecidableEq, Repr

/-- Private context record `i2c_type_t` of i2c.c.  The field `tag` is the
field the source calls by the name for "not transparent": the address of the
structure itself, stored as a safety check.  `slaveAddress` is a `uint8_t`,
`isrAckCount` a `uint32_t`, `scl` and `sda` are pin numbers. -/
structure i2c_type_t where
  tag : Nat
  slaveAddress : Nat
  scl : Nat
  sda : Nat
  useAck : Bool
  state : I2C_STATE
  isrAckCount : Nat
  deriving DecidableEq, Repr

open I2C_STATE RESULT

/-! ## The state machine: `setState` -/

/-- Body of `case ACK:` in the outer switch of `setState`. -/
def setState.caseACK (ptr : i2c_type_t) (newState : I2C_STATE) : RESULT × i2c_type_t :=
  match newState with
  | WRITE => (OK, { ptr with state := newState })
  | _ => (INVALID_STATE_CHANGE_REQUEST, ptr)

/-- Body of `case READY:` in the outer switch of `setState`. -/
def setState.caseREADY (ptr : i2c_type_t) (newState : I2C_STATE) : RESULT × i2c_type_t :=
  match newState with
  | START => (OK, { ptr with state := newState })
  | _ => (INVALID_STATE_CHANGE_REQUEST, ptr)

/-- Body of `case START:` in the outer switch of `setState`. -/
def setState.caseSTART (ptr : i2c_type_t) (newState : I2C_STATE) : RESULT × i2c_type_t :=
  match newState with
  | ACK => (OK, { ptr with state := newState })
  | WRITE => (OK, { ptr with state := newState })
  | _ => (INVALID_STATE_CHANGE_REQUEST, ptr)

/-- Body of `case WRITE:` in the outer switch of `setState`: the requests
`ACK` and `STOP` are accepted, every other request leaves the switch. -/
def setState.caseWRITE (ptr : i2c_type_t) (newState : I2C_STATE) : RESULT × i2c_type_t :=
  match newState with
  | ACK => (OK, { ptr with state := newState })
  | STOP => (OK, { ptr with state := newState })
  | _ => (INVALID_STATE_CHANGE_REQUEST, ptr)

/-- Body of `case STOP:` in the outer switch of `setState`.  In the source
this case has no `break` after its inner switch, so a request that the inner
switch does not accept falls through into `case WRITE:`. -/
def setState.caseSTOP (ptr : i2c_type_t) (newState : I2C_STATE) : RESULT × i2c_type_t :=
  match newState with
  | READY => (OK, { ptr with state := newState })
  | WRITE => (OK, { ptr with state := newState })
  | _ => setState.caseWRITE ptr newState

/-- Translation of `setState(ptr, newState)`.  The pair returned is the
result code and the record afterwards. -/
def setState (ptr : i2c_type_t) (newState : I2C_STATE) : RESULT × i2c_type_t :=
  if newState = ptr.state then (OK, ptr)
  else
    match ptr.state with
    | ACK => setState.caseACK ptr newState
    | READY => setState.caseREADY ptr newState
    | START => setState.caseSTART ptr newState
    | STOP => setState.caseSTOP ptr newState
    | WRITE => setState.caseWRITE ptr newState

/-- The eight transitions listed as valid in the design comment above
`setState` (and in the transition table of the specification). -/
def documentedEdge : I2C_STATE → I2C_STATE → Bool
  | READY, START => true
  | START, ACK => true
  | START, WRITE => true
  | WRITE, ACK => true
  | ACK, WRITE => true
  | WRITE, STOP => true
  | STOP, READY => true
  | STOP, WRITE => true
  | _, _ => false

/-! ## Lines, interrupts and memory -/

/-- What the foreground does to the two lines, in program order.
`HIGH pin` is `GPIO_SET_LEVEL_HIGH(pin)`, `LOW pin` is
`GPIO_SET_LEVEL_LOW(pin)`, `delay t` is a call `delay(t)` of timer_util.h and
`config mask` is the call of `gpio_config` in `I2C_Initialize` (output mode,
no pull resistors, interrupts disabled) with `pin_bit_mask = mask`. -/
inductive LineEvent where
  | HIGH (pin : Nat)
  | LOW (pin : Nat)
  | delay (ticks : Nat)
  | config (mask : Nat)
  deriving DecidableEq, Repr

/-- Error codes of the platform SDK that the source distinguishes; every
other code is `OTHER`. -/
inductive esp_err_t where
  | ESP_OK
  | ESP_FAIL
  | ESP_ERR_NO_MEM
  | ESP_ERR_INVALID_ARG
  | ESP_ERR_INVALID_STATE
  | ESP_ERR_NOT_FOUND
  | OTHER
  deriving DecidableEq, Repr

/-- The machine as the driver sees it.
* `heap p` is the record stored in the live allocation at address `p`
  (`none`: no live record there); address 0 is `NULL`.
* `isr` lists the context pointers with which `ReadAckISR` has been
  registered by `gpio_isr_handler_add`.
* `trace` is the sequence of line events so far, oldest first.
* `irq` is the schedule of the interrupt: its k-th entry lists the context
  pointers for which the handler is triggered, in order, immediately before
  the k-th following foreground statement.  Whether and when the data line
  falls is decided by the peer and the hardware, so the schedule is an input
  of the model. -/
structure World where
  heap : Nat → Option i2c_type_t
  isr : List Nat
  trace : List LineEvent
  irq : List (List Nat)

/-- What the platform answers during one call of `I2C_Initialize`:
the macro `GPIO_IS_VALID_GPIO` of the SDK (not part of this repository),
the address returned by `malloc` (0 is `NULL`) with the uninitialised
contents of the block, and the results of the four SDK calls. -/
structure Platform where
  validGpio : Nat → Bool
  malloc : Nat
  uninit : i2c_type_t
  gpio_config : esp_err_t
  gpio_install_isr_service : esp_err_t
  gpio_set_intr_type : esp_err_t
  gpio_isr_handler_add : esp_err_t

/-- Store record `c` at address `p`. -/
def World.store (w : World) (p : Nat) (c : i2c_type_t) : World :=
  { w with heap := fun q => if q = p then some c else w.heap q }

/-- Release the allocation at address `p`: `free(p)`. -/
def World.free (w : World) (p : Nat) : World :=
  { w with heap := fun q => if q = p then none else w.heap q }

/-- Append a line event to the trace. -/
def World.emit (w : World) (e : LineEvent) : World :=
  { w with trace := w.trace ++ [e] }

/-- Translation of `ReadAckISR` on the record its context argument points to:
if and only if the state is ACK, the state becomes WRITE and `isrAckCount`
(a `uint32_t`) is incremented.  Clearing the interrupt status register is
not a line event and is left out. -/
def ReadAckISR (ptr : i2c_type_t) : i2c_type_t :=
  if ptr.state = ACK then
    { ptr with state := WRITE, isrAckCount := (ptr.isrAckCount + 1) % 2 ^ 32 }
  else ptr

/-- One trigger of the interrupt for context pointer `q`: the handler runs if
it has been registered with `q` and `q` points to a live record. -/
def World.runISR (w : World) (q : Nat) : World :=
  if q ∈ w.isr then
    match w.heap q with
    | some c => w.store q (ReadAckISR c)
    | none => w
  else w

/-- A point at which the foreground can be preempted: the handler runs that
the head of the schedule lists are executed and the schedule advances. -/
def World.preempt (w : World) : World :=
  (w.irq.headD []).foldl World.runISR { w with irq := w.irq.tail }

/-- The statement `GPIO_SET_LEVEL_HIGH(ptr->pin)`, preceded by a preemption
point; `pin` selects the field (`i2c_type_t.scl` or `i2c_type_t.sda`). -/
def GPIO_SET_LEVEL_HIGH (w : World) (ptr : Nat) (pin : i2c_type_t → Nat) : Option World :=
  match w.preempt.heap ptr with
  | some c => some (w.preempt.emit (LineEvent.HIGH (pin c)))
  | none => none

/-- The statement `GPIO_SET_LEVEL_LOW(ptr->pin)`, preceded by a preemption
point. -/
def GPIO_SET_LEVEL_LOW (w : World) (ptr : Nat) (pin : i2c_type_t → Nat) : Option World :=
  match w.preempt.heap ptr with
  | some c => some (w.preempt.emit (LineEvent.LOW (pin c)))
  | none => none

/-- The statement `delay(ticks)`, preceded by a preemption point (handler
runs during the busy wait are listed in the same schedule entry). -/
def delay (w : World) (ticks : Nat) : World :=
  w.preempt.emit (LineEvent.delay ticks)

/-- The statement `setState(ptr, newState)` executed on the record at address
`ptr`, preceded by a preemption point.  The result is the result code of
`setState` and the machine afterwards. -/
def setStateAt (w : World) (ptr : Nat) (newState : I2C_STATE) : Option (RESULT × World) :=
  match w.preempt.heap ptr with
  | some c => some ((setState c newState).1, w.preempt.store ptr (setState c newState).2)
  | none => none

/-- The volatile read `ptr->state`, preceded by a preemption point. -/
def readState (w : World) (ptr : Nat) : Option (I2C_STATE × World) :=
  match w.preempt.heap ptr with
  | some c => some (c.state, w.preempt)
  | none => none

/-- The constant `TICKS_IN_100_NS` of timer_util.h. -/
def TICKS_IN_100_NS : Nat := 8

/-- The constant `TICKS_IN_600_NS` of timer_util.h. -/
def TICKS_IN_600_NS : Nat := 48

/-- The constant `TICKS_IN_1300_NS` of timer_util.h. -/
def TICKS_IN_1300_NS : Nat := 104

/-- The macro `ASSIGN_CONTEXT(ptr, context, func_name)`: `some (Except.error r)`
when the macro returns `r` from the enclosing function, `some (Except.ok ptr)`
when it assigns `ptr`, `none` when `context` does not point to a live record
(the read of the tag is then undefined). -/
def ASSIGN_CONTEXT (w : World) (context : Nat) : Option (Except RESULT Nat) :=
  if context = 0 then some (Except.error INVALID_ARGUMENT)
  else
    match w.heap context with
    | none => none
    | some c =>
      if c.tag ≠ context then some (Except.error INVALID_ARGUMENT)
      else some (Except.ok context)

/-! ## The byte transmitter: `writeByte` -/

/-- One iteration of the body of the `while` loop of `writeByte`, after
`bitMask >>= 1`: the data line is set to the selected bit
(`bitToSend` is a `uint8_t`), then the clock line is pulsed. -/
def writeByte.body (w : World) (ptr : Nat) (byteToSend bitMask : Nat) : Option World :=
  let bitToSend := (byteToSend &&& bitMask) % 2 ^ 8
  (if bitToSend > 0 then GPIO_SET_LEVEL_HIGH w ptr i2c_type_t.sda
   else GPIO_SET_LEVEL_LOW w ptr i2c_type_t.sda).bind fun w =>
  (GPIO_SET_LEVEL_HIGH w ptr i2c_type_t.scl).bind fun w =>
  GPIO_SET_LEVEL_LOW w ptr i2c_type_t.scl

/-- The loop `while (bitMask != 0x1) { bitMask >>= 1; ... }` of `writeByte`
(`bitMask` is a `uint16_t`).  `fuel` bounds the number of iterations; the
result is `none` when the loop is still running after `fuel` iterations. -/
def writeByte.loop : Nat → World → Nat → Nat → Nat → Option World
  | fuel, w, ptr, byteToSend, bitMask =>
    if bitMask ≠ 0x1 then
      match fuel with
      | 0 => none
      | fuel + 1 =>
        (writeByte.body w ptr byteToSend ((bitMask >>> 1) % 2 ^ 16)).bind fun w =>
        writeByte.loop fuel w ptr byteToSend ((bitMask >>> 1) % 2 ^ 16)
    else some w

/-- Translation of `writeByte(ptr, byteToSend)` with the loop bounded by
`fuel` iterations. -/
def writeByteFuel (fuel : Nat) (w : World) (ptr : Nat) (byteToSend : Nat) :
    Option (RESULT × World) :=
  (writeByte.loop fuel w ptr byteToSend 0x0100).bind fun w =>
  (setStateAt w ptr ACK).bind fun rw =>
  (GPIO_SET_LEVEL_HIGH rw.2 ptr i2c_type_t.sda).bind fun w =>
  (GPIO_SET_LEVEL_HIGH w ptr i2c_type_t.scl).bind fun w =>
  (GPIO_SET_LEVEL_LOW w ptr i2c_type_t.scl).bind fun w =>
  (GPIO_SET_LEVEL_LOW w ptr i2c_type_t.sda).bind fun w =>
  (readState (delay w TICKS_IN_100_NS) ptr).bind fun sw =>
  if sw.1 = ACK then
    (setStateAt sw.2 ptr WRITE).bind fun rw => some (FAILED_WRITE_RECEIVED_NACK, rw.2)
  else some (OK, sw.2)

/-- Translation of `writeByte`.  The mask is a 16-bit value that is shifted
right once per iteration, so sixteen iterations are enough for every run of
the loop that terminates at all. -/
def writeByte (w : World) (ptr : Nat) (byteToSend : Nat) : Option (RESULT × World) :=
  writeByteFuel 16 w ptr byteToSend

/-! ## The public operations -/

/-- Translation of `enableACK(ptr)`.  The first switch has no default case:
only the three listed codes of `gpio_install_isr_service` fail. -/
def enableACK (env : Platform) (w : World) (ptr : Nat) : Option (RESULT × World) :=
  match env.gpio_install_isr_service with
  | esp_err_t.ESP_ERR_NOT_FOUND => some (FAILED_TO_INSTALL_ISR_SERVICE, w)
  | esp_err_t.ESP_ERR_INVALID_ARG => some (FAILED_TO_INSTALL_ISR_SERVICE, w)
  | esp_err_t.ESP_ERR_NO_MEM => some (FAILED_TO_INSTALL_ISR_SERVICE, w)
  | _ =>
    if env.gpio_set_intr_type ≠ esp_err_t.ESP_OK then some (FAILED_TO_SET_INTERRUPT_TYPE, w)
    else
      match env.gpio_isr_handler_add with
      | esp_err_t.ESP_OK =>
        match w.heap ptr with
        | some c => some (OK, { w.store ptr { c with useAck := true } with isr := ptr :: w.isr })
        | none => none
      | _ => some (FAILED_TO_INSTALL_ISR_FUNCTION, w)

/-- Translation of `I2C_FreeContext(context)`.  The argument is `none` for a
null `context`, and `some h` for a pointer to a handle variable holding `h`.
The third component of the result is the handle variable afterwards. -/
def I2C_FreeContext (w : World) (context : Option Nat) : Option (RESULT × World × Option Nat) :=
  match context with
  | none => some (OK, w, none)
  | some h =>
    match ASSIGN_CONTEXT w h with
    | none => none
    | some (Except.error r) => some (r, w, some h)
    | some (Except.ok ptr) =>
      match w.heap ptr with
      | none => none
      | some c =>
        if c.tag ≠ ptr then some (INVALID_CONTEXT, w, some h)
        else some (OK, w.free ptr, some 0)

/-- Translation of `I2C_Initialize(slaveAddress, scl, sda, useAck, context)`.
The argument `context` is `none` for a null pointer and `some h` for a
pointer to a handle variable holding `h`; the third component of the result
is the handle variable afterwards.  `shiftedAddress` is a `uint8_t`.  On a
32-bit target `(uint32_t)ptr` is the address itself. -/
def I2C_Initialize (env : Platform) (w : World) (slaveAddress scl sda : Nat) (useAck : Bool)
    (context : Option Nat) : Option (RESULT × World × Option Nat) :=
  match context with
  | none => some (INVALID_CONTEXT, w, none)
  | some h =>
    if ¬ env.validGpio scl then some (INVALID_SCL_PIN, w, some h)
    else if ¬ env.validGpio sda then some (INVALID_SDA_PIN, w, some h)
    else
      let shiftedAddress := (slaveAddress <<< 1) % 2 ^ 8
      if shiftedAddress ≤ 0x0F ∨ (shiftedAddress ≥ 0xF0 ∧ shiftedAddress ≤ 0xF7) ∨
          (shiftedAddress = 0xF9 ∨ shiftedAddress = 0xFB ∨ shiftedAddress = 0xFD ∨
            shiftedAddress = 0xFF) then
        some (INVALID_SLAVE_ADDRESS_RESERVED, w, some h)
      else if shiftedAddress > 0x7F then some (INVALID_SLAVE_ADDRESS_GT7F, w, some h)
      else
        let ptr := env.malloc
        if ptr = 0 then some (FAILED_TO_ALLOCATE_MEMORY, w, some h)
        else
          let w := (w.store ptr env.uninit).emit (LineEvent.config ((1 <<< scl) ||| (1 <<< sda)))
          if env.gpio_config ≠ esp_err_t.ESP_OK then
            some (FAILED_TO_CONFIGURE_I2C_PINS, w, some h)
          else
            let w := (w.emit (LineEvent.HIGH sda)).emit (LineEvent.HIGH scl)
            let w := w.store ptr
              { env.uninit with
                tag := ptr, slaveAddress := (slaveAddress <<< 1) % 2 ^ 8, scl := scl,
                sda := sda, state := READY, isrAckCount := 0 }
            if useAck = true then
              match enableACK env w ptr with
              | none => none
              | some (result, w) =>
                if result ≠ OK then
                  (I2C_FreeContext w (some ptr)).bind fun r => some (result, r.2.1, some h)
                else some (OK, w, some ptr)
            else some (OK, w, some ptr)

/-- Translation of `I2C_StartXmit(context)`. -/
def I2C_StartXmit (w : World) (context : Nat) : Option (RESULT × World) :=
  match ASSIGN_CONTEXT w context with
  | none => none
  | some (Except.error r) => some (r, w)
  | some (Except.ok ptr) =>
    (setStateAt w ptr START).bind fun rw =>
    if rw.1 ≠ OK then some (rw.1, rw.2)
    else
      (GPIO_SET_LEVEL_LOW rw.2 ptr i2c_type_t.sda).bind fun w =>
      (GPIO_SET_LEVEL_LOW (delay w TICKS_IN_600_NS) ptr i2c_type_t.scl).bind fun w =>
      match w.heap ptr with
      | none => none
      | some c => writeByte w ptr (c.slaveAddress &&& 0xFE)

/-- Translation of `I2C_StopXmit(context)`. -/
def I2C_StopXmit (w : World) (context : Nat) : Option (RESULT × World) :=
  match ASSIGN_CONTEXT w context with
  | none => none
  | some (Except.error r) => some (r, w)
  | some (Except.ok ptr) =>
    (setStateAt w ptr READY).bind fun rw =>
    if rw.1 ≠ OK then some (rw.1, rw.2)
    else
      (GPIO_SET_LEVEL_HIGH rw.2 ptr i2c_type_t.scl).bind fun w =>
      (GPIO_SET_LEVEL_HIGH (delay w TICKS_IN_600_NS) ptr i2c_type_t.sda).bind fun w =>
      some (OK, delay w TICKS_IN_1300_NS)

/-- Translation of `I2C_Write(context, byte)`. -/
def I2C_Write (w : World) (context : Nat) (byte : Nat) : Option (RESULT × World) :=
  match ASSIGN_CONTEXT w context with
  | none => none
  | some (Except.error r) => some (r, w)
  | some (Except.ok ptr) =>
    (setStateAt w ptr WRITE).bind fun rw =>
    if rw.1 ≠ OK then some (rw.1, rw.2)
    else
      (writeByte rw.2 ptr byte).bind fun bw =>
      (setStateAt bw.2 ptr STOP).bind fun sw =>
      some (bw.1, sw.2)

/-! ## Reading the schedule and the trace -/

/-- Whether a schedule `q` triggers the handler of context `p` at its `k`-th
entry, given the list `I` of contexts the handler is registered with. -/
def runsAt (I : List Nat) (q : List (List Nat)) (p k : Nat) : Bool :=
  decide (p ∈ I) && decide (p ∈ q.getD k [])

/-- Whether the schedule `q` triggers the handler of context `p` at one of
its entries `k, ..., k+n-1`. -/
def runsIn (I : List Nat) (q : List (List Nat)) (p k n : Nat) : Bool :=
  (List.range n).any fun j => runsAt I q p (k + j)

/-- Whether the handler of context `p` runs at the `k`-th preemption point
from now: the handler is registered with `p` and the `k`-th entry of the
schedule triggers it.  Preemption points are counted from 0. -/
def World.handlerRunsAt (w : World) (p k : Nat) : Bool :=
  runsAt w.isr w.irq p k

/-- Whether the handler of context `p` runs at one of the `n` preemption
points `k, k+1, ..., k+n-1` from now. -/
def World.handlerRunsIn (w : World) (p k n : Nat) : Bool :=
  runsIn w.isr w.irq p k n

/-- The line events of the loop of `writeByte` for the masks
`2^(k-1), ..., 2, 1`, on clock pin `scl` and data pin `sda`. -/
def bitEvents (scl sda byteToSend : Nat) : Nat → List LineEvent
  | 0 => []
  | k + 1 =>
    (if (byteToSend &&& 2 ^ k) % 2 ^ 8 > 0 then LineEvent.HIGH sda else LineEvent.LOW sda)
      :: LineEvent.HIGH scl :: LineEvent.LOW scl :: bitEvents scl sda byteToSend k

/-- The line events of the acknowledge phase of `writeByte`. -/
def ackEvents (scl sda : Nat) : List LineEvent :=
  [LineEvent.HIGH sda, LineEvent.HIGH scl, LineEvent.LOW scl, LineEvent.LOW sda,
   LineEvent.delay TICKS_IN_100_NS]

/-- The clock events in a trace: `true` for clock high, `false` for clock low. -/
def clockEdges (scl : Nat) : List LineEvent → List Bool
  | [] => []
  | LineEvent.HIGH pin :: es => if pin = scl then true :: clockEdges scl es else clockEdges scl es
  | LineEvent.LOW pin :: es => if pin = scl then false :: clockEdges scl es else clockEdges scl es
  | _ :: es => clockEdges scl es

/-- The level driven on the data line at each event that sets the clock line
high, in order, when the data line is driven at level `level` before the first
event of the trace. -/
def sampled (scl sda : Nat) : Bool → List LineEvent → List Bool
  | _, [] => []
  | level, LineEvent.HIGH pin :: es =>
    if pin = scl then level :: sampled scl sda level es
    else if pin = sda then sampled scl sda true es
    else sampled scl sda level es
  | level, LineEvent.LOW pin :: es =>
    if pin = sda then sampled scl sda false es
    else sampled scl sda level es
  | level, _ :: es => sampled scl sda level es

/-- The number whose binary digits, most significant first, are `bits`. -/
def assemble (bits : List Bool) : Nat :=
  bits.foldl (fun n bit => 2 * n + (if bit then 1 else 0)) 0

/-- A sample record: the display at address 0x3C on pins 4 and 5, idle. -/
def sampleCtx : i2c_type_t :=
  { tag := 0x3FFE8000, slaveAddress := 0x78, scl := 4, sda := 5, useAck := true,
    state := READY, isrAckCount := 0 }

/-! ## Definitions used to state and prove the theorems -/

/-- The record of context `p` after a preemption point at entry `k` of the
schedule `q`. -/
def afterIrq (I : List Nat) (q : List (List Nat)) (p k : Nat) (c : i2c_type_t) : i2c_type_t :=
  if runsAt I q p k then ReadAckISR c else c

/-- The part of the machine that an operation on context `p` depends on: the
record `c` at `p`, the registrations `I`, the trace `t`, and the schedule, of
which the first `k` entries of `q` have been consumed. -/
structure Focus (w : World) (p : Nat) (c : i2c_type_t) (I : List Nat) (t : List LineEvent)
    (q : List (List Nat)) (k : Nat) : Prop where
  heap : w.heap p = some c
  isr : w.isr = I
  trace : w.trace = t
  irq : w.irq = q.drop k

/-- The record of a context with record `c` when `writeByte` returns, if
`writeByte` was entered at entry `k` of the schedule `q`: the state is WRITE
and the handler has counted one acknowledge if it ran between the state being
set to ACK and the state being read (entries `k+25 .. k+30`) or, failing
that, between that read and the forced transition to WRITE (entry `k+31`). -/
def byteRecord (I : List Nat) (q : List (List Nat)) (p k : Nat) (c : i2c_type_t) : i2c_type_t :=
  { c with
    state := WRITE,
    isrAckCount :=
      if runsIn I q p (k + 25) 6 || runsAt I q p (k + 31) then (c.isrAckCount + 1) % 2 ^ 32
      else c.isrAckCount }

/-- A machine with no live record, no registered handler and an empty
schedule. -/
def emptyWorld : World :=
  { heap := fun _ => none, isr := [], trace := [], irq := [] }

/-- A machine holding `sampleCtx` in state WRITE at its own address, with the
handler registered and an empty schedule (a silent peer). -/
def sampleWorld : World :=
  { heap := fun q => if q = 0x3FFE8000 then some { sampleCtx with state := WRITE } else none,
    isr := [0x3FFE8000], trace := [], irq := [] }

/-- A machine holding at 0x3FFE8000 a record in state WRITE whose counter
has its largest 32-bit value, with the handler registered and triggered once,
at the preemption point right after `writeByte` has set the state to ACK. -/
def wrapWorld : World :=
  { heap := fun q =>
      if q = 0x3FFE8000 then
        some { sampleCtx with state := WRITE, isrAckCount := 4294967295 }
      else none,
    isr := [0x3FFE8000], trace := [],
    irq := List.replicate 25 [] ++ [[0x3FFE8000]] }

/-- The result code, and the state and counter of the record at `ptr`, after
an operation. -/
def outcome (r : Option (RESULT × World)) (ptr : Nat) :
    Option (RESULT × Option (I2C_STATE × Nat)) :=
  r.map fun x => (x.1, (x.2.heap ptr).map fun c => (c.state, c.isrAckCount))

/-- A machine holding `sampleCtx` in state WRITE with the handler registered
and triggered once, right after `writeByte` has set the state to ACK. -/
def ackWorld : World :=
  { heap := fun q => if q = 0x3FFE8000 then some { sampleCtx with state := WRITE } else none,
    isr := [0x3FFE8000], trace := [],
    irq := List.replicate 25 [] ++ [[0x3FFE8000]] }

/-- A platform on which every pin below 17 is a valid GPIO, allocation
returns the address 0x3FFE8000 and every SDK call succeeds. -/
def samplePlatform : Platform where
  validGpio := fun pin => decide (pin < 17)
  malloc := 0x3FFE8000
  uninit :=
    { tag := 0, slaveAddress := 0, scl := 0, sda := 0, useAck := false, state := ACK,
      isrAckCount := 7 }
  gpio_config := esp_err_t.ESP_OK
  gpio_install_isr_service := esp_err_t.ESP_OK
  gpio_set_intr_type := esp_err_t.ESP_OK
  gpio_isr_handler_add := esp_err_t.ESP_OK

/-- The result code, the record created at the allocated address and the
handle variable after a call of `I2C_Initialize`. -/
def initOutcome (r : Option (RESULT × World × Option Nat)) (ptr : Nat) :
    Option (RESULT × Option i2c_type_t × Option Nat) :=
  r.map fun x => (x.1, x.2.1.heap ptr, x.2.2)

/-- Scenario C of the specification: `I2C_Initialize(0x3C, 4, 5, true)`, then
`I2C_StartXmit`, `I2C_Write(0xFF)` and `I2C_StopXmit` with a peer that never
pulls the data line low (empty schedule).  The components are the results of
the three operations, the counter after the write and the state after the
stop. -/
def scenarioC : Option (RESULT × RESULT × RESULT × Option Nat × Option I2C_STATE) :=
  (I2C_Initialize samplePlatform emptyWorld 0x3C 4 5 true (some 0)).bind fun i =>
  (I2C_StartXmit i.2.1 0x3FFE8000).bind fun s =>
  (I2C_Write s.2 0x3FFE8000 0xFF).bind fun wr =>
  (I2C_StopXmit wr.2 0x3FFE8000).bind fun st =>
  some (s.1, wr.1, st.1, (wr.2.heap 0x3FFE8000).map (fun c => c.isrAckCount),
    (st.2.heap 0x3FFE8000).map (fun c => c.state))

/-- The machine after `I2C_Write(0xFF)` on the sample machine. -/
def nackWorld : World :=
  ((I2C_Write sampleWorld 0x3FFE8000 0xFF).map Prod.snd).getD emptyWorld

/-- A machine holding `sampleCtx` in state STOP at its own address, with the
handler registered and an empty schedule. -/
def stopWorld : World :=
  { heap := fun q => if q = 0x3FFE8000 then some { sampleCtx with state := STOP } else none,
    isr := [0x3FFE8000], trace := [], irq := [] }

/-- A machine holding `sampleCtx` (state READY) at its own address, with the
handler registered and an empty schedule. -/
def readyWorld : World :=
  { heap := fun q => if q = 0x3FFE8000 then some sampleCtx else none,
    isr := [0x3FFE8000], trace := [], irq := [] }

/-- A machine holding `sampleCtx` (state READY) at its own address, with the
handler registered and triggered once, right after the `writeByte` called by
`I2C_StartXmit` has set the state to ACK (preemption point 29 of that call). -/
def readyAckWorld : World :=
  { heap := fun q => if q = 0x3FFE8000 then some sampleCtx else none,
    isr := [0x3FFE8000], trace := [],
    irq := List.replicate 29 [] ++ [[0x3FFE8000]] }

/-- A machine in which the address 0x3FFE8000 holds a record whose identity
tag is 0, not its own address. -/
def corruptWorld : World :=
  { heap := fun q => if q = 0x3FFE8000 then some { sampleCtx with tag := 0 } else none,
    isr := [0x3FFE8000], trace := [], irq := [[0x3FFE8000]] }

/-- A platform like `samplePlatform` on which `gpio_config` fails. -/
def configFailPlatform : Platform where
  validGpio := fun pin => decide (pin < 17)
  malloc := 0x3FFE8000
  uninit :=
    { tag := 0, slaveAddress := 0, scl := 0, sda := 0, useAck := false, state := ACK,
      isrAckCount := 7 }
  gpio_config := esp_err_t.ESP_FAIL
  gpio_install_isr_service := esp_err_t.ESP_OK
  gpio_set_intr_type := esp_err_t.ESP_OK
  gpio_isr_handler_add := esp_err_t.ESP_OK

/-- A platform like `samplePlatform` on which `gpio_isr_handler_add` fails. -/
def handlerFailPlatform : Platform where
  validGpio := fun pin => decide (pin < 17)
  malloc := 0x3FFE8000
  uninit :=
    { tag := 0, slaveAddress := 0, scl := 0, sda := 0, useAck := false, state := ACK,
      isrAckCount := 7 }
  gpio_config := esp_err_t.ESP_OK
  gpio_install_isr_service := esp_err_t.ESP_OK
  gpio_set_intr_type := esp_err_t.ESP_OK
  gpio_isr_handler_add := esp_err_t.ESP_ERR_INVALID_ARG

/-- The increment `n++` of a `uint32_t`. -/
def incr32 (n : Nat) : Nat := (n + 1) % 2 ^ 32

/-- Record `c2` is record `c` after some steps during which the handler found
the state ACK `j` times: the identity tag, the address, the pins and the
acknowledge flag are the same, and the counter has been incremented `j`
times as a 32-bit value.  The state is not constrained. -/
structure Evolved (c c2 : i2c_type_t) (j : Nat) : Prop where
  tag : c2.tag = c.tag
  slaveAddress : c2.slaveAddress = c.slaveAddress
  scl : c2.scl = c.scl
  sda : c2.sda = c.sda
  useAck : c2.useAck = c.useAck
  counter : c2.isrAckCount = Nat.iterate incr32 j c.isrAckCount

/-- One step of a sequence of uses of the context handle `ptr`: a call of
`I2C_StartXmit`, `I2C_Write` or `I2C_StopXmit`, or one trigger of the
interrupt for the context between two calls. -/
inductive Op where
  | startXmit
  | write (byte : Nat)
  | stopXmit
  | handler
  deriving DecidableEq, Repr

/-- The machine after one step (`none` when the call has no defined result). -/
def Op.apply (ptr : Nat) (w : World) : Op → Option World
  | Op.startXmit => (I2C_StartXmit w ptr).map Prod.snd
  | Op.write byte => (I2C_Write w ptr byte).map Prod.snd
  | Op.stopXmit => (I2C_StopXmit w ptr).map Prod.snd
  | Op.handler => some (w.runISR ptr)

/-- The machine after a finite sequence of steps. -/
def runOps (ptr : Nat) : World → List Op → Option World
  | w, [] => some w
  | w, op :: ops => (Op.apply ptr w op).bind fun w1 => runOps ptr w1 ops

/-- A machine holding at 0x3FFE8000 a record in state WRITE whose counter
has its largest 32-bit value, with the handler registered and triggered once,
right after the `writeByte` called by `I2C_Write` has set the state to ACK
(preemption point 26 of that call). -/
def wrapWriteWorld : World :=
  { heap := fun q =>
      if q = 0x3FFE8000 then
        some { sampleCtx with state := WRITE, isrAckCount := 4294967295 }
      else none,
    isr := [0x3FFE8000], trace := [],
    irq := List.replicate 26 [] ++ [[0x3FFE8000]] }

/-! ## `writeByte` at the granularity of single accesses

To follow the handler preempting the foreground at any instruction boundary,
also inside `setState`, the foreground of `writeByte` is split into its
accesses to the shared record and to the lines.  The handler reads and writes
only the record, so a run of the handler between two such accesses has the
same effect wherever it falls between them: there is one boundary in front of
every access, and a schedule says how many times the handler runs at each
boundary.  Reads and writes of the field `state` are single, indivisible
accesses. -/

/-- Who writes the field `state`. -/
inductive Writer where
  | foreground
  | handler
  deriving DecidableEq, Repr

/-- One write to the field `state`: the writer, the value the field held and
the value stored. -/
structure StateWrite where
  writer : Writer
  before : I2C_STATE
  after : I2C_STATE
  deriving DecidableEq, Repr

/-- The machine seen at the granularity of single accesses: the record of
the context, the line events so far, the writes to the field `state` so far,
and the schedule: the number of handler runs at each following boundary. -/
structure Fine where
  ctx : i2c_type_t
  trace : List LineEvent
  writes : List StateWrite
  irq : List Nat

/-- One run of `ReadAckISR`: the record changes as `ReadAckISR` says, and the
write `ptr->state = WRITE`, made only in the branch taken in state ACK, is
recorded. -/
def Fine.isr (m : Fine) : Fine :=
  { m with
    ctx := ReadAckISR m.ctx,
    writes :=
      if m.ctx.state = ACK then
        m.writes ++ [{ writer := Writer.handler, before := m.ctx.state,
                       after := (ReadAckISR m.ctx).state }]
      else m.writes }

/-- A boundary: the handler runs as many times as the head of the schedule
says. -/
def Fine.boundary (m : Fine) : Fine :=
  Nat.iterate Fine.isr (m.irq.headD 0) { m with irq := m.irq.tail }

/-- A read of the field `state` by the foreground, after a boundary. -/
def Fine.readState (m : Fine) : I2C_STATE × Fine :=
  (m.boundary.ctx.state, m.boundary)

/-- The write `ptr->state = s` by the foreground, after a boundary. -/
def Fine.writeState (m : Fine) (s : I2C_STATE) : Fine :=
  { m.boundary with
    ctx := { m.boundary.ctx with state := s },
    writes := m.boundary.writes ++
      [{ writer := Writer.foreground, before := m.boundary.ctx.state, after := s }] }

/-- A write to a line or a call of `delay` by the foreground, after a
boundary. -/
def Fine.line (m : Fine) (e : LineEvent) : Fine :=
  { m.boundary with trace := m.boundary.trace ++ [e] }

/-- The path of `setState` that returns INVALID_STATE_CHANGE_REQUEST: the log
statement reads the field `state` once more. -/
def setStateFine.invalid (m : Fine) : RESULT × Fine :=
  (INVALID_STATE_CHANGE_REQUEST, m.readState.2)

/-- Body of `case ACK:` of `setState`, access by access. -/
def setStateFine.caseACK (m : Fine) (newState : I2C_STATE) : RESULT × Fine :=
  match newState with
  | WRITE => (OK, m.writeState newState)
  | _ => setStateFine.invalid m

/-- Body of `case READY:` of `setState`, access by access. -/
def setStateFine.caseREADY (m : Fine) (newState : I2C_STATE) : RESULT × Fine :=
  match newState with
  | START => (OK, m.writeState newState)
  | _ => setStateFine.invalid m

/-- Body of `case START:` of `setState`, access by access. -/
def setStateFine.caseSTART (m : Fine) (newState : I2C_STATE) : RESULT × Fine :=
  match newState with
  | ACK => (OK, m.writeState newState)
  | WRITE => (OK, m.writeState newState)
  | _ => setStateFine.invalid m

/-- Body of `case WRITE:` of `setState`, access by access. -/
def setStateFine.caseWRITE (m : Fine) (newState : I2C_STATE) : RESULT × Fine :=
  match newState with
  | ACK => (OK, m.writeState newState)
  | STOP => (OK, m.writeState newState)
  | _ => setStateFine.invalid m

/-- Body of `case STOP:` of `setState`, access by access, falling through
into `case WRITE:`. -/
def setStateFine.caseSTOP (m : Fine) (newState : I2C_STATE) : RESULT × Fine :=
  match newState with
  | READY => (OK, m.writeState newState)
  | WRITE => (OK, m.writeState newState)
  | _ => setStateFine.caseWRITE m newState

/-- Translation of `setState` access by access: the read in
`newState == ptr->state`, the read in `switch (ptr->state)`, and the write
`ptr->state = newState`. -/
def setStateFine (m : Fine) (newState : I2C_STATE) : RESULT × Fine :=
  if newState = m.readState.1 then (OK, m.readState.2)
  else
    match m.readState.2.readState.1 with
    | ACK => setStateFine.caseACK m.readState.2.readState.2 newState
    | READY => setStateFine.caseREADY m.readState.2.readState.2 newState
    | START => setStateFine.caseSTART m.readState.2.readState.2 newState
    | STOP => setStateFine.caseSTOP m.readState.2.readState.2 newState
    | WRITE => setStateFine.caseWRITE m.readState.2.readState.2 newState

/-- One iteration of the loop of `writeByte`, access by access. -/
def writeByteFine.body (m : Fine) (byteToSend bitMask : Nat) : Fine :=
  let bitToSend := (byteToSend &&& bitMask) % 2 ^ 8
  let m1 :=
    if bitToSend > 0 then m.line (LineEvent.HIGH m.ctx.sda)
    else m.line (LineEvent.LOW m.ctx.sda)
  let m2 := m1.line (LineEvent.HIGH m1.ctx.scl)
  m2.line (LineEvent.LOW m2.ctx.scl)

/-- The loop of `writeByte`, access by access, bounded by `fuel` iterations. -/
def writeByteFine.loop : Nat → Fine → Nat → Nat → Option Fine
  | fuel, m, byteToSend, bitMask =>
    if bitMask ≠ 0x1 then
      match fuel with
      | 0 => none
      | fuel + 1 =>
        writeByteFine.loop fuel (writeByteFine.body m byteToSend ((bitMask >>> 1) % 2 ^ 16))
          byteToSend ((bitMask >>> 1) % 2 ^ 16)
    else some m

/-- The part of `writeByte` after the loop, access by access.  In the branch
that returns FAILED_WRITE_RECEIVED_NACK the log statement reads
`isrAckCount`; there is a last boundary before each return. -/
def writeByteFine.ackPhase (m : Fine) : RESULT × Fine :=
  let m1 := (setStateFine m ACK).2
  let m2 := m1.line (LineEvent.HIGH m1.ctx.sda)
  let m3 := m2.line (LineEvent.HIGH m2.ctx.scl)
  let m4 := m3.line (LineEvent.LOW m3.ctx.scl)
  let m5 := m4.line (LineEvent.LOW m4.ctx.sda)
  let m6 := m5.line (LineEvent.delay TICKS_IN_100_NS)
  if m6.readState.1 = ACK then
    (FAILED_WRITE_RECEIVED_NACK, (setStateFine m6.readState.2 WRITE).2.boundary.boundary)
  else (OK, m6.readState.2.boundary)

/-- Translation of `writeByte` access by access. -/
def writeByteFine (m : Fine) (byteToSend : Nat) : Option (RESULT × Fine) :=
  (writeByteFine.loop 16 m byteToSend 0x0100).map writeByteFine.ackPhase

/-- Whether a write to the field `state` is one of those the design allows:
the foreground may write while the field holds ACK only to store WRITE, and
the handler may only turn ACK into WRITE. -/
def StateWrite.allowed (e : StateWrite) : Bool :=
  match e.writer with
  | Writer.foreground => decide (e.before = ACK → e.after = WRITE)
  | Writer.handler => decide (e.before = ACK ∧ e.after = WRITE)

/-- A machine at the granularity of single accesses holding `sampleCtx` in
state WRITE, on which the handler runs twice at every one of the first 64
boundaries. -/
def busyFine : Fine :=
  { ctx := { sampleCtx with state := WRITE }, trace := [], writes := [],
    irq := List.replicate 64 2 }

/-- Every write to the field `state` recorded so far is an allowed one. -/
def Fine.Good (m : Fine) : Prop := ∀ e ∈ m.writes, e.allowed = true

/-- A machine at the granularity of single accesses holding `sampleCtx` in
state WRITE, on which the handler never runs. -/
def quietFine : Fine :=
  { ctx := { sampleCtx with state := WRITE }, trace := [], writes := [], irq := [] }

/-- A machine at the granularity of single accesses holding `sampleCtx` in
state WRITE, on which the handler runs once, at boundary 35 of `writeByte`:
inside the call `setState(ptr, WRITE)` of the branch taken when no
acknowledge has been seen, after `setState` has read the field twice and
before it writes it. -/
def lateFine : Fine :=
  { ctx := { sampleCtx with state := WRITE }, trace := [], writes := [],
    irq := List.replicate 35 0 ++ [1] }

/-! ## The busy wait of timer_util.h -/

/-- Translation of `getCCOUNT()`: one read of the 32-bit register CCOUNT.  The
values the register holds at the successive reads are an input of the model,
the list `ccount`; the result is the value read and the readings still to
come, and `none` when the list is used up. -/
def timer_util.getCCOUNT (ccount : List Nat) : Option (Nat × List Nat) :=
  match ccount with
  | [] => none
  | c :: rest => some (c % 2 ^ 32, rest)

/-- The value of the `uint32_t` expression `c - start`. -/
def timer_util.elapsed (start c : Nat) : Nat :=
  (c % 2 ^ 32 + 2 ^ 32 - start % 2 ^ 32) % 2 ^ 32

/-- The loop `while ((getCCOUNT()-start) < delay_time_in_cpu_ticks);`: each
iteration reads the register once.  The result is the reading at which the
loop ends and the readings still to come, and `none` when the loop is still
running after the last reading of the list. -/
def timer_util.delay.loop (start ticks : Nat) : List Nat → Option (Nat × List Nat)
  | [] => none
  | c :: rest =>
    if timer_util.elapsed start c < ticks then timer_util.delay.loop start ticks rest
    else some (c % 2 ^ 32, rest)

/-- Translation of `delay(delay_time_in_cpu_ticks)` of timer_util.h (the
argument is a `uint32_t`). -/
def timer_util.delay (delay_time_in_cpu_ticks : Nat) (ccount : List Nat) :
    Option (Nat × List Nat) :=
  match timer_util.getCCOUNT ccount with
  | none => none
  | some (start, rest) => timer_util.delay.loop start (delay_time_in_cpu_ticks % 2 ^ 32) rest

/-! ## Levels driven on the two lines -/

/-- A change of the level driven on the data line: whether the level rises
(otherwise it falls), and the level driven on the clock line at that moment.
A fall while the clock is high is a START condition, a rise while the clock is
high is a STOP condition. -/
structure DataEdge where
  rising : Bool
  clock : Bool
  deriving DecidableEq, Repr

/-- The changes of the level driven on the data line `sda` along a trace, in
order, when the clock line `scl` is driven at level `clk` and the data line at
level `dat` before the first event. -/
def dataEdges (scl sda : Nat) : Bool → Bool → List LineEvent → List DataEdge
  | _, _, [] => []
  | clk, dat, LineEvent.HIGH pin :: es =>
    (if pin = sda ∧ dat = false then [{ rising := true, clock := clk }] else []) ++
      dataEdges scl sda (if pin = scl then true else clk) (if pin = sda then true else dat) es
  | clk, dat, LineEvent.LOW pin :: es =>
    (if pin = sda ∧ dat = true then [{ rising := false, clock := clk }] else []) ++
      dataEdges scl sda (if pin = scl then false else clk) (if pin = sda then false else dat) es
  | clk, dat, _ :: es => dataEdges scl sda clk dat es

/-- The level driven on line `pin` after a trace, when it is driven at `level`
before the first event. -/
def driven (pin : Nat) : Bool → List LineEvent → Bool
  | level, [] => level
  | level, LineEvent.HIGH p :: es => driven pin (if p = pin then true else level) es
  | level, LineEvent.LOW p :: es => driven pin (if p = pin then false else level) es
  | level, _ :: es => driven pin level es

/-- The events of a trace that set a line: the calls of `delay` and
`gpio_config` are left out. -/
def levelEvents : List LineEvent → List LineEvent
  | [] => []
  | LineEvent.HIGH p :: es => LineEvent.HIGH p :: levelEvents es
  | LineEvent.LOW p :: es => LineEvent.LOW p :: levelEvents es
  | _ :: es => levelEvents es

/-! ## The display driver (components/ssd1306/ssd1306.c)

The display driver keeps a record of its own, `ssd1306_t`, that holds the
handle of an I2C context, and drives the display through calls of
`I2C_StartXmit`, `I2C_Write` and `I2C_StopXmit`.  Its functions are translated
over a machine that holds the machine of the I2C driver, the live records of
the display driver, and the list of the calls of the I2C driver made so far,
each with the result code it returned.  Calls of the logging macros are left
out. -/

/-- Private context record `ssd1306_t` of ssd1306.c: `header` is the address
of the record itself, `i2c` the handle of the I2C context. -/
structure ssd1306_t where
  header : Nat
  i2c : Nat
  deriving DecidableEq, Repr

/-- One call of the I2C driver: the function, its arguments and the result
code it returned. -/
inductive I2CCall where
  | StartXmit (context : Nat) (result : RESULT)
  | Write (context : Nat) (byte : Nat) (result : RESULT)
  | StopXmit (context : Nat) (result : RESULT)
  deriving DecidableEq, Repr

/-- The result code a call returned. -/
def I2CCall.result : I2CCall → RESULT
  | I2CCall.StartXmit _ r => r
  | I2CCall.Write _ _ r => r
  | I2CCall.StopXmit _ r => r

/-- The machine as the display driver sees it: the machine of the I2C driver,
the records of type `ssd1306_t` stored in live allocations (`none`: no live
record at that address), and the calls of the I2C driver made so far, oldest
first. -/
structure Board where
  world : World
  ssd : Nat → Option ssd1306_t
  calls : List I2CCall

/-- The macro `SSD1306_COMMAND_SINGLE_BYTE`. -/
def SSD1306_COMMAND_SINGLE_BYTE : Nat := 0x80

/-- The macro `SSD1306_COMMAND_MULTI_BYTE`. -/
def SSD1306_COMMAND_MULTI_BYTE : Nat := 0x00

/-- The macro `SSD1306_DATA_STREAM`. -/
def SSD1306_DATA_STREAM : Nat := 0x40

/-- The macro `SSD1306_SET_COLUMN_ADDRESS`. -/
def SSD1306_SET_COLUMN_ADDRESS : Nat := 0x21

/-- The macro `SSD1306_SET_PAGE_ADDRESS`. -/
def SSD1306_SET_PAGE_ADDRESS : Nat := 0x22

/-- The macro `SSD1306_SET_CONTRAST`. -/
def SSD1306_SET_CONTRAST : Nat := 0x81

/-- The macro `SSD1306_SET_DISPLAY_OFF`. -/
def SSD1306_SET_DISPLAY_OFF : Nat := 0xAE

/-- The macro `SSD1306_SET_DISPLAY_ON`. -/
def SSD1306_SET_DISPLAY_ON : Nat := 0xAF

/-- The macro `SSD1306_PAGES`. -/
def SSD1306_PAGES : Nat := 8

/-- The macro `SSD1306_WIDTH` of ssd1306.h. -/
def SSD1306_WIDTH : Nat := 128

/-- The macro `SSD1306_HEIGHT` of ssd1306.h. -/
def SSD1306_HEIGHT : Nat := 64

/-- The macro `ASSIGN_CONTEXT(ptr, context, func_name)` of ssd1306.c:
`some (Except.error r)` when the macro returns `r` from the enclosing function,
`some (Except.ok ptr)` when it assigns `ptr`, `none` when `context` does not
point to a live record (the read of the header is then undefined). -/
def ssd1306.ASSIGN_CONTEXT (m : Board) (context : Nat) : Option (Except RESULT Nat) :=
  if context = 0 then some (Except.error INVALID_ARGUMENT)
  else
    match m.ssd context with
    | none => none
    | some s =>
      if s.header ≠ context then some (Except.error INVALID_ARGUMENT)
      else some (Except.ok context)

/-- The call `I2C_StartXmit(ptr->i2c)`: the result code and the machine
afterwards. -/
def Board.startXmit (m : Board) (ptr : Nat) : Option (RESULT × Board) :=
  match m.ssd ptr with
  | none => none
  | some s =>
    (I2C_StartXmit m.world s.i2c).map fun rw =>
      (rw.1, { m with world := rw.2, calls := m.calls ++ [I2CCall.StartXmit s.i2c rw.1] })

/-- The call `I2C_Write(ptr->i2c, byte)`: the result code and the machine
afterwards. -/
def Board.write (m : Board) (ptr byte : Nat) : Option (RESULT × Board) :=
  match m.ssd ptr with
  | none => none
  | some s =>
    (I2C_Write m.world s.i2c byte).map fun rw =>
      (rw.1, { m with world := rw.2, calls := m.calls ++ [I2CCall.Write s.i2c byte rw.1] })

/-- The call `I2C_StopXmit(ptr->i2c)`: the result code and the machine
afterwards. -/
def Board.stopXmit (m : Board) (ptr : Nat) : Option (RESULT × Board) :=
  match m.ssd ptr with
  | none => none
  | some s =>
    (I2C_StopXmit m.world s.i2c).map fun rw =>
      (rw.1, { m with world := rw.2, calls := m.calls ++ [I2CCall.StopXmit s.i2c rw.1] })

/-- Translation of `sendCommand(ptr, cmd)`. -/
def sendCommand (m : Board) (ptr cmd : Nat) : Option (RESULT × Board) :=
  m.write ptr cmd

/-- The macro `SSD1306_SEND_CMD(ptr, cmd, ret)` followed by the rest of the
enclosing function: when `sendCommand` does not return OK the enclosing
function returns that result at once. -/
def SSD1306_SEND_CMD (m : Board) (ptr cmd : Nat) (rest : Board → Option (RESULT × Board)) :
    Option (RESULT × Board) :=
  (sendCommand m ptr cmd).bind fun rm =>
  if rm.1 ≠ OK then some (rm.1, rm.2) else rest rm.2

/-- Translation of `setWriteLocation(ptr, scol, ecol, spage, epage)`. -/
def setWriteLocation (m : Board) (ptr scol ecol spage epage : Nat) : Option (RESULT × Board) :=
  (m.startXmit ptr).bind fun sm =>
  SSD1306_SEND_CMD sm.2 ptr SSD1306_COMMAND_MULTI_BYTE fun m =>
  SSD1306_SEND_CMD m ptr SSD1306_SET_COLUMN_ADDRESS fun m =>
  SSD1306_SEND_CMD m ptr scol fun m =>
  SSD1306_SEND_CMD m ptr ecol fun m =>
  SSD1306_SEND_CMD m ptr SSD1306_SET_PAGE_ADDRESS fun m =>
  SSD1306_SEND_CMD m ptr spage fun m =>
  SSD1306_SEND_CMD m ptr epage fun m =>
  (m.stopXmit ptr).bind fun tm =>
  some (OK, tm.2)

/-- Translation of `drawPixel(ptr, row, col)`.  `pageId` is a `uint8_t`; the
argument of `I2C_Write` is converted to `uint8_t`. -/
def drawPixel (m : Board) (ptr row col : Nat) : Option (RESULT × Board) :=
  let pageId := (row / SSD1306_PAGES) % 2 ^ 8
  (setWriteLocation m ptr col col pageId pageId).bind fun rm =>
  if rm.1 ≠ OK then some (rm.1, rm.2)
  else
    (rm.2.startXmit ptr).bind fun sm =>
    SSD1306_SEND_CMD sm.2 ptr SSD1306_DATA_STREAM fun m =>
    (m.write ptr ((1 <<< (row - 8 * pageId)) % 2 ^ 8)).bind fun wm =>
    (wm.2.stopXmit ptr).bind fun tm =>
    some (OK, tm.2)

/-- Translation of `SSD1306_TurnDisplayOn(context)`. -/
def SSD1306_TurnDisplayOn (m : Board) (context : Nat) : Option (RESULT × Board) :=
  match ssd1306.ASSIGN_CONTEXT m context with
  | none => none
  | some (Except.error r) => some (r, m)
  | some (Except.ok ptr) =>
    (m.startXmit ptr).bind fun sm =>
    SSD1306_SEND_CMD sm.2 ptr SSD1306_COMMAND_SINGLE_BYTE fun m =>
    SSD1306_SEND_CMD m ptr SSD1306_SET_DISPLAY_ON fun m =>
    (m.stopXmit ptr).bind fun tm =>
    some (OK, tm.2)

/-- Translation of `SSD1306_TurnDisplayOff(context)`. -/
def SSD1306_TurnDisplayOff (m : Board) (context : Nat) : Option (RESULT × Board) :=
  match ssd1306.ASSIGN_CONTEXT m context with
  | none => none
  | some (Except.error r) => some (r, m)
  | some (Except.ok ptr) =>
    (m.startXmit ptr).bind fun sm =>
    SSD1306_SEND_CMD sm.2 ptr SSD1306_COMMAND_SINGLE_BYTE fun m =>
    SSD1306_SEND_CMD m ptr SSD1306_SET_DISPLAY_OFF fun m =>
    (m.stopXmit ptr).bind fun tm =>
    some (OK, tm.2)

/-- The loop `for (int col=0; col<16; col++)` of `SSD1306_FillDisplay` with `n`
iterations left: each iteration writes `fillChar` and goes on whatever the
result of the write. -/
def SSD1306_FillDisplay.cols (ptr fillChar : Nat) : Nat → Board → Option Board
  | 0, m => some m
  | n + 1, m =>
    (m.write ptr fillChar).bind fun rm => SSD1306_FillDisplay.cols ptr fillChar n rm.2

/-- The loop `for (int page=0; page<64; page++)` of `SSD1306_FillDisplay` with
`n` iterations left, followed by the `return OK` after the loop. -/
def SSD1306_FillDisplay.pages (ptr fillChar : Nat) : Nat → Board → Option (RESULT × Board)
  | 0, m => some (OK, m)
  | n + 1, m =>
    (m.startXmit ptr).bind fun sm =>
    SSD1306_SEND_CMD sm.2 ptr SSD1306_DATA_STREAM fun m =>
    (SSD1306_FillDisplay.cols ptr fillChar 16 m).bind fun m =>
    (m.stopXmit ptr).bind fun tm =>
    SSD1306_FillDisplay.pages ptr fillChar n tm.2

/-- Translation of `SSD1306_FillDisplay(context, fillChar)`. -/
def SSD1306_FillDisplay (m : Board) (context fillChar : Nat) : Option (RESULT × Board) :=
  match ssd1306.ASSIGN_CONTEXT m context with
  | none => none
  | some (Except.error r) => some (r, m)
  | some (Except.ok ptr) =>
    (setWriteLocation m ptr 0 (SSD1306_WIDTH - 1) 0 (SSD1306_PAGES - 1)).bind fun rm =>
    if rm.1 ≠ OK then some (rm.1, rm.2)
    else SSD1306_FillDisplay.pages ptr fillChar 64 rm.2

/-- Translation of `SSD1306_DrawPixel(context, row, col)`. -/
def SSD1306_DrawPixel (m : Board) (context row col : Nat) : Option (RESULT × Board) :=
  if row ≥ SSD1306_HEIGHT ∨ col ≥ SSD1306_WIDTH then some (COORDINATE_OUT_OF_RANGE, m)
  else
    match ssd1306.ASSIGN_CONTEXT m context with
    | none => none
    | some (Except.error r) => some (r, m)
    | some (Except.ok ptr) => drawPixel m ptr row col

/-- The loop `for (int col=0; col<16; col++)` of `SSD1306_UpdatePage` with `n`
iterations left, at index `col`: each iteration writes `page->page[col]` and
goes on whatever the result of the write. -/
def SSD1306_UpdatePage.cols (ptr : Nat) (page : Nat → Nat) : Nat → Nat → Board → Option Board
  | 0, _, m => some m
  | n + 1, col, m =>
    (m.write ptr (page col)).bind fun rm => SSD1306_UpdatePage.cols ptr page n (col + 1) rm.2

/-- Translation of `SSD1306_UpdatePage(context, pageId, page)`; the argument
`page` gives the sixteen bytes of the array `page->page`. -/
def SSD1306_UpdatePage (m : Board) (context pageId : Nat) (page : Nat → Nat) :
    Option (RESULT × Board) :=
  match ssd1306.ASSIGN_CONTEXT m context with
  | none => none
  | some (Except.error r) => some (r, m)
  | some (Except.ok ptr) =>
    if pageId > SSD1306_PAGES - 1 then some (INVALID_ARGUMENT, m)
    else
      (setWriteLocation m ptr 0 (SSD1306_WIDTH - 1) pageId pageId).bind fun rm =>
      if rm.1 ≠ OK then some (rm.1, rm.2)
      else
        (rm.2.startXmit ptr).bind fun sm =>
        SSD1306_SEND_CMD sm.2 ptr SSD1306_DATA_STREAM fun m =>
        (SSD1306_UpdatePage.cols ptr page 16 0 m).bind fun m =>
        (m.stopXmit ptr).bind fun tm =>
        some (OK, tm.2)

/-- Translation of `SSD1306_SetContrast(context, contrast)`. -/
def SSD1306_SetContrast (m : Board) (context contrast : Nat) : Option (RESULT × Board) :=
  match ssd1306.ASSIGN_CONTEXT m context with
  | none => none
  | some (Except.error r) => some (r, m)
  | some (Except.ok ptr) =>
    (m.startXmit ptr).bind fun sm =>
    SSD1306_SEND_CMD sm.2 ptr SSD1306_COMMAND_MULTI_BYTE fun m =>
    SSD1306_SEND_CMD m ptr SSD1306_SET_CONTRAST fun m =>
    SSD1306_SEND_CMD m ptr contrast fun m =>
    (m.stopXmit ptr).bind fun tm =>
    some (OK, tm.2)

/-- The result code of an operation of the display driver, the calls of the
I2C driver it made (the calls recorded after the first `n`), and the state of
the I2C context at `i2c` afterwards. -/
def report (r : Option (RESULT × Board)) (n i2c : Nat) :
    Option (RESULT × List I2CCall × Option I2C_STATE) :=
  r.map fun x => (x.1, x.2.calls.drop n, (x.2.world.heap i2c).map i2c_type_t.state)

/-- A board with the display record at 0x3FFE9000 and its I2C context
`sampleCtx` (state READY) at 0x3FFE8000, the handler registered, no call made
yet, and a peer that never pulls the data line low (empty schedule). -/
def silentBoard : Board :=
  { world := readyWorld,
    ssd := fun q => if q = 0x3FFE9000 then some { header := 0x3FFE9000, i2c := 0x3FFE8000 }
      else none,
    calls := [] }

/-- A board like `silentBoard` on which the handler is triggered at each of
the first `n` preemption points and never after. -/
def ackBoard (n : Nat) : Board :=
  { world := { readyWorld with irq := List.replicate n [0x3FFE8000] },
    ssd := fun q => if q = 0x3FFE9000 then some { header := 0x3FFE9000, i2c := 0x3FFE8000 }
      else none,
    calls := [] }

/-- The result codes an operation of the I2C envelope can return. -/
def Allowed (r : RESULT) : Prop :=
  r = OK ∨ r = FAILED_WRITE_RECEIVED_NACK ∨ r = INVALID_ARGUMENT ∨
    r = INVALID_STATE_CHANGE_REQUEST

/-- The handle `h` is null or points to a live record of the I2C driver. -/
def World.nullOrLive (w : World) (h : Nat) : Prop := h = 0 ∨ ∃ c, w.heap h = some c

/-- Every result code that `f` returns is one of the codes of the I2C
envelope. -/
def Codes (f : Board → Option (RESULT × Board)) : Prop :=
  ∀ m r m1, f m = some (r, m1) → Allowed r

/-- What a piece `f` of a function of the display driver does on a board on
which `ptr` points to the live display record `s` and the handle `s.i2c` is
null or live: `f` returns, the display record and the handle are as before,
the calls of the I2C driver made are appended to the list of calls, and if
every one of these calls returned OK then `f` returns OK and the calls are
exactly `expected`. -/
def Runs (ptr : Nat) (s : ssd1306_t) (f : Board → Option (RESULT × Board))
    (expected : List I2CCall) : Prop :=
  ∀ m : Board, m.ssd ptr = some s → m.world.nullOrLive s.i2c →
    ∃ r m1 l, f m = some (r, m1) ∧ m1.ssd ptr = some s ∧ m1.world.nullOrLive s.i2c ∧
      m1.calls = m.calls ++ l ∧ ((∀ x ∈ l, x.result = OK) → r = OK ∧ l = expected)

/-- The calls of `setWriteLocation` on I2C handle `i2c` when every call returns
OK: one transaction with the control byte 0x00, the command 0x21 with the
first and last column, and the command 0x22 with the first and last page. -/
def setWriteLocationCalls (i2c scol ecol spage epage : Nat) : List I2CCall :=
  [I2CCall.StartXmit i2c OK, I2CCall.Write i2c 0x00 OK, I2CCall.Write i2c 0x21 OK,
   I2CCall.Write i2c scol OK, I2CCall.Write i2c ecol OK, I2CCall.Write i2c 0x22 OK,
   I2CCall.Write i2c spage OK, I2CCall.Write i2c epage OK, I2CCall.StopXmit i2c OK]

/-- One data transaction on I2C handle `i2c` in which every call returns OK:
`I2C_StartXmit`, the control byte 0x40, the data bytes, `I2C_StopXmit`. -/
def dataTransaction (i2c : Nat) (bytes : List Nat) : List I2CCall :=
  I2CCall.StartXmit i2c OK :: I2CCall.Write i2c 0x40 OK ::
    (bytes.map fun b => I2CCall.Write i2c b OK) ++ [I2CCall.StopXmit i2c OK]

/-- The data bytes written in a list of calls that all returned OK: the bytes
of the calls of `I2C_Write` other than the control byte that follows each
`I2C_StartXmit`. -/
def dataBytes : List I2CCall → List Nat
  | I2CCall.StartXmit _ _ :: I2CCall.Write _ _ _ :: cs => dataBytes cs
  | I2CCall.Write _ b _ :: cs => b :: dataBytes cs
  | _ :: cs => dataBytes cs
  | [] => []

/-- The part of a board that a function of the display driver depends on,
when `ptr` points to the display record `s`, the handle `s.i2c` is valid and
its record is in state `st`: the registrations `I`, the schedule `q` of which
the first `k` entries have been consumed, and the list `l` of calls made. -/
structure Ctl (m : Board) (ptr : Nat) (s : ssd1306_t) (I : List Nat) (q : List (List Nat))
    (k : Nat) (st : I2C_STATE) (l : List I2CCall) : Prop where
  ssd : m.ssd ptr = some s
  calls : m.calls = l
  context : ∃ c t, Focus m.world s.i2c c I t q k ∧ c.tag = s.i2c ∧ c.state = st

/-- The piece `f` on a peer that acknowledges: entered with the I2C context in
state `st`, if the handler is triggered at each of the next `cost` preemption
points, `f` returns OK after exactly `cost` preemption points, leaves the
context in state `st2` and has made exactly the calls `expected`. -/
def Acked (ptr : Nat) (s : ssd1306_t) (I : List Nat) (f : Board → Option (RESULT × Board))
    (st : I2C_STATE) (cost : Nat) (st2 : I2C_STATE) (expected : List I2CCall) : Prop :=
  ∀ (m : Board) (q : List (List Nat)) (k : Nat) (l : List I2CCall), Ctl m ptr s I q k st l →
    (∀ j, k ≤ j → j < k + cost → runsAt I q s.i2c j = true) →
    ∃ m1, f m = some (OK, m1) ∧ Ctl m1 ptr s I q (k + cost) st2 (l ++ expected)

/-! ## Basic facts about the machine -/

section Machine

variable (w : World) (p q : Nat) (c : i2c_type_t) (e : LineEvent)

@[simp] theorem store_heap_same : (w.store p c).heap p = some c := by
  simp [World.store]

@[simp] theorem store_isr : (w.store p c).isr = w.isr := rfl

@[simp] theorem store_trace : (w.store p c).trace = w.trace := rfl

@[simp] theorem store_irq : (w.store p c).irq = w.irq := rfl

@[simp] theorem emit_heap : (w.emit e).heap = w.heap := rfl

@[simp] theorem emit_isr : (w.emit e).isr = w.isr := rfl

@[simp] theorem emit_trace : (w.emit e).trace = w.trace ++ [e] := rfl

@[simp] theorem emit_irq : (w.emit e).irq = w.irq := rfl

theorem ReadAckISR_idem : ReadAckISR (ReadAckISR c) = ReadAckISR c := by
  unfold ReadAckISR
  by_cases h : c.state = ACK <;> simp [h]

theorem ReadAckISR_of_ne (h : c.state ≠ ACK) : ReadAckISR c = c := by
  simp [ReadAckISR, h]

@[simp] theorem runISR_isr : (w.runISR q).isr = w.isr := by
  unfold World.runISR
  split
  · split <;> rfl
  · rfl

@[simp] theorem runISR_trace : (w.runISR q).trace = w.trace := by
  unfold World.runISR
  split
  · split <;> rfl
  · rfl

@[simp] theorem runISR_irq : (w.runISR q).irq = w.irq := by
  unfold World.runISR
  split
  · split <;> rfl
  · rfl

theorem runISR_heap :
    (w.runISR q).heap p
      = (w.heap p).map fun c => if q = p ∧ p ∈ w.isr then ReadAckISR c else c := by
  unfold World.runISR
  by_cases hq : q ∈ w.isr
  · by_cases hqp : q = p
    · subst hqp
      cases h : w.heap q <;> simp [hq, h, World.store]
    · have hpq : ¬ p = q := fun h => hqp h.symm
      cases h : w.heap q <;> simp [hq, h, hqp, hpq, World.store]
  · by_cases hqp : q = p
    · subst hqp
      simp [hq]
    · simp [hq, hqp]

theorem foldl_runISR_isr (l : List Nat) : ∀ w : World, (l.foldl World.runISR w).isr = w.isr := by
  induction l with
  | nil => intro w; rfl
  | cons a l ih => intro w; simp [List.foldl, ih]

theorem foldl_runISR_trace (l : List Nat) :
    ∀ w : World, (l.foldl World.runISR w).trace = w.trace := by
  induction l with
  | nil => intro w; rfl
  | cons a l ih => intro w; simp [List.foldl, ih]

theorem foldl_runISR_irq (l : List Nat) : ∀ w : World, (l.foldl World.runISR w).irq = w.irq := by
  induction l with
  | nil => intro w; rfl
  | cons a l ih => intro w; simp [List.foldl, ih]

theorem foldl_runISR_heap (l : List Nat) :
    ∀ w : World, (l.foldl World.runISR w).heap p
      = (w.heap p).map fun c => if p ∈ l ∧ p ∈ w.isr then ReadAckISR c else c := by
  induction l with
  | nil => intro w; simp
  | cons a l ih =>
    intro w
    simp only [List.foldl, ih, runISR_heap, runISR_isr]
    cases h : w.heap p with
    | none => simp
    | some c =>
      by_cases h1 : p = a
      · subst h1
        by_cases h2 : p ∈ l <;> by_cases h3 : p ∈ w.isr <;> simp [h2, h3, ReadAckISR_idem]
      · have h1b : ¬ a = p := fun h => h1 h.symm
        by_cases h2 : p ∈ l <;> by_cases h3 : p ∈ w.isr <;> simp [h1, h1b, h2, h3]

@[simp] theorem preempt_isr : w.preempt.isr = w.isr := by
  simp [World.preempt, foldl_runISR_isr]

@[simp] theorem preempt_trace : w.preempt.trace = w.trace := by
  simp [World.preempt, foldl_runISR_trace]

@[simp] theorem preempt_irq : w.preempt.irq = w.irq.tail := by
  simp [World.preempt, foldl_runISR_irq]

theorem preempt_heap :
    w.preempt.heap p
      = (w.heap p).map fun c => if w.handlerRunsAt p 0 then ReadAckISR c else c := by
  have hd : w.irq.headD [] = w.irq.getD 0 [] := by cases w.irq <;> rfl
  simp only [World.preempt, foldl_runISR_heap, World.handlerRunsAt, hd]
  cases h : w.heap p with
  | none => simp
  | some c => simp [runsAt, and_comm]

end Machine

/-! ## The machine seen from one context -/

section Steps

variable {w : World} {p : Nat} {c : i2c_type_t} {I : List Nat} {t : List LineEvent}
  {q : List (List Nat)} {k : Nat}

theorem afterIrq_of_ne (h : c.state ≠ ACK) : afterIrq I q p k c = c := by
  simp [afterIrq, ReadAckISR_of_ne c h]

theorem afterIrq_scl : (afterIrq I q p k c).scl = c.scl := by
  unfold afterIrq ReadAckISR
  split <;> [split; skip] <;> rfl

theorem afterIrq_sda : (afterIrq I q p k c).sda = c.sda := by
  unfold afterIrq ReadAckISR
  split <;> [split; skip] <;> rfl

theorem focus_start (w : World) (h : w.heap p = some c) :
    Focus w p c w.isr w.trace w.irq 0 :=
  ⟨h, rfl, rfl, rfl⟩

theorem runsAt_drop : runsAt I (q.drop k) p 0 = runsAt I q p k := by
  simp [runsAt]

theorem Focus.preempt (F : Focus w p c I t q k) :
    Focus w.preempt p (afterIrq I q p k c) I t q (k + 1) := by
  refine ⟨?_, ?_, ?_, ?_⟩
  · rw [preempt_heap, F.heap]
    simp only [World.handlerRunsAt, F.isr, F.irq, runsAt_drop, Option.map_some', afterIrq]
  · simp [F.isr]
  · simp [F.trace]
  · simp [F.irq, List.tail_drop]

theorem Focus.emit (F : Focus w p c I t q k) (e : LineEvent) :
    Focus (w.emit e) p c I (t ++ [e]) q k :=
  ⟨by simp [F.heap], by simp [F.isr], by simp [F.trace], by simp [F.irq]⟩

theorem Focus.store (F : Focus w p c I t q k) (c2 : i2c_type_t) :
    Focus (w.store p c2) p c2 I t q k :=
  ⟨by simp, by simp [F.isr], by simp [F.trace], by simp [F.irq]⟩

theorem Focus.high_sda (F : Focus w p c I t q k) :
    ∃ w2, GPIO_SET_LEVEL_HIGH w p i2c_type_t.sda = some w2 ∧
      Focus w2 p (afterIrq I q p k c) I (t ++ [LineEvent.HIGH c.sda]) q (k + 1) := by
  have F2 := F.preempt
  refine ⟨_, ?_, F2.emit (LineEvent.HIGH c.sda)⟩
  simp [GPIO_SET_LEVEL_HIGH, F2.heap, afterIrq_sda]

theorem Focus.low_sda (F : Focus w p c I t q k) :
    ∃ w2, GPIO_SET_LEVEL_LOW w p i2c_type_t.sda = some w2 ∧
      Focus w2 p (afterIrq I q p k c) I (t ++ [LineEvent.LOW c.sda]) q (k + 1) := by
  have F2 := F.preempt
  refine ⟨_, ?_, F2.emit (LineEvent.LOW c.sda)⟩
  simp [GPIO_SET_LEVEL_LOW, F2.heap, afterIrq_sda]

theorem Focus.high_scl (F : Focus w p c I t q k) :
    ∃ w2, GPIO_SET_LEVEL_HIGH w p i2c_type_t.scl = some w2 ∧
      Focus w2 p (afterIrq I q p k c) I (t ++ [LineEvent.HIGH c.scl]) q (k + 1) := by
  have F2 := F.preempt
  refine ⟨_, ?_, F2.emit (LineEvent.HIGH c.scl)⟩
  simp [GPIO_SET_LEVEL_HIGH, F2.heap, afterIrq_scl]

theorem Focus.low_scl (F : Focus w p c I t q k) :
    ∃ w2, GPIO_SET_LEVEL_LOW w p i2c_type_t.scl = some w2 ∧
      Focus w2 p (afterIrq I q p k c) I (t ++ [LineEvent.LOW c.scl]) q (k + 1) := by
  have F2 := F.preempt
  refine ⟨_, ?_, F2.emit (LineEvent.LOW c.scl)⟩
  simp [GPIO_SET_LEVEL_LOW, F2.heap, afterIrq_scl]

theorem Focus.delay (F : Focus w p c I t q k) (ticks : Nat) :
    Focus (delay w ticks) p (afterIrq I q p k c) I (t ++ [LineEvent.delay ticks]) q (k + 1) :=
  F.preempt.emit (LineEvent.delay ticks)

theorem Focus.setStateAt (F : Focus w p c I t q k) (s : I2C_STATE) :
    ∃ w2, setStateAt w p s = some ((setState (afterIrq I q p k c) s).1, w2) ∧
      Focus w2 p (setState (afterIrq I q p k c) s).2 I t q (k + 1) := by
  have F2 := F.preempt
  refine ⟨_, ?_, F2.store _⟩
  simp [I2C.setStateAt, F2.heap]

theorem Focus.readState (F : Focus w p c I t q k) :
    ∃ w2, readState w p = some ((afterIrq I q p k c).state, w2) ∧
      Focus w2 p (afterIrq I q p k c) I t q (k + 1) := by
  have F2 := F.preempt
  refine ⟨_, ?_, F2⟩
  simp [I2C.readState, F2.heap]

end Steps

/-! ## The byte transmitter seen from one context -/

section Transmitter

variable {w : World} {p : Nat} {c : i2c_type_t} {I : List Nat} {t : List LineEvent}
  {q : List (List Nat)} {k : Nat}

theorem handlerRunsIn_eq (w : World) (p k n : Nat) :
    w.handlerRunsIn p k n = runsIn w.isr w.irq p k n := rfl

theorem body_spec (b m : Nat) (F : Focus w p c I t q k) :
    ∃ w2 c2, writeByte.body w p b m = some w2 ∧
      Focus w2 p c2 I
        (t ++ [if (b &&& m) % 2 ^ 8 > 0 then LineEvent.HIGH c.sda else LineEvent.LOW c.sda,
               LineEvent.HIGH c.scl, LineEvent.LOW c.scl]) q (k + 3) ∧
      c2.scl = c.scl ∧ c2.sda = c.sda ∧ (c.state ≠ ACK → c2 = c) := by
  unfold writeByte.body
  by_cases hb : (b &&& m) % 2 ^ 8 > 0
  · obtain ⟨w1, e1, F1⟩ := F.high_sda
    obtain ⟨w2, e2, F2⟩ := F1.high_scl
    obtain ⟨w3, e3, F3⟩ := F2.low_scl
    simp only [afterIrq_scl, afterIrq_sda] at F2 F3
    refine ⟨w3, afterIrq I q p (k + 1 + 1) (afterIrq I q p (k + 1) (afterIrq I q p k c)),
      ?_, ?_, ?_, ?_, ?_⟩
    · simp only [hb, if_true, e1, Option.some_bind, e2, e3]
    · rw [if_pos hb]
      simpa only [List.append_assoc, List.singleton_append] using F3
    · simp only [afterIrq_scl]
    · simp only [afterIrq_sda]
    · intro hc
      simp only [afterIrq_of_ne hc]
  · obtain ⟨w1, e1, F1⟩ := F.low_sda
    obtain ⟨w2, e2, F2⟩ := F1.high_scl
    obtain ⟨w3, e3, F3⟩ := F2.low_scl
    simp only [afterIrq_scl, afterIrq_sda] at F2 F3
    refine ⟨w3, afterIrq I q p (k + 1 + 1) (afterIrq I q p (k + 1) (afterIrq I q p k c)),
      ?_, ?_, ?_, ?_, ?_⟩
    · simp only [hb, if_false, e1, Option.some_bind, e2, e3]
    · rw [if_neg hb]
      simpa only [List.append_assoc, List.singleton_append] using F3
    · simp only [afterIrq_scl]
    · simp only [afterIrq_sda]
    · intro hc
      simp only [afterIrq_of_ne hc]

theorem mask_shift (n : Nat) (hn : n ≤ 15) : (2 ^ (n + 1) >>> 1) % 2 ^ 16 = 2 ^ n := by
  have h1 : 2 ^ (n + 1) >>> 1 = 2 ^ n := by
    rw [Nat.shiftRight_eq_div_pow, pow_succ]
    simp
  rw [h1]
  apply Nat.mod_eq_of_lt
  exact Nat.pow_lt_pow_right (by decide) (by omega)

theorem mask_ne_one (n : Nat) : 2 ^ (n + 1) ≠ 1 := by
  have : 1 < 2 ^ (n + 1) := Nat.one_lt_two_pow (by omega)
  omega

theorem loop_spec (b : Nat) :
    ∀ (n : Nat) (w : World) (c : i2c_type_t) (t : List LineEvent) (k : Nat), n ≤ 16 →
      Focus w p c I t q k →
      ∃ w2 c2, (∀ fuel, writeByte.loop (n + fuel) w p b (2 ^ n) = some w2) ∧
        Focus w2 p c2 I (t ++ bitEvents c.scl c.sda b n) q (k + 3 * n) ∧
        c2.scl = c.scl ∧ c2.sda = c.sda ∧ (c.state ≠ ACK → c2 = c) := by
  intro n
  induction n with
  | zero =>
    intro w c t k _ F
    refine ⟨w, c, ?_, ?_, rfl, rfl, fun _ => rfl⟩
    · intro fuel
      unfold writeByte.loop
      simp
    · simpa [bitEvents] using F
  | succ n ih =>
    intro w c t k hn F
    obtain ⟨w1, c1, e1, F1, hscl1, hsda1, hst1⟩ := body_spec b (2 ^ n) F
    obtain ⟨w2, c2, e2, F2, hscl2, hsda2, hst2⟩ := ih w1 c1 _ (k + 3) (by omega) F1
    refine ⟨w2, c2, ?_, ?_, by rw [hscl2, hscl1], by rw [hsda2, hsda1], ?_⟩
    · intro fuel
      have hfuel : n + 1 + fuel = (n + fuel) + 1 := by omega
      rw [hfuel]
      unfold writeByte.loop
      simp only [mask_ne_one, ne_eq, not_false_eq_true, if_true, mask_shift n (by omega), e1,
        Option.some_bind, e2]
    · have hk : k + 3 * (n + 1) = k + 3 + 3 * n := by omega
      rw [hk]
      rw [hscl1, hsda1] at F2
      simpa [bitEvents, List.append_assoc] using F2
    · intro hc
      have h1 : c1 = c := hst1 hc
      have h2 : c2 = c1 := hst2 (by rw [h1]; exact hc)
      rw [h2, h1]

theorem loop_none (b : Nat) :
    ∀ (fuel n : Nat) (w : World) (c : i2c_type_t) (t : List LineEvent) (k : Nat), fuel < n →
      n ≤ 16 → Focus w p c I t q k → writeByte.loop fuel w p b (2 ^ n) = none := by
  intro fuel
  induction fuel with
  | zero =>
    intro n w c t k hlt _ _
    obtain ⟨m, rfl⟩ : ∃ m, n = m + 1 := ⟨n - 1, by omega⟩
    unfold writeByte.loop
    simp [mask_ne_one]
  | succ fuel ih =>
    intro n w c t k hlt hn F
    obtain ⟨m, rfl⟩ : ∃ m, n = m + 1 := ⟨n - 1, by omega⟩
    obtain ⟨w1, c1, e1, F1, _, _, _⟩ := body_spec b (2 ^ m) F
    unfold writeByte.loop
    simp only [mask_ne_one, ne_eq, not_false_eq_true, if_true, mask_shift m (by omega), e1,
      Option.some_bind]
    exact ih m w1 c1 _ (k + 3) (by omega) (by omega) F1

theorem window_eq (cA : i2c_type_t) (k : Nat) :
    afterIrq I q p (k + 5) (afterIrq I q p (k + 4) (afterIrq I q p (k + 3)
      (afterIrq I q p (k + 2) (afterIrq I q p (k + 1) (afterIrq I q p k cA)))))
      = if runsIn I q p k 6 then ReadAckISR cA else cA := by
  have hr : runsIn I q p k 6 = (runsAt I q p k || runsAt I q p (k + 1) || runsAt I q p (k + 2)
      || runsAt I q p (k + 3) || runsAt I q p (k + 4) || runsAt I q p (k + 5)) := by
    simp [runsIn, List.range, List.range.loop, List.any, Bool.or_assoc]
  rw [hr]
  unfold afterIrq
  cases runsAt I q p k <;> cases runsAt I q p (k + 1) <;> cases runsAt I q p (k + 2) <;>
    cases runsAt I q p (k + 3) <;> cases runsAt I q p (k + 4) <;>
    cases runsAt I q p (k + 5) <;> simp [ReadAckISR_idem]

theorem setState_ACK_of (hs : c.state = START ∨ c.state = WRITE) :
    setState c ACK = (OK, { c with state := ACK }) := by
  rcases hs with h | h <;> simp [setState, h, setState.caseSTART, setState.caseWRITE]

theorem writeByteFuel_spec (b fuel : Nat) (hs : c.state = START ∨ c.state = WRITE)
    (F : Focus w p c I t q k) :
    ∃ w2, writeByteFuel (8 + fuel) w p b
        = some (if runsIn I q p (k + 25) 6 then OK else FAILED_WRITE_RECEIVED_NACK, w2) ∧
      Focus w2 p (byteRecord I q p k c) I
        (t ++ bitEvents c.scl c.sda b 8 ++ ackEvents c.scl c.sda) q
        (if runsIn I q p (k + 25) 6 then k + 31 else k + 32) := by
  have hc : c.state ≠ ACK := by rcases hs with h | h <;> simp [h]
  obtain ⟨w1, c1, e1, F1, _, _, hst1⟩ := loop_spec b 8 w c t k (by omega) F
  have e1 := e1 fuel
  rw [hst1 hc] at F1
  obtain ⟨w2, e2, F2⟩ := F1.setStateAt ACK
  rw [afterIrq_of_ne hc, setState_ACK_of hs] at e2 F2
  obtain ⟨w3, e3, F3⟩ := F2.high_sda
  obtain ⟨w4, e4, F4⟩ := F3.high_scl
  obtain ⟨w5, e5, F5⟩ := F4.low_scl
  obtain ⟨w6, e6, F6⟩ := F5.low_sda
  have F7 := F6.delay TICKS_IN_100_NS
  obtain ⟨w8, e8, F8⟩ := F7.readState
  have hk : ∀ j : Nat, k + 3 * 8 + 1 + j = k + 25 + j := by intro j; omega
  have h31 : k + 3 * 8 + 1 + 1 + 1 + 1 + 1 + 1 + 1 = k + 31 := by omega
  have hwin := window_eq (I := I) (q := q) (p := p) { c with state := ACK } (k + 25)
  simp only [Nat.add_assoc, Nat.reduceAdd, Nat.reduceMul] at e8 F8 hwin F3 F4 F5 F6 F7
  simp only [afterIrq_scl, afterIrq_sda] at F3 F4 F5 F6 F7 F8
  rw [hwin] at e8 F8
  have hpow : (0x0100 : Nat) = 2 ^ 8 := by norm_num
  unfold writeByteFuel
  rw [hpow, e1]
  simp only [Option.some_bind, e2, e3, e4, e5, e6, e8]
  by_cases hack : runsIn I q p (k + 25) 6 = true
  · refine ⟨w8, ?_, ?_⟩
    · simp [hack, ReadAckISR]
    · simp only [hack, if_true] at F8 ⊢
      have hrec : byteRecord I q p k c = ReadAckISR { c with state := ACK } := by
        simp [byteRecord, hack, ReadAckISR]
      rw [hrec]
      simpa [ackEvents, List.append_assoc] using F8
  · have hack2 : runsIn I q p (k + 25) 6 = false := by simpa using hack
    simp only [hack2, Bool.false_eq_true, if_false] at F8 ⊢
    obtain ⟨w9, e9, F9⟩ := F8.setStateAt WRITE
    refine ⟨w9, ?_, ?_⟩
    · simp only [if_true, e9, Option.some_bind]
    · have hrec : byteRecord I q p k c
          = (setState (afterIrq I q p (k + 31) { c with state := ACK }) WRITE).2 := by
        by_cases hl : runsAt I q p (k + 31) = true <;>
          simp [byteRecord, hack2, afterIrq, hl, ReadAckISR, setState, setState.caseACK]
      rw [hrec]
      simpa [ackEvents, List.append_assoc] using F9

end Transmitter

/-! ## Reading the trace of one byte -/

section TraceReading
variable {scl sda : Nat}

theorem clockEdges_data (h : sda ≠ scl) (cnd : Prop) [Decidable cnd] (es : List LineEvent) :
    clockEdges scl ((if cnd then LineEvent.HIGH sda else LineEvent.LOW sda) :: es)
      = clockEdges scl es := by
  split <;> simp [clockEdges, h]

theorem sampled_data (h : sda ≠ scl) (cnd : Prop) [Decidable cnd] (level : Bool)
    (es : List LineEvent) :
    sampled scl sda level ((if cnd then LineEvent.HIGH sda else LineEvent.LOW sda) :: es)
      = sampled scl sda (decide cnd) es := by
  split <;> simp [sampled, h, *]

theorem clockEdges_byte (h : scl ≠ sda) (b : Nat) :
    clockEdges scl (bitEvents scl sda b 8 ++ ackEvents scl sda)
      = [true, false, true, false, true, false, true, false, true, false, true, false,
         true, false, true, false, true, false] := by
  simp [bitEvents, ackEvents, clockEdges, clockEdges_data (Ne.symm h), h, Ne.symm h]

theorem sampled_byte (h : scl ≠ sda) (b : Nat) (level : Bool) :
    sampled scl sda level (bitEvents scl sda b 8 ++ ackEvents scl sda)
      = [decide ((b &&& 2 ^ 7) % 2 ^ 8 > 0), decide ((b &&& 2 ^ 6) % 2 ^ 8 > 0),
         decide ((b &&& 2 ^ 5) % 2 ^ 8 > 0), decide ((b &&& 2 ^ 4) % 2 ^ 8 > 0),
         decide ((b &&& 2 ^ 3) % 2 ^ 8 > 0), decide ((b &&& 2 ^ 2) % 2 ^ 8 > 0),
         decide ((b &&& 2 ^ 1) % 2 ^ 8 > 0), decide ((b &&& 2 ^ 0) % 2 ^ 8 > 0), true] := by
  simp [bitEvents, ackEvents, sampled, sampled_data (Ne.symm h), h, Ne.symm h]

set_option maxRecDepth 100000 in
theorem bit_of_byte : ∀ b < 256, ∀ i < 8, decide ((b &&& 2 ^ i) % 2 ^ 8 > 0) = b.testBit i := by
  decide

set_option maxRecDepth 100000 in
theorem assemble_bits :
    ∀ b < 256, assemble ((List.range 8).map fun i => b.testBit (7 - i)) = b := by
  decide

theorem sampled_byte_bits (h : scl ≠ sda) (b : Nat) (level : Bool) (hb : b < 256) :
    (sampled scl sda level (bitEvents scl sda b 8 ++ ackEvents scl sda)).take 8
      = (List.range 8).map fun i => b.testBit (7 - i) := by
  rw [sampled_byte h b level]
  simp only [bit_of_byte b hb _ (by decide : 7 < 8), bit_of_byte b hb _ (by decide : 6 < 8),
    bit_of_byte b hb _ (by decide : 5 < 8), bit_of_byte b hb _ (by decide : 4 < 8),
    bit_of_byte b hb _ (by decide : 3 < 8), bit_of_byte b hb _ (by decide : 2 < 8),
    bit_of_byte b hb _ (by decide : 1 < 8), bit_of_byte b hb _ (by decide : 0 < 8)]
  rfl
end TraceReading

section TransmitterTrace

variable {w : World} {p : Nat} {c : i2c_type_t} {I : List Nat} {t : List LineEvent}
  {q : List (List Nat)} {k : Nat}

theorem setState_snd (c : i2c_type_t) (s : I2C_STATE) :
    (setState c s).2 = c ∨ (setState c s).2 = { c with state := s } := by
  cases h : c.state <;> cases s <;>
    simp [setState, h, setState.caseACK, setState.caseREADY, setState.caseSTART,
      setState.caseSTOP, setState.caseWRITE]

theorem setState_scl (c : i2c_type_t) (s : I2C_STATE) : (setState c s).2.scl = c.scl := by
  rcases setState_snd c s with h | h <;> rw [h]

theorem setState_sda (c : i2c_type_t) (s : I2C_STATE) : (setState c s).2.sda = c.sda := by
  rcases setState_snd c s with h | h <;> rw [h]

theorem writeByteFuel_trace (b fuel : Nat) (F : Focus w p c I t q k) :
    ∃ r w2, writeByteFuel (8 + fuel) w p b = some (r, w2) ∧
      w2.trace = t ++ bitEvents c.scl c.sda b 8 ++ ackEvents c.scl c.sda := by
  obtain ⟨w1, c1, e1, F1, hscl1, hsda1, _⟩ := loop_spec b 8 w c t k (by omega) F
  have e1 := e1 fuel
  obtain ⟨w2, e2, F2⟩ := F1.setStateAt ACK
  obtain ⟨w3, e3, F3⟩ := F2.high_sda
  obtain ⟨w4, e4, F4⟩ := F3.high_scl
  obtain ⟨w5, e5, F5⟩ := F4.low_scl
  obtain ⟨w6, e6, F6⟩ := F5.low_sda
  have F7 := F6.delay TICKS_IN_100_NS
  obtain ⟨w8, e8, F8⟩ := F7.readState
  obtain ⟨w9, e9, F9⟩ := F8.setStateAt WRITE
  simp only [afterIrq_scl, afterIrq_sda, setState_scl, setState_sda, hscl1, hsda1] at F7 F8 F9
  have hpow : (0x0100 : Nat) = 2 ^ 8 := by norm_num
  unfold writeByteFuel
  rw [hpow, e1]
  simp only [Option.some_bind, e2, e3, e4, e5, e6, e8]
  split
  · refine ⟨FAILED_WRITE_RECEIVED_NACK, w9, ?_, ?_⟩
    · simp only [e9, Option.some_bind]
    · simpa [ackEvents, List.append_assoc] using F9.trace
  · refine ⟨OK, w8, rfl, ?_⟩
    simpa [ackEvents, List.append_assoc] using F8.trace

theorem writeByteFuel_none (b fuel : Nat) (hf : fuel < 8) (F : Focus w p c I t q k) :
    writeByteFuel fuel w p b = none := by
  have hpow : (0x0100 : Nat) = 2 ^ 8 := by norm_num
  unfold writeByteFuel
  rw [hpow, loop_none b fuel 8 w c t k hf (by omega) F]
  rfl

theorem writeByteFuel_enough (b fuel : Nat) (hf : 8 ≤ fuel) (F : Focus w p c I t q k) :
    writeByteFuel fuel w p b = writeByteFuel 8 w p b := by
  have hpow : (0x0100 : Nat) = 2 ^ 8 := by norm_num
  obtain ⟨w1, c1, e1, _⟩ := loop_spec b 8 w c t k (by omega) F
  have ea := e1 (fuel - 8)
  have eb := e1 0
  have hfe : 8 + (fuel - 8) = fuel := by omega
  rw [hfe] at ea
  unfold writeByteFuel
  rw [hpow, ea, eb]

end TransmitterTrace

/-! ## The public operations seen from one context -/

section Operations

variable {w : World} {p : Nat} {c : i2c_type_t} {I : List Nat} {t : List LineEvent}
  {q : List (List Nat)} {k : Nat}

theorem assign_ok (hp : p ≠ 0) (hlive : w.heap p = some c) (htag : c.tag = p) :
    ASSIGN_CONTEXT w p = some (Except.ok p) := by
  simp [ASSIGN_CONTEXT, hp, hlive, htag]

theorem writeByte_spec (b : Nat) (hs : c.state = START ∨ c.state = WRITE)
    (F : Focus w p c I t q k) :
    ∃ w2, writeByte w p b
        = some (if runsIn I q p (k + 25) 6 then OK else FAILED_WRITE_RECEIVED_NACK, w2) ∧
      Focus w2 p (byteRecord I q p k c) I
        (t ++ bitEvents c.scl c.sda b 8 ++ ackEvents c.scl c.sda) q
        (if runsIn I q p (k + 25) 6 then k + 31 else k + 32) :=
  writeByteFuel_spec b 8 hs F

theorem byteRecord_state (c : i2c_type_t) : (byteRecord I q p k c).state = WRITE := rfl

theorem byteRecord_tag (c : i2c_type_t) : (byteRecord I q p k c).tag = c.tag := rfl

theorem byteRecord_scl (c : i2c_type_t) : (byteRecord I q p k c).scl = c.scl := rfl

theorem byteRecord_sda (c : i2c_type_t) : (byteRecord I q p k c).sda = c.sda := rfl

/-- `I2C_StartXmit` on a valid handle whose record is in state READY: the
start condition is driven, and the byte handed to `writeByte` is the stored
address with the low bit cleared. -/
theorem startXmit_spec (hp : p ≠ 0) (htag : c.tag = p) (hs : c.state = READY)
    (F : Focus w p c I t q k) :
    ∃ w1, Focus w1 p { c with state := START } I
        (t ++ [LineEvent.LOW c.sda, LineEvent.delay TICKS_IN_600_NS, LineEvent.LOW c.scl]) q
        (k + 4) ∧
      I2C_StartXmit w p = writeByte w1 p (c.slaveAddress &&& 0xFE) := by
  have hc : c.state ≠ ACK := by simp [hs]
  have hset : setState c START = (OK, { c with state := START }) := by
    simp [setState, hs, setState.caseREADY]
  obtain ⟨w1, e1, F1⟩ := F.setStateAt START
  rw [afterIrq_of_ne hc, hset] at e1 F1
  have hc1 : ({ c with state := START } : i2c_type_t).state ≠ ACK := by simp
  obtain ⟨w2, e2, F2⟩ := F1.low_sda
  rw [afterIrq_of_ne hc1] at F2
  have F3 := F2.delay TICKS_IN_600_NS
  rw [afterIrq_of_ne hc1] at F3
  obtain ⟨w4, e4, F4⟩ := F3.low_scl
  rw [afterIrq_of_ne hc1] at F4
  refine ⟨w4, ?_, ?_⟩
  · simpa [List.append_assoc] using F4
  · unfold I2C_StartXmit
    rw [assign_ok hp F.heap htag]
    simp only [e1, Option.some_bind, ne_eq, not_true_eq_false, if_false, e2, e4, F4.heap]

/-- `I2C_StopXmit` on a valid handle, when the transition to READY is
accepted. -/
theorem stopXmit_spec (hp : p ≠ 0) (htag : c.tag = p)
    (hs : c.state = STOP ∨ c.state = READY)
    (F : Focus w p c I t q k) :
    ∃ w2, I2C_StopXmit w p = some (OK, w2) ∧
      Focus w2 p { c with state := READY } I
        (t ++ [LineEvent.HIGH c.scl, LineEvent.delay TICKS_IN_600_NS, LineEvent.HIGH c.sda,
               LineEvent.delay TICKS_IN_1300_NS]) q (k + 5) := by
  have hc : c.state ≠ ACK := by rcases hs with h | h <;> simp [h]
  have hset : setState c READY = (OK, { c with state := READY }) := by
    rcases hs with h | h
    · simp [setState, h, setState.caseSTOP]
    · cases c
      simp only at h
      subst h
      simp [setState]
  obtain ⟨w1, e1, F1⟩ := F.setStateAt READY
  rw [afterIrq_of_ne hc, hset] at e1 F1
  have hc1 : ({ c with state := READY } : i2c_type_t).state ≠ ACK := by simp
  obtain ⟨w2, e2, F2⟩ := F1.high_scl
  rw [afterIrq_of_ne hc1] at F2
  have F3 := F2.delay TICKS_IN_600_NS
  rw [afterIrq_of_ne hc1] at F3
  obtain ⟨w4, e4, F4⟩ := F3.high_sda
  rw [afterIrq_of_ne hc1] at F4
  have F5 := F4.delay TICKS_IN_1300_NS
  rw [afterIrq_of_ne hc1] at F5
  refine ⟨delay w4 TICKS_IN_1300_NS, ?_, ?_⟩
  · unfold I2C_StopXmit
    rw [assign_ok hp F.heap htag]
    simp only [e1, Option.some_bind, ne_eq, not_true_eq_false, if_false, e2, e4]
  · simpa [List.append_assoc] using F5

/-- `I2C_Write` on a valid handle whose record is in a state from which the
transition to WRITE is accepted. -/
theorem write_spec (b : Nat) (hp : p ≠ 0) (htag : c.tag = p)
    (hs : c.state = START ∨ c.state = WRITE ∨ c.state = STOP)
    (F : Focus w p c I t q k) :
    ∃ w1 w2 w3, setStateAt w p WRITE = some (OK, w1) ∧
      Focus w1 p { c with state := WRITE } I t q (k + 1) ∧
      writeByte w1 p b
        = some (if runsIn I q p (k + 26) 6 then OK else FAILED_WRITE_RECEIVED_NACK, w2) ∧
      I2C_Write w p b
        = some (if runsIn I q p (k + 26) 6 then OK else FAILED_WRITE_RECEIVED_NACK, w3) ∧
      Focus w3 p { byteRecord I q p (k + 1) { c with state := WRITE } with state := STOP } I
        (t ++ bitEvents c.scl c.sda b 8 ++ ackEvents c.scl c.sda) q
        (if runsIn I q p (k + 26) 6 then k + 33 else k + 34) := by
  have hc : c.state ≠ ACK := by rcases hs with h | h | h <;> simp [h]
  have hset : setState c WRITE = (OK, { c with state := WRITE }) := by
    rcases hs with h | h | h
    · simp [setState, h, setState.caseSTART]
    · cases c
      simp only at h
      subst h
      simp [setState]
    · simp [setState, h, setState.caseSTOP]
  obtain ⟨w1, e1, F1⟩ := F.setStateAt WRITE
  rw [afterIrq_of_ne hc, hset] at e1 F1
  obtain ⟨w2, e2, F2⟩ := writeByte_spec b (Or.inr rfl) F1
  have hk : k + 1 + 25 = k + 26 := by omega
  rw [hk] at e2 F2
  have hc2 : (byteRecord I q p (k + 1) { c with state := WRITE }).state ≠ ACK := by
    simp [byteRecord_state]
  obtain ⟨w3, e3, F3⟩ := F2.setStateAt STOP
  rw [afterIrq_of_ne hc2] at e3 F3
  have hset3 : setState (byteRecord I q p (k + 1) { c with state := WRITE }) STOP
      = (OK, { byteRecord I q p (k + 1) { c with state := WRITE } with state := STOP }) := by
    simp [setState, byteRecord_state, setState.caseWRITE]
  rw [hset3] at e3 F3
  refine ⟨w1, w2, w3, e1, F1, e2, ?_, ?_⟩
  · unfold I2C_Write
    rw [assign_ok hp F.heap htag]
    simp only [e1, Option.some_bind, ne_eq, not_true_eq_false, if_false, e2, e3]
  · by_cases hack : runsIn I q p (k + 26) 6 = true
    · simp only [hack, if_true] at F3 ⊢
      exact F3
    · simp only [hack, if_false] at F3 ⊢
      exact F3

end Operations

/-! ## What a successful `I2C_Initialize` creates -/

theorem enableACK_ok {env : Platform} {W W2 : World} {ptr : Nat} {c : i2c_type_t}
    (h : enableACK env W ptr = some (OK, W2)) (hc : W.heap ptr = some c) :
    W2 = { W.store ptr { c with useAck := true } with isr := ptr :: W.isr } := by
  unfold enableACK at h
  by_cases h2 : env.gpio_set_intr_type = esp_err_t.ESP_OK
  · cases h1 : env.gpio_install_isr_service <;> cases h3 : env.gpio_isr_handler_add <;>
      simp only [h1, h2, h3, hc, ne_eq, not_true_eq_false, if_false, Option.some.injEq,
        Prod.mk.injEq, true_and, reduceCtorEq, false_and] at h <;>
      exact h.symm
  · cases h1 : env.gpio_install_isr_service <;>
      simp only [h1, h2, ne_eq, not_false_eq_true, if_true, Option.some.injEq,
        Prod.mk.injEq, reduceCtorEq, false_and] at h

theorem initialize_ok {env : Platform} {w w1 : World} {a scl sda h : Nat} {useAck : Bool}
    {slot : Option Nat}
    (hinit : I2C_Initialize env w a scl sda useAck (some h) = some (OK, w1, slot)) :
    slot = some env.malloc ∧ env.malloc ≠ 0 ∧
      ∃ ua, w1.heap env.malloc
          = some { tag := env.malloc, slaveAddress := (a <<< 1) % 2 ^ 8, scl := scl, sda := sda,
                   useAck := ua, state := READY, isrAckCount := 0 } ∧
        w1.trace = w.trace ++ [LineEvent.config ((1 <<< scl) ||| (1 <<< sda)),
          LineEvent.HIGH sda, LineEvent.HIGH scl] ∧
        w1.irq = w.irq := by
  unfold I2C_Initialize at hinit
  simp only at hinit
  by_cases h1 : ¬ env.validGpio scl = true
  · rw [if_pos h1] at hinit
    simp at hinit
  rw [if_neg h1] at hinit
  by_cases h2 : ¬ env.validGpio sda = true
  · rw [if_pos h2] at hinit
    simp at hinit
  rw [if_neg h2] at hinit
  split at hinit
  · simp at hinit
  split at hinit
  · simp at hinit
  by_cases h5 : env.malloc = 0
  · rw [if_pos h5] at hinit
    simp at hinit
  rw [if_neg h5] at hinit
  split at hinit
  · simp at hinit
  cases hu : useAck with
  | false =>
    simp only [hu, Bool.false_eq_true, if_false, Option.some.injEq, Prod.mk.injEq,
      true_and] at hinit
    obtain ⟨hw, hslot⟩ := hinit
    subst hw
    refine ⟨hslot.symm, h5, env.uninit.useAck, ?_, ?_, ?_⟩
    · simp [World.store]
    · simp [World.store, World.emit]
    · simp [World.store, World.emit]
  | true =>
    simp only [hu, if_true] at hinit
    split at hinit
    · simp at hinit
    · rename_i result W2 heq
      by_cases h8 : result = OK
      · subst h8
        simp only [ne_eq, not_true_eq_false, if_false, Option.some.injEq, Prod.mk.injEq,
          true_and] at hinit
        obtain ⟨hw, hslot⟩ := hinit
        have hW := enableACK_ok heq (store_heap_same _ _ _)
        subst hw
        subst hW
        refine ⟨hslot.symm, h5, true, ?_, ?_, ?_⟩
        · simp [World.store]
        · simp [World.store, World.emit]
        · simp [World.store, World.emit]
      · rw [if_pos h8] at hinit
        cases hf : I2C_FreeContext W2 (some env.malloc) with
        | none => simp [hf] at hinit
        | some r =>
          simp only [hf, Option.some_bind, Option.some.injEq, Prod.mk.injEq] at hinit
          exact absurd hinit.1 h8

/-! ## Further facts used by the theorems below -/

theorem runsAt_silent {I : List Nat} {q : List (List Nat)} {p : Nat}
    (h : p ∉ I ∨ ∀ e ∈ q, p ∉ e) (k : Nat) : runsAt I q p k = false := by
  unfold runsAt
  rcases h with h | h
  · simp [h]
  · have hk : p ∉ q.getD k [] := by
      by_cases hlt : k < q.length
      · have hmem : q.getD k [] ∈ q := by
          rw [List.getD_eq_getElem _ _ hlt]
          exact List.getElem_mem hlt
        exact h _ hmem
      · have : q.getD k [] = [] := by
          rw [List.getD_eq_getElem?_getD, List.getElem?_eq_none (by omega)]
          rfl
        rw [this]
        simp
    rw [decide_eq_false hk]
    simp

theorem runsIn_silent {I : List Nat} {q : List (List Nat)} {p : Nat}
    (h : p ∉ I ∨ ∀ e ∈ q, p ∉ e) (k n : Nat) : runsIn I q p k n = false := by
  unfold runsIn
  simp [runsAt_silent h]

theorem shifted_address_byte (a : Nat) : ((a <<< 1) % 2 ^ 8) &&& 0xFE = (a <<< 1) &&& 0xFE := by
  have h1 : (a <<< 1) % 2 ^ 8 = (a <<< 1) &&& (2 ^ 8 - 1) := by
    rw [Nat.and_pow_two_sub_one_eq_mod]
  rw [h1, Nat.and_assoc]
  rfl

theorem address_byte_lt (a : Nat) : (a <<< 1) &&& 0xFE < 256 := by
  have : (a <<< 1) &&& 0xFE ≤ 0xFE := Nat.and_le_right
  omega

theorem sampled_start {scl sda : Nat} (h : scl ≠ sda) (level : Bool) (ticks : Nat)
    (es : List LineEvent) :
    sampled scl sda level
        (LineEvent.LOW sda :: LineEvent.delay ticks :: LineEvent.LOW scl :: es)
      = sampled scl sda false es := by
  simp [sampled, h]

theorem setState_fst (c : i2c_type_t) (s : I2C_STATE) :
    (setState c s).1 = OK ∧ (setState c s).2 = { c with state := s } ∨
      (setState c s).1 = INVALID_STATE_CHANGE_REQUEST ∧ (setState c s).2 = c := by
  cases c with
  | mk tag slaveAddress scl sda useAck state isrAckCount =>
    cases state <;> cases s <;>
      simp [setState, setState.caseACK, setState.caseREADY, setState.caseSTART,
        setState.caseSTOP, setState.caseWRITE]

theorem afterIrq_tag {I : List Nat} {q : List (List Nat)} {p k : Nat} {c : i2c_type_t} :
    (afterIrq I q p k c).tag = c.tag := by
  unfold afterIrq ReadAckISR
  split <;> [split; skip] <;> rfl

/-! ## Theorems about `setState` -/

/-- C1 (evaluation of the code where the claim fails): on a record in state STOP
the request ACK is not one of the eight documented edges, yet `setState`
returns OK and the state becomes ACK, because `case STOP:` falls through into
`case WRITE:`.  The other eleven pairs outside the documented edges are
rejected with INVALID_STATE_CHANGE_REQUEST and leave the record unchanged. -/
theorem C1_setState_STOP_ACK_not_rejected (c : i2c_type_t) :
    documentedEdge STOP ACK = false ∧
    setState { c with state := STOP } ACK = (OK, { c with state := ACK }) ∧
    setState { c with state := STOP } START
      = (INVALID_STATE_CHANGE_REQUEST, { c with state := STOP }) ∧
    setState { c with state := READY } ACK
      = (INVALID_STATE_CHANGE_REQUEST, { c with state := READY }) ∧
    setState { c with state := READY } STOP
      = (INVALID_STATE_CHANGE_REQUEST, { c with state := READY }) ∧
    setState { c with state := READY } WRITE
      = (INVALID_STATE_CHANGE_REQUEST, { c with state := READY }) ∧
    setState { c with state := START } READY
      = (INVALID_STATE_CHANGE_REQUEST, { c with state := START }) ∧
    setState { c with state := START } STOP
      = (INVALID_STATE_CHANGE_REQUEST, { c with state := START }) ∧
    setState { c with state := ACK } READY
      = (INVALID_STATE_CHANGE_REQUEST, { c with state := ACK }) ∧
    setState { c with state := ACK } START
      = (INVALID_STATE_CHANGE_REQUEST, { c with state := ACK }) ∧
    setState { c with state := ACK } STOP
      = (INVALID_STATE_CHANGE_REQUEST, { c with state := ACK }) ∧
    setState { c with state := WRITE } READY
      = (INVALID_STATE_CHANGE_REQUEST, { c with state := WRITE }) ∧
    setState { c with state := WRITE } START
      = (INVALID_STATE_CHANGE_REQUEST, { c with state := WRITE }) := by
  refine ⟨rfl, ?_, ?_, ?_, ?_, ?_, ?_, ?_, ?_, ?_, ?_, ?_, ?_⟩ <;> rfl

/-- C2: a request for the current state returns OK and leaves the record
unchanged; each of the eight documented edges returns OK and changes the state
field to the requested state and no other field. -/
theorem C2_setState_identity_and_legal_edges (c : i2c_type_t) :
    setState c c.state = (OK, c) ∧
    setState { c with state := READY } START = (OK, { c with state := START }) ∧
    setState { c with state := START } ACK = (OK, { c with state := ACK }) ∧
    setState { c with state := START } WRITE = (OK, { c with state := WRITE }) ∧
    setState { c with state := WRITE } ACK = (OK, { c with state := ACK }) ∧
    setState { c with state := ACK } WRITE = (OK, { c with state := WRITE }) ∧
    setState { c with state := WRITE } STOP = (OK, { c with state := STOP }) ∧
    setState { c with state := STOP } READY = (OK, { c with state := READY }) ∧
    setState { c with state := STOP } WRITE = (OK, { c with state := WRITE }) := by
  refine ⟨by simp [setState], ?_, ?_, ?_, ?_, ?_, ?_, ?_, ?_⟩ <;> rfl

/-! ## Theorems about `writeByte` -/

/-- C5: for every byte `b` and every machine in which `ptr` points to a live
record with distinct clock and data pins, `writeByte` returns, and the line
events it adds to the trace contain exactly nine clock pulses (clock high,
then clock low); the data level driven at the i-th clock rise is bit `7 - i`
of `b` for i = 0..7, so the eight levels assembled most significant bit first
give `b`; and the loop over the bit mask runs exactly eight times: with fuel
for fewer than eight iterations it has not finished, and with any fuel of at
least eight the result is the same. -/
theorem C5_writeByte_msb_first (w : World) (ptr b : Nat) (c : i2c_type_t) (level : Bool)
    (hb : b < 256) (hlive : w.heap ptr = some c) (hpins : c.scl ≠ c.sda) :
    ∃ r w2 evs, writeByte w ptr b = some (r, w2) ∧ w2.trace = w.trace ++ evs ∧
      clockEdges c.scl evs
        = [true, false, true, false, true, false, true, false, true, false, true, false,
           true, false, true, false, true, false] ∧
      (sampled c.scl c.sda level evs).take 8 = ((List.range 8).map fun i => b.testBit (7 - i)) ∧
      assemble ((sampled c.scl c.sda level evs).take 8) = b ∧
      (∀ fuel, fuel < 8 → writeByteFuel fuel w ptr b = none) ∧
      (∀ fuel, 8 ≤ fuel → writeByteFuel fuel w ptr b = writeByteFuel 8 w ptr b) := by
  have F := focus_start w hlive
  obtain ⟨r, w2, e, htr⟩ := writeByteFuel_trace b 8 F
  refine ⟨r, w2, bitEvents c.scl c.sda b 8 ++ ackEvents c.scl c.sda, e, ?_, ?_, ?_, ?_, ?_, ?_⟩
  · rw [htr, List.append_assoc]
  · exact clockEdges_byte hpins b
  · exact sampled_byte_bits hpins b level hb
  · rw [sampled_byte_bits hpins b level hb]
    exact assemble_bits b hb
  · intro fuel hf
    exact writeByteFuel_none b fuel hf F
  · intro fuel hf
    exact writeByteFuel_enough b fuel hf F

/-- C5 at the byte 0xA5 on the sample machine. -/
theorem C5_writeByte_msb_first_witness :
    ∃ r w2 evs, writeByte sampleWorld 0x3FFE8000 0xA5 = some (r, w2) ∧
      w2.trace = sampleWorld.trace ++ evs ∧
      clockEdges 4 evs
        = [true, false, true, false, true, false, true, false, true, false, true, false,
           true, false, true, false, true, false] ∧
      (sampled 4 5 false evs).take 8 = ((List.range 8).map fun i => (0xA5 : Nat).testBit (7 - i)) ∧
      assemble ((sampled 4 5 false evs).take 8) = 0xA5 ∧
      (∀ fuel, fuel < 8 → writeByteFuel fuel sampleWorld 0x3FFE8000 0xA5 = none) ∧
      (∀ fuel, 8 ≤ fuel →
        writeByteFuel fuel sampleWorld 0x3FFE8000 0xA5
          = writeByteFuel 8 sampleWorld 0x3FFE8000 0xA5) :=
  C5_writeByte_msb_first sampleWorld 0x3FFE8000 0xA5 { sampleCtx with state := WRITE } false
    (by decide) (by rfl) (by decide)

/-- C7: for every byte and every live record whose state is START or WRITE on
entry, if the handler of the context runs at none of the 32 preemption points
of `writeByte` (it is not registered, or the schedule does not trigger it),
`writeByte` returns FAILED_WRITE_RECEIVED_NACK and the record on return
differs from the record on entry only in its state, which is WRITE. -/
theorem C7_writeByte_silent_peer_nack (w : World) (ptr b : Nat) (c : i2c_type_t)
    (hlive : w.heap ptr = some c) (hs : c.state = START ∨ c.state = WRITE)
    (hsilent : ∀ k, k < 32 → w.handlerRunsAt ptr k = false) :
    ∃ w2, writeByte w ptr b = some (FAILED_WRITE_RECEIVED_NACK, w2) ∧
      w2.heap ptr = some { c with state := WRITE } ∧
      (ptr ∉ w.isr ∨ (∀ e ∈ w.irq, ptr ∉ e) → ∀ k, w.handlerRunsAt ptr k = false) := by
  obtain ⟨w2, e, F⟩ := writeByte_spec b hs (focus_start w hlive)
  have hwin : runsIn w.isr w.irq ptr (0 + 25) 6 = false := by
    have h25 := hsilent 25 (by omega)
    have h26 := hsilent 26 (by omega)
    have h27 := hsilent 27 (by omega)
    have h28 := hsilent 28 (by omega)
    have h29 := hsilent 29 (by omega)
    have h30 := hsilent 30 (by omega)
    simp only [World.handlerRunsAt] at h25 h26 h27 h28 h29 h30
    simp [runsIn, List.range, List.range.loop, List.any, h25, h26, h27, h28, h29, h30]
  have hlate : runsAt w.isr w.irq ptr (0 + 31) = false := hsilent 31 (by omega)
  refine ⟨w2, ?_, ?_, fun h k => runsAt_silent h k⟩
  · simpa [hwin] using e
  · have h := F.heap
    simpa [byteRecord, hwin, hlate] using h

/-- C7 on the sample machine, whose schedule is empty. -/
theorem C7_writeByte_silent_peer_nack_witness :
    ∃ w2, writeByte sampleWorld 0x3FFE8000 0xFF = some (FAILED_WRITE_RECEIVED_NACK, w2) ∧
      w2.heap 0x3FFE8000 = some { { sampleCtx with state := WRITE } with state := WRITE } ∧
      (0x3FFE8000 ∉ sampleWorld.isr ∨ (∀ e ∈ sampleWorld.irq, 0x3FFE8000 ∉ e) →
        ∀ k, sampleWorld.handlerRunsAt 0x3FFE8000 k = false) :=
  C7_writeByte_silent_peer_nack sampleWorld 0x3FFE8000 0xFF { sampleCtx with state := WRITE }
    rfl (Or.inr rfl) (by decide)

/-- C8 fails as stated: on `wrapWorld` the entry state is WRITE and the handler
runs exactly once, between the state being set to ACK and being read;
`writeByte` returns OK with state WRITE, but the counter, 4294967295 on entry,
is 0 on return: it has not grown by one. -/
theorem C8_counter_wraps :
    (wrapWorld.heap 0x3FFE8000).map (fun c => (c.state, c.isrAckCount))
      = some (WRITE, 4294967295) ∧
    ((List.range 32).filter fun k => wrapWorld.handlerRunsAt 0x3FFE8000 k) = [25] ∧
    outcome (writeByte wrapWorld 0x3FFE8000 0xFF) 0x3FFE8000 = some (OK, some (WRITE, 0)) ∧
    (0 : Nat) ≠ 4294967295 + 1 := by
  refine ⟨by decide, by decide, by decide, by decide⟩

/-- C8 (amended): for every byte and every live record whose state is START or
WRITE on entry, if the handler of the context runs at one of the six
preemption points between `writeByte` setting the state to ACK and reading it
(points 25..30 of the call), `writeByte` returns OK, the state on return is
WRITE and the counter has been incremented once as a 32-bit value, that is to
`(isrAckCount + 1) mod 2^32`, which is `isrAckCount + 1` unless the counter
was 2^32 - 1; no other field changes.  In particular `I2C_StartXmit` on a
valid handle whose record is READY, with the handler running at one of the
points 29..34 of that call, returns OK with state WRITE. -/
theorem C8_writeByte_acknowledged (w : World) (ptr b : Nat) (c : i2c_type_t)
    (hlive : w.heap ptr = some c) :
    (c.state = START ∨ c.state = WRITE → w.handlerRunsIn ptr 25 6 = true →
      ∃ w2, writeByte w ptr b = some (OK, w2) ∧
        w2.heap ptr
          = some { c with state := WRITE, isrAckCount := (c.isrAckCount + 1) % 2 ^ 32 } ∧
        (c.isrAckCount + 1 < 2 ^ 32 → (c.isrAckCount + 1) % 2 ^ 32 = c.isrAckCount + 1)) ∧
    (c.state = READY → ptr ≠ 0 → c.tag = ptr → w.handlerRunsIn ptr 29 6 = true →
      ∃ w2, I2C_StartXmit w ptr = some (OK, w2) ∧
        w2.heap ptr
          = some { c with state := WRITE, isrAckCount := (c.isrAckCount + 1) % 2 ^ 32 }) := by
  constructor
  · intro hs hack
    rw [handlerRunsIn_eq] at hack
    obtain ⟨w2, e, F⟩ := writeByte_spec b hs (focus_start w hlive)
    refine ⟨w2, ?_, ?_, fun h => Nat.mod_eq_of_lt h⟩
    · simpa [hack] using e
    · have h := F.heap
      simpa [byteRecord, hack] using h
  · intro hs hp htag hack
    rw [handlerRunsIn_eq] at hack
    obtain ⟨w1, F1, e1⟩ := startXmit_spec hp htag hs (focus_start w hlive)
    obtain ⟨w2, e2, F2⟩ := writeByte_spec (c.slaveAddress &&& 0xFE) (Or.inl rfl) F1
    refine ⟨w2, ?_, ?_⟩
    · rw [e1, e2]
      simp [hack]
    · have h := F2.heap
      simpa [byteRecord, hack] using h

/-- C8 (amended) on `ackWorld`: the byte is acknowledged and the counter goes
from 0 to 1. -/
theorem C8_writeByte_acknowledged_witness :
    ∃ w2, writeByte ackWorld 0x3FFE8000 0xFF = some (OK, w2) ∧
      w2.heap 0x3FFE8000
        = some { { sampleCtx with state := WRITE } with
                 state := WRITE, isrAckCount := (0 + 1) % 2 ^ 32 } ∧
      ((0 : Nat) + 1 < 2 ^ 32 → (0 + 1) % 2 ^ 32 = 0 + 1) :=
  (C8_writeByte_acknowledged ackWorld 0x3FFE8000 0xFF { sampleCtx with state := WRITE } rfl).1
    (Or.inr rfl) (by decide)

/-- C9: for every byte and every valid handle whose record is in state START,
WRITE or STOP on entry, `I2C_Write` moves the record to WRITE, runs
`writeByte`, returns exactly what `writeByte` returned (OK when the handler
ran between the state being set to ACK and being read, points 26..31 of the
call, and FAILED_WRITE_RECEIVED_NACK otherwise), and leaves the state STOP in
both cases. -/
theorem C9_write_returns_byte_result_state_stop (w : World) (ptr b : Nat) (c : i2c_type_t)
    (hp : ptr ≠ 0) (hlive : w.heap ptr = some c) (htag : c.tag = ptr)
    (hs : c.state = START ∨ c.state = WRITE ∨ c.state = STOP) :
    ∃ r w1 w2 w3 c3, setStateAt w ptr WRITE = some (OK, w1) ∧
      writeByte w1 ptr b = some (r, w2) ∧
      I2C_Write w ptr b = some (r, w3) ∧
      w3.heap ptr = some c3 ∧ c3.state = STOP ∧
      r = (if w.handlerRunsIn ptr 26 6 then OK else FAILED_WRITE_RECEIVED_NACK) := by
  obtain ⟨w1, w2, w3, e1, _, e2, e3, F3⟩ := write_spec b hp htag hs (focus_start w hlive)
  exact ⟨_, w1, w2, w3, _, e1, e2, e3, F3.heap, rfl, rfl⟩

/-- C9 on the sample machine (state WRITE, silent peer): the result is the
NACK of the byte transmitter and the state is STOP. -/
theorem C9_write_returns_byte_result_state_stop_witness :
    ∃ r w1 w2 w3 c3, setStateAt sampleWorld 0x3FFE8000 WRITE = some (OK, w1) ∧
      writeByte w1 0x3FFE8000 0xFF = some (r, w2) ∧
      I2C_Write sampleWorld 0x3FFE8000 0xFF = some (r, w3) ∧
      w3.heap 0x3FFE8000 = some c3 ∧ c3.state = STOP ∧
      r = (if sampleWorld.handlerRunsIn 0x3FFE8000 26 6 then OK
           else FAILED_WRITE_RECEIVED_NACK) :=
  C9_write_returns_byte_result_state_stop sampleWorld 0x3FFE8000 0xFF
    { sampleCtx with state := WRITE } (by decide) rfl rfl (Or.inr (Or.inl rfl))

/-! ## Theorems about `I2C_Initialize` -/

theorem samplePlatform_arms (w2 : World) (c : i2c_type_t)
    (h : w2.heap samplePlatform.malloc = some c) :
    ∃ w3, enableACK samplePlatform w2 samplePlatform.malloc = some (OK, w3) := by
  simp [enableACK, samplePlatform] at h ⊢
  simp [h]

/-- C3: for every address `a` in 0x00..0x7F, with a handle variable to write
to, valid clock and data pins, and allocation, pin configuration and interrupt
arming all succeeding, `I2C_Initialize` returns, and it returns an error if
and only if `S = a << 1` satisfies `S ≤ 0x0F`, or `0xF0 ≤ S ≤ 0xF7`, or `S` is
one of 0xF9, 0xFB, 0xFD, 0xFF, or `S > 0x7F`; otherwise it returns OK. -/
theorem C3_initialize_rejects_exactly (env : Platform) (w : World) (a scl sda h : Nat)
    (useAck : Bool) (ha : a ≤ 0x7F)
    (hscl : env.validGpio scl = true) (hsda : env.validGpio sda = true)
    (hmalloc : env.malloc ≠ 0) (hcfg : env.gpio_config = esp_err_t.ESP_OK)
    (harm : useAck = true → ∀ (w2 : World) (c : i2c_type_t), w2.heap env.malloc = some c →
      ∃ w3, enableACK env w2 env.malloc = some (OK, w3)) :
    ∃ r w2 slot, I2C_Initialize env w a scl sda useAck (some h) = some (r, w2, slot) ∧
      (r ≠ OK ↔ (a <<< 1 ≤ 0x0F ∨ (0xF0 ≤ a <<< 1 ∧ a <<< 1 ≤ 0xF7) ∨
        (a <<< 1 = 0xF9 ∨ a <<< 1 = 0xFB ∨ a <<< 1 = 0xFD ∨ a <<< 1 = 0xFF) ∨
        a <<< 1 > 0x7F)) ∧
      (r = OK ∨ r = INVALID_SLAVE_ADDRESS_RESERVED ∨ r = INVALID_SLAVE_ADDRESS_GT7F) := by
  have hS : a <<< 1 = 2 * a := by rw [Nat.shiftLeft_eq]; omega
  have hmod : (2 * a) % 2 ^ 8 = 2 * a := Nat.mod_eq_of_lt (by omega)
  unfold I2C_Initialize
  simp only [hscl, hsda, hS, hmod, not_true_eq_false, if_false]
  by_cases h1 : 2 * a ≤ 0x0F ∨ (2 * a ≥ 0xF0 ∧ 2 * a ≤ 0xF7) ∨
      (2 * a = 0xF9 ∨ 2 * a = 0xFB ∨ 2 * a = 0xFD ∨ 2 * a = 0xFF)
  · rw [if_pos h1]
    refine ⟨_, _, _, rfl, ?_, by simp⟩
    simp only [ne_eq, reduceCtorEq, not_false_eq_true, true_iff]
    omega
  · rw [if_neg h1]
    by_cases h2 : 2 * a > 0x7F
    · rw [if_pos h2]
      refine ⟨_, _, _, rfl, ?_, by simp⟩
      simp only [ne_eq, reduceCtorEq, not_false_eq_true, true_iff]
      omega
    · rw [if_neg h2]
      simp only [hmalloc, if_false, hcfg, ne_eq, not_true_eq_false]
      cases hu : useAck with
      | false =>
        refine ⟨_, _, _, rfl, ?_, by simp⟩
        simp only [ne_eq, not_true_eq_false, false_iff]
        omega
      | true =>
        have key : ∀ W : World, (∃ c, W.heap env.malloc = some c) →
            ∀ x, enableACK env W env.malloc = x → ∃ w3, x = some (OK, w3) := by
          intro W hW x hx
          obtain ⟨c, hc⟩ := hW
          obtain ⟨w3, e3⟩ := harm hu W c hc
          exact ⟨w3, by rw [← hx, e3]⟩
        simp only [if_true]
        split
        · rename_i heq
          obtain ⟨w3, e3⟩ := key _ ⟨_, store_heap_same _ _ _⟩ _ heq
          simp at e3
        · rename_i result w3 heq
          obtain ⟨w4, e4⟩ := key _ ⟨_, store_heap_same _ _ _⟩ _ heq
          simp only [Option.some.injEq, Prod.mk.injEq] at e4
          obtain ⟨hr, _⟩ := e4
          subst hr
          refine ⟨_, _, _, rfl, ?_, by simp⟩
          simp only [ne_eq, not_true_eq_false, false_iff]
          omega

/-- C3 at the address 0x3C of the display, on the sample platform. -/
theorem C3_initialize_rejects_exactly_witness :
    ∃ r w2 slot, I2C_Initialize samplePlatform emptyWorld 0x3C 4 5 true (some 0)
        = some (r, w2, slot) ∧
      (r ≠ OK ↔ ((0x3C : Nat) <<< 1 ≤ 0x0F ∨ (0xF0 ≤ (0x3C : Nat) <<< 1 ∧ (0x3C : Nat) <<< 1 ≤ 0xF7) ∨
        ((0x3C : Nat) <<< 1 = 0xF9 ∨ (0x3C : Nat) <<< 1 = 0xFB ∨ (0x3C : Nat) <<< 1 = 0xFD ∨
          (0x3C : Nat) <<< 1 = 0xFF) ∨
        (0x3C : Nat) <<< 1 > 0x7F)) ∧
      (r = OK ∨ r = INVALID_SLAVE_ADDRESS_RESERVED ∨ r = INVALID_SLAVE_ADDRESS_GT7F) :=
  C3_initialize_rejects_exactly samplePlatform emptyWorld 0x3C 4 5 0 true (by decide) (by decide)
    (by decide) (by decide) rfl (fun _ => samplePlatform_arms)

/-- C4 (evaluation of the code where the claim fails): for the address 0xBC,
which is greater than 0x7F, the 8-bit shifted address is 0x78, both address
checks pass, and `I2C_Initialize` returns OK, creates a context with stored
address 0x78 and writes it to the handle variable.  On the sample platform
the addresses above 0x7F that are accepted are exactly 0x88..0xBF. -/
theorem C4_initialize_accepts_0xBC :
    (0xBC : Nat) > 0x7F ∧ ((0xBC : Nat) <<< 1) % 2 ^ 8 = 0x78 ∧
    initOutcome (I2C_Initialize samplePlatform emptyWorld 0xBC 4 5 true (some 0)) 0x3FFE8000
      = some (OK,
          some { tag := 0x3FFE8000, slaveAddress := 0x78, scl := 4, sda := 5, useAck := true,
                 state := READY, isrAckCount := 0 },
          some 0x3FFE8000) ∧
    ((List.range 256).filter fun a =>
        decide (a > 0x7F) &&
        decide ((I2C_Initialize samplePlatform emptyWorld a 4 5 true (some 0)).map
          (fun x => x.1) = some OK))
      = (List.range 0x38).map (fun i => 0x88 + i) := by
  refine ⟨by decide, by decide, by decide, ?_⟩
  decide

/-! ## Theorems about the envelope -/

/-- C6: when `I2C_Initialize` with address `a` returns OK, the handle written
to the caller points to a live record in state READY whose stored address is
the 8-bit value of `a << 1`, and `I2C_StartXmit` on that handle drives the
start condition (data low, hold delay, clock low) and then is exactly
`writeByte` applied to the byte `(a << 1) & 0xFE`.  When the clock and data
pins differ, the eight data levels at the first eight clock rises of
`I2C_StartXmit`, most significant first, are that byte.  The same byte is
handed to `writeByte` on every later machine in which the handle is valid, the
record is READY and the stored address is unchanged.  For `a = 0x3C` the byte
is 0x78. -/
theorem C6_startXmit_sends_shifted_address (env : Platform) (w w1 : World)
    (a scl sda h : Nat) (useAck : Bool) (slot : Option Nat)
    (hinit : I2C_Initialize env w a scl sda useAck (some h) = some (OK, w1, slot)) :
    ∃ ptr c w2, slot = some ptr ∧ w1.heap ptr = some c ∧ c.state = READY ∧
      c.slaveAddress = (a <<< 1) % 2 ^ 8 ∧
      w2.trace = w1.trace ++ [LineEvent.LOW sda, LineEvent.delay TICKS_IN_600_NS,
        LineEvent.LOW scl] ∧
      I2C_StartXmit w1 ptr = writeByte w2 ptr ((a <<< 1) &&& 0xFE) ∧
      (scl ≠ sda → ∀ level : Bool, ∃ r w3 evs, I2C_StartXmit w1 ptr = some (r, w3) ∧
        w3.trace = w1.trace ++ evs ∧
        assemble ((sampled scl sda level evs).take 8) = (a <<< 1) &&& 0xFE) ∧
      (∀ (v : World) (d : i2c_type_t), v.heap ptr = some d → d.tag = ptr → d.state = READY →
        d.slaveAddress = c.slaveAddress →
        ∃ v2, v2.trace = v.trace ++ [LineEvent.LOW d.sda, LineEvent.delay TICKS_IN_600_NS,
            LineEvent.LOW d.scl] ∧
          I2C_StartXmit v ptr = writeByte v2 ptr ((a <<< 1) &&& 0xFE)) ∧
      ((0x3C : Nat) <<< 1) &&& 0xFE = 0x78 := by
  obtain ⟨hslot, hp, ua, hheap, _, _⟩ := initialize_ok hinit
  obtain ⟨w2, F2, e2⟩ := startXmit_spec hp rfl rfl (focus_start w1 hheap)
  simp only [shifted_address_byte] at e2
  refine ⟨env.malloc, _, w2, hslot, hheap, rfl, rfl, F2.trace, e2, ?_, ?_, by decide⟩
  · intro hpins level
    obtain ⟨r, w3, e3, htr⟩ := writeByteFuel_trace ((a <<< 1) &&& 0xFE) 8 F2
    refine ⟨r, w3, [LineEvent.LOW sda, LineEvent.delay TICKS_IN_600_NS, LineEvent.LOW scl]
        ++ (bitEvents scl sda ((a <<< 1) &&& 0xFE) 8 ++ ackEvents scl sda), ?_, ?_, ?_⟩
    · rw [e2]
      exact e3
    · rw [htr]
      simp only [List.append_assoc]
    · have hs := sampled_start hpins level TICKS_IN_600_NS
        (bitEvents scl sda ((a <<< 1) &&& 0xFE) 8 ++ ackEvents scl sda)
      simp only [List.cons_append, List.nil_append, hs]
      rw [sampled_byte_bits hpins _ false (address_byte_lt a)]
      exact assemble_bits _ (address_byte_lt a)
  · intro v d hd htag hst haddr
    obtain ⟨v2, G2, g2⟩ := startXmit_spec hp htag hst (focus_start v hd)
    simp only at haddr
    rw [haddr, shifted_address_byte] at g2
    exact ⟨v2, G2.trace, g2⟩

/-- C6 for the display: `I2C_Initialize(0x3C, 4, 5, true, &handle)` on the
sample platform, followed by `I2C_StartXmit`. -/
theorem C6_startXmit_sends_shifted_address_witness :
    ∃ w1 slot, I2C_Initialize samplePlatform emptyWorld 0x3C 4 5 true (some 0)
        = some (OK, w1, slot) ∧
      ∃ ptr c w2, slot = some ptr ∧ w1.heap ptr = some c ∧ c.state = READY ∧
        c.slaveAddress = ((0x3C : Nat) <<< 1) % 2 ^ 8 ∧
        w2.trace = w1.trace ++ [LineEvent.LOW 5, LineEvent.delay TICKS_IN_600_NS,
          LineEvent.LOW 4] ∧
        I2C_StartXmit w1 ptr = writeByte w2 ptr (((0x3C : Nat) <<< 1) &&& 0xFE) ∧
        ((4 : Nat) ≠ 5 → ∀ level : Bool, ∃ r w3 evs, I2C_StartXmit w1 ptr = some (r, w3) ∧
          w3.trace = w1.trace ++ evs ∧
          assemble ((sampled 4 5 level evs).take 8) = ((0x3C : Nat) <<< 1) &&& 0xFE) ∧
        (∀ (v : World) (d : i2c_type_t), v.heap ptr = some d → d.tag = ptr →
          d.state = READY → d.slaveAddress = c.slaveAddress →
          ∃ v2, v2.trace = v.trace ++ [LineEvent.LOW d.sda, LineEvent.delay TICKS_IN_600_NS,
              LineEvent.LOW d.scl] ∧
            I2C_StartXmit v ptr = writeByte v2 ptr (((0x3C : Nat) <<< 1) &&& 0xFE)) ∧
        ((0x3C : Nat) <<< 1) &&& 0xFE = 0x78 :=
  ⟨_, _, rfl, C6_startXmit_sends_shifted_address samplePlatform emptyWorld _ 0x3C 4 5 0 true _ rfl⟩

/-- C10: after an `I2C_Write` that returned FAILED_WRITE_RECEIVED_NACK, on
whatever machine and handle, a following `I2C_StopXmit` returns OK and leaves
the state READY, and a following `I2C_Write` of any byte returns a result
other than INVALID_STATE_CHANGE_REQUEST.  In scenario C, `I2C_Write(0xFF)`
returns the NACK, the counter stays 0 and `I2C_StopXmit` returns OK with
state READY. -/
theorem C10_nack_leaves_envelope_usable (w w1 : World) (ptr b : Nat)
    (hnack : I2C_Write w ptr b = some (FAILED_WRITE_RECEIVED_NACK, w1)) :
    (∃ w2 c2, I2C_StopXmit w1 ptr = some (OK, w2) ∧ w2.heap ptr = some c2 ∧
      c2.state = READY) ∧
    (∀ b2, ∃ r w2, I2C_Write w1 ptr b2 = some (r, w2) ∧ r ≠ INVALID_STATE_CHANGE_REQUEST) ∧
    scenarioC = some (FAILED_WRITE_RECEIVED_NACK, FAILED_WRITE_RECEIVED_NACK, OK, some 0,
      some READY) := by
  have hstop : ∃ cS, cS.state = STOP ∧ cS.tag = ptr ∧ ptr ≠ 0 ∧ w1.heap ptr = some cS := by
    unfold I2C_Write at hnack
    by_cases hp : ptr = 0
    · simp [ASSIGN_CONTEXT, hp] at hnack
    cases hlive : w.heap ptr with
    | none => simp [ASSIGN_CONTEXT, hp, hlive] at hnack
    | some c =>
      by_cases htag : c.tag = ptr
      · rw [assign_ok hp hlive htag] at hnack
        have F := focus_start w hlive
        obtain ⟨w0, e0, F0⟩ := F.setStateAt WRITE
        simp only [e0, Option.some_bind] at hnack
        rcases setState_fst (afterIrq w.isr w.irq ptr 0 c) WRITE with ⟨hr, hc⟩ | ⟨hr, _⟩
        · rw [hr] at hnack
          rw [hc] at F0
          simp only [ne_eq, not_true_eq_false, if_false] at hnack
          obtain ⟨w2, e2, F2⟩ := writeByte_spec b (Or.inr rfl) F0
          obtain ⟨w3, e3, F3⟩ := F2.setStateAt STOP
          rw [afterIrq_of_ne (by simp [byteRecord_state])] at e3 F3
          simp only [e2, Option.some_bind, e3, Option.some.injEq, Prod.mk.injEq] at hnack
          obtain ⟨_, hw⟩ := hnack
          subst hw
          refine ⟨_, ?_, ?_, hp, F3.heap⟩
          · simp [setState, byteRecord_state, setState.caseWRITE]
          · simp [setState, byteRecord_state, setState.caseWRITE, byteRecord_tag,
              afterIrq_tag, htag]
        · rw [hr] at hnack
          simp at hnack
      · simp [ASSIGN_CONTEXT, hp, hlive, htag] at hnack
  obtain ⟨cS, hsS, htagS, hp, hliveS⟩ := hstop
  refine ⟨?_, ?_, by decide⟩
  · obtain ⟨w2, e2, F2⟩ := stopXmit_spec hp htagS (Or.inl hsS) (focus_start w1 hliveS)
    exact ⟨w2, _, e2, F2.heap, rfl⟩
  · intro b2
    obtain ⟨_, _, w3, _, _, _, e3, _⟩ :=
      write_spec b2 hp htagS (Or.inr (Or.inr hsS)) (focus_start w1 hliveS)
    refine ⟨_, w3, e3, ?_⟩
    split <;> simp

theorem nackWorld_eq :
    I2C_Write sampleWorld 0x3FFE8000 0xFF = some (FAILED_WRITE_RECEIVED_NACK, nackWorld) := by
  obtain ⟨_, _, w3, _, _, _, e3, _⟩ :=
    write_spec (w := sampleWorld) (p := 0x3FFE8000) 0xFF (by decide)
      (rfl : ({ sampleCtx with state := WRITE } : i2c_type_t).tag = 0x3FFE8000)
      (Or.inr (Or.inl rfl)) (focus_start sampleWorld rfl)
  have hsil : runsIn sampleWorld.isr sampleWorld.irq 0x3FFE8000 (0 + 26) 6 = false := by decide
  rw [hsil] at e3
  unfold nackWorld
  rw [e3]
  rfl

/-- C10 on the sample machine: the write of 0xFF is not acknowledged, and the
envelope can still be stopped or continued. -/
theorem C10_nack_leaves_envelope_usable_witness :
    (∃ w2 c2, I2C_StopXmit nackWorld 0x3FFE8000 = some (OK, w2) ∧
      w2.heap 0x3FFE8000 = some c2 ∧ c2.state = READY) ∧
    (∀ b2, ∃ r w2, I2C_Write nackWorld 0x3FFE8000 b2 = some (r, w2) ∧
      r ≠ INVALID_STATE_CHANGE_REQUEST) ∧
    scenarioC = some (FAILED_WRITE_RECEIVED_NACK, FAILED_WRITE_RECEIVED_NACK, OK, some 0,
      some READY) :=
  C10_nack_leaves_envelope_usable sampleWorld nackWorld 0x3FFE8000 0xFF nackWorld_eq

/-! ## The public operations from an arbitrary entry state -/

section AnyState

variable {w : World} {p : Nat} {c : i2c_type_t} {I : List Nat} {t : List LineEvent}
  {q : List (List Nat)} {k : Nat}

/-- `I2C_Write` on a valid handle, whatever the state of the record: either
the transition to WRITE is accepted, the byte is sent and the state is left
STOP, or it is refused and nothing but the preemption has happened. -/
theorem write_any (b : Nat) (hp : p ≠ 0) (htag : c.tag = p) (F : Focus w p c I t q k) :
    (∃ w3, (setState (afterIrq I q p k c) WRITE).1 = OK ∧
      I2C_Write w p b
        = some (if runsIn I q p (k + 26) 6 then OK else FAILED_WRITE_RECEIVED_NACK, w3) ∧
      Focus w3 p
        { byteRecord I q p (k + 1) { afterIrq I q p k c with state := WRITE } with
          state := STOP } I
        (t ++ bitEvents c.scl c.sda b 8 ++ ackEvents c.scl c.sda) q
        (if runsIn I q p (k + 26) 6 then k + 33 else k + 34)) ∨
    (∃ w1, (setState (afterIrq I q p k c) WRITE).1 = INVALID_STATE_CHANGE_REQUEST ∧
      I2C_Write w p b = some (INVALID_STATE_CHANGE_REQUEST, w1) ∧
      Focus w1 p (afterIrq I q p k c) I t q (k + 1)) := by
  obtain ⟨w1, e1, F1⟩ := F.setStateAt WRITE
  rcases setState_fst (afterIrq I q p k c) WRITE with ⟨hr, hc⟩ | ⟨hr, hc⟩
  · left
    rw [hr] at e1
    rw [hc] at F1
    obtain ⟨w2, e2, F2⟩ := writeByte_spec b (Or.inr rfl) F1
    have hk : k + 1 + 25 = k + 26 := by omega
    rw [hk] at e2 F2
    obtain ⟨w3, e3, F3⟩ := F2.setStateAt STOP
    rw [afterIrq_of_ne (by simp [byteRecord_state])] at e3 F3
    have hset3 : setState (byteRecord I q p (k + 1) { afterIrq I q p k c with state := WRITE })
        STOP
        = (OK, { byteRecord I q p (k + 1) { afterIrq I q p k c with state := WRITE } with
                 state := STOP }) := by
      simp [setState, byteRecord_state, setState.caseWRITE]
    rw [hset3] at e3 F3
    have htr : t ++ bitEvents c.scl c.sda b 8 ++ ackEvents c.scl c.sda
        = t ++ bitEvents (afterIrq I q p k c).scl (afterIrq I q p k c).sda b 8
            ++ ackEvents (afterIrq I q p k c).scl (afterIrq I q p k c).sda := by
      rw [afterIrq_scl, afterIrq_sda]
    rw [htr]
    refine ⟨w3, hr, ?_, ?_⟩
    · unfold I2C_Write
      rw [assign_ok hp F.heap htag]
      simp only [e1, Option.some_bind, ne_eq, not_true_eq_false, if_false, e2, e3]
    · by_cases hack : runsIn I q p (k + 26) 6 = true
      · simp only [hack, if_true] at F3 ⊢
        exact F3
      · simp only [hack, if_false] at F3 ⊢
        exact F3
  · right
    rw [hr] at e1
    rw [hc] at F1
    refine ⟨w1, hr, ?_, F1⟩
    unfold I2C_Write
    rw [assign_ok hp F.heap htag]
    simp [e1]

/-- `I2C_StopXmit` on a valid handle, whatever the state of the record. -/
theorem stopXmit_any (hp : p ≠ 0) (htag : c.tag = p) (F : Focus w p c I t q k) :
    (∃ w2, (setState (afterIrq I q p k c) READY).1 = OK ∧
      I2C_StopXmit w p = some (OK, w2) ∧
      Focus w2 p { afterIrq I q p k c with state := READY } I
        (t ++ [LineEvent.HIGH c.scl, LineEvent.delay TICKS_IN_600_NS, LineEvent.HIGH c.sda,
               LineEvent.delay TICKS_IN_1300_NS]) q (k + 5)) ∨
    (∃ w1, (setState (afterIrq I q p k c) READY).1 = INVALID_STATE_CHANGE_REQUEST ∧
      I2C_StopXmit w p = some (INVALID_STATE_CHANGE_REQUEST, w1) ∧
      Focus w1 p (afterIrq I q p k c) I t q (k + 1)) := by
  obtain ⟨w1, e1, F1⟩ := F.setStateAt READY
  rcases setState_fst (afterIrq I q p k c) READY with ⟨hr, hc⟩ | ⟨hr, hc⟩
  · left
    rw [hr] at e1
    rw [hc] at F1
    have hc1 : ({ afterIrq I q p k c with state := READY } : i2c_type_t).state ≠ ACK := by simp
    obtain ⟨w2, e2, F2⟩ := F1.high_scl
    rw [afterIrq_of_ne hc1] at F2
    have F3 := F2.delay TICKS_IN_600_NS
    rw [afterIrq_of_ne hc1] at F3
    obtain ⟨w4, e4, F4⟩ := F3.high_sda
    rw [afterIrq_of_ne hc1] at F4
    have F5 := F4.delay TICKS_IN_1300_NS
    rw [afterIrq_of_ne hc1] at F5
    have htr : t ++ [LineEvent.HIGH c.scl, LineEvent.delay TICKS_IN_600_NS,
          LineEvent.HIGH c.sda, LineEvent.delay TICKS_IN_1300_NS]
        = t ++ [LineEvent.HIGH (afterIrq I q p k c).scl, LineEvent.delay TICKS_IN_600_NS,
          LineEvent.HIGH (afterIrq I q p k c).sda, LineEvent.delay TICKS_IN_1300_NS] := by
      rw [afterIrq_scl, afterIrq_sda]
    rw [htr]
    refine ⟨delay w4 TICKS_IN_1300_NS, hr, ?_, ?_⟩
    · unfold I2C_StopXmit
      rw [assign_ok hp F.heap htag]
      simp only [e1, Option.some_bind, ne_eq, not_true_eq_false, if_false, e2, e4]
    · simpa [List.append_assoc] using F5
  · right
    rw [hr] at e1
    rw [hc] at F1
    refine ⟨w1, hr, ?_, F1⟩
    unfold I2C_StopXmit
    rw [assign_ok hp F.heap htag]
    simp [e1]

/-- `I2C_StartXmit` on a valid handle, whatever the state of the record. -/
theorem startXmit_any (hp : p ≠ 0) (htag : c.tag = p) (F : Focus w p c I t q k) :
    (∃ w2, (setState (afterIrq I q p k c) START).1 = OK ∧
      I2C_StartXmit w p
        = some (if runsIn I q p (k + 29) 6 then OK else FAILED_WRITE_RECEIVED_NACK, w2) ∧
      Focus w2 p (byteRecord I q p (k + 4) { afterIrq I q p k c with state := START }) I
        (t ++ [LineEvent.LOW c.sda, LineEvent.delay TICKS_IN_600_NS, LineEvent.LOW c.scl]
          ++ bitEvents c.scl c.sda (c.slaveAddress &&& 0xFE) 8 ++ ackEvents c.scl c.sda) q
        (if runsIn I q p (k + 29) 6 then k + 35 else k + 36)) ∨
    (∃ w1, (setState (afterIrq I q p k c) START).1 = INVALID_STATE_CHANGE_REQUEST ∧
      I2C_StartXmit w p = some (INVALID_STATE_CHANGE_REQUEST, w1) ∧
      Focus w1 p (afterIrq I q p k c) I t q (k + 1)) := by
  obtain ⟨w1, e1, F1⟩ := F.setStateAt START
  rcases setState_fst (afterIrq I q p k c) START with ⟨hr, hc⟩ | ⟨hr, hc⟩
  · left
    rw [hr] at e1
    rw [hc] at F1
    have hc1 : ({ afterIrq I q p k c with state := START } : i2c_type_t).state ≠ ACK := by simp
    obtain ⟨w2, e2, F2⟩ := F1.low_sda
    rw [afterIrq_of_ne hc1] at F2
    have F3 := F2.delay TICKS_IN_600_NS
    rw [afterIrq_of_ne hc1] at F3
    obtain ⟨w4, e4, F4⟩ := F3.low_scl
    rw [afterIrq_of_ne hc1] at F4
    obtain ⟨w5, e5, F5⟩ := writeByte_spec
      (({ afterIrq I q p k c with state := START } : i2c_type_t).slaveAddress &&& 0xFE)
      (Or.inl rfl) F4
    have hk : k + 1 + 1 + 1 + 1 = k + 4 := by omega
    have hk2 : k + 4 + 25 = k + 29 := by omega
    have hk3 : k + 4 + 31 = k + 35 := by omega
    have hk4 : k + 4 + 32 = k + 36 := by omega
    have haddr : (afterIrq I q p k c).slaveAddress = c.slaveAddress := by
      unfold afterIrq ReadAckISR
      split <;> [split; skip] <;> rfl
    rw [hk] at e5 F5
    rw [hk2, hk3, hk4] at F5
    rw [hk2] at e5
    have htr : t ++ [LineEvent.LOW c.sda, LineEvent.delay TICKS_IN_600_NS, LineEvent.LOW c.scl]
          ++ bitEvents c.scl c.sda (c.slaveAddress &&& 0xFE) 8 ++ ackEvents c.scl c.sda
        = t ++ [LineEvent.LOW (afterIrq I q p k c).sda, LineEvent.delay TICKS_IN_600_NS,
              LineEvent.LOW (afterIrq I q p k c).scl]
          ++ bitEvents (afterIrq I q p k c).scl (afterIrq I q p k c).sda
              ((afterIrq I q p k c).slaveAddress &&& 0xFE) 8
          ++ ackEvents (afterIrq I q p k c).scl (afterIrq I q p k c).sda := by
      rw [afterIrq_scl, afterIrq_sda, haddr]
    rw [htr]
    refine ⟨w5, hr, ?_, ?_⟩
    · unfold I2C_StartXmit
      rw [assign_ok hp F.heap htag]
      simp only [e1, Option.some_bind, ne_eq, not_true_eq_false, if_false, e2, e4, F4.heap, e5]
    · simpa only [List.append_assoc, List.singleton_append, List.cons_append, List.nil_append]
        using F5
  · right
    rw [hr] at e1
    rw [hc] at F1
    refine ⟨w1, hr, ?_, F1⟩
    unfold I2C_StartXmit
    rw [assign_ok hp F.heap htag]
    simp [e1]

end AnyState

/-! ## Theorems about rejected and accepted calls -/

/-- C11: for every byte and every valid handle whose record is in state READY,
`I2C_Write` returns INVALID_STATE_CHANGE_REQUEST, adds no line event to the
trace (neither line is driven) and leaves the record, state READY included,
as it was. -/
theorem C11_write_before_start_rejected (w : World) (ptr b : Nat) (c : i2c_type_t)
    (hp : ptr ≠ 0) (hlive : w.heap ptr = some c) (htag : c.tag = ptr)
    (hs : c.state = READY) :
    ∃ w1, I2C_Write w ptr b = some (INVALID_STATE_CHANGE_REQUEST, w1) ∧
      w1.trace = w.trace ∧ w1.heap ptr = some c ∧ w1.isr = w.isr := by
  have hc : c.state ≠ ACK := by simp [hs]
  rcases write_any b hp htag (focus_start w hlive) with ⟨w3, hr, _, _⟩ | ⟨w1, _, e1, F1⟩
  · rw [afterIrq_of_ne hc] at hr
    simp [setState, hs, setState.caseREADY] at hr
  · rw [afterIrq_of_ne hc] at F1
    exact ⟨w1, e1, F1.trace, F1.heap, F1.isr⟩

/-- C11 on `readyWorld`. -/
theorem C11_write_before_start_rejected_witness :
    ∃ w1, I2C_Write readyWorld 0x3FFE8000 0xFF = some (INVALID_STATE_CHANGE_REQUEST, w1) ∧
      w1.trace = readyWorld.trace ∧ w1.heap 0x3FFE8000 = some sampleCtx ∧
      w1.isr = readyWorld.isr :=
  C11_write_before_start_rejected readyWorld 0x3FFE8000 0xFF sampleCtx (by decide) rfl rfl rfl

/-- C12 fails as stated: on `sampleWorld` the handle is valid and the state is
WRITE, and `I2C_StopXmit` returns INVALID_STATE_CHANGE_REQUEST and leaves the
state WRITE. -/
theorem C12_stop_from_WRITE_rejected :
    (sampleWorld.heap 0x3FFE8000).map (fun c => (c.tag, c.state))
      = some (0x3FFE8000, WRITE) ∧
    outcome (I2C_StopXmit sampleWorld 0x3FFE8000) 0x3FFE8000
      = some (INVALID_STATE_CHANGE_REQUEST, some (WRITE, 0)) := by
  refine ⟨by decide, by decide⟩

/-- C12 (amended): for every valid handle, if the state of the record is STOP
(the state in which `I2C_Write` leaves it), `I2C_StopXmit` returns OK, drives
clock high, then data high, and the state afterwards is READY with no other
field changed; if the state is WRITE, `I2C_StopXmit` returns
INVALID_STATE_CHANGE_REQUEST, drives no line and leaves the record as it was. -/
theorem C12_stop_takes_STOP_to_READY (w : World) (ptr : Nat) (c : i2c_type_t)
    (hp : ptr ≠ 0) (hlive : w.heap ptr = some c) (htag : c.tag = ptr) :
    (c.state = STOP →
      ∃ w2, I2C_StopXmit w ptr = some (OK, w2) ∧
        w2.heap ptr = some { c with state := READY } ∧
        w2.trace = w.trace ++ [LineEvent.HIGH c.scl, LineEvent.delay TICKS_IN_600_NS,
          LineEvent.HIGH c.sda, LineEvent.delay TICKS_IN_1300_NS]) ∧
    (c.state = WRITE →
      ∃ w1, I2C_StopXmit w ptr = some (INVALID_STATE_CHANGE_REQUEST, w1) ∧
        w1.heap ptr = some c ∧ w1.trace = w.trace) := by
  constructor
  · intro hs
    obtain ⟨w2, e2, F2⟩ := stopXmit_spec hp htag (Or.inl hs) (focus_start w hlive)
    exact ⟨w2, e2, F2.heap, F2.trace⟩
  · intro hs
    have hc : c.state ≠ ACK := by simp [hs]
    rcases stopXmit_any hp htag (focus_start w hlive) with ⟨w2, hr, _, _⟩ | ⟨w1, _, e1, F1⟩
    · rw [afterIrq_of_ne hc] at hr
      simp [setState, hs, setState.caseWRITE] at hr
    · rw [afterIrq_of_ne hc] at F1
      exact ⟨w1, e1, F1.heap, F1.trace⟩

/-- C12 (amended) on `stopWorld`: the stop is accepted and the state is READY. -/
theorem C12_stop_takes_STOP_to_READY_witness :
    ∃ w2, I2C_StopXmit stopWorld 0x3FFE8000 = some (OK, w2) ∧
      w2.heap 0x3FFE8000 = some { { sampleCtx with state := STOP } with state := READY } ∧
      w2.trace = stopWorld.trace ++ [LineEvent.HIGH 4, LineEvent.delay TICKS_IN_600_NS,
        LineEvent.HIGH 5, LineEvent.delay TICKS_IN_1300_NS] :=
  (C12_stop_takes_STOP_to_READY stopWorld 0x3FFE8000 { sampleCtx with state := STOP }
    (by decide) rfl rfl).1 rfl

/-- C13 fails as stated: on `readyAckWorld` the handle is valid, the state is
READY and the peer acknowledges the address byte; `I2C_StartXmit` returns OK
and the state is WRITE, not START. -/
theorem C13_start_ends_in_WRITE :
    (readyAckWorld.heap 0x3FFE8000).map (fun c => (c.tag, c.state))
      = some (0x3FFE8000, READY) ∧
    outcome (I2C_StartXmit readyAckWorld 0x3FFE8000) 0x3FFE8000
      = some (OK, some (WRITE, 1)) ∧
    WRITE ≠ START := by
  refine ⟨by decide, by decide, by decide⟩

/-- C13 (amended): for every valid handle whose record is in state READY,
`I2C_StartXmit` returns OK or FAILED_WRITE_RECEIVED_NACK (OK exactly when the
handler ran between the state being set to ACK and being read, points 29..34
of the call), and in both cases the state of the record on return is WRITE:
the state START is only passed through while the address byte is sent. -/
theorem C13_start_takes_READY_to_WRITE (w : World) (ptr : Nat) (c : i2c_type_t)
    (hp : ptr ≠ 0) (hlive : w.heap ptr = some c) (htag : c.tag = ptr)
    (hs : c.state = READY) :
    ∃ r w2 c2, I2C_StartXmit w ptr = some (r, w2) ∧
      r = (if w.handlerRunsIn ptr 29 6 then OK else FAILED_WRITE_RECEIVED_NACK) ∧
      w2.heap ptr = some c2 ∧ c2.state = WRITE := by
  have hc : c.state ≠ ACK := by simp [hs]
  rcases startXmit_any hp htag (focus_start w hlive) with ⟨w2, _, e2, F2⟩ | ⟨w1, hr, _, _⟩
  · exact ⟨_, w2, _, e2, rfl, F2.heap, rfl⟩
  · rw [afterIrq_of_ne hc] at hr
    simp [setState, hs, setState.caseREADY] at hr

/-- C13 (amended) on `readyWorld`, whose schedule is empty: the address byte is
not acknowledged and the state on return is WRITE. -/
theorem C13_start_takes_READY_to_WRITE_witness :
    ∃ r w2 c2, I2C_StartXmit readyWorld 0x3FFE8000 = some (r, w2) ∧
      r = (if readyWorld.handlerRunsIn 0x3FFE8000 29 6 then OK
           else FAILED_WRITE_RECEIVED_NACK) ∧
      w2.heap 0x3FFE8000 = some c2 ∧ c2.state = WRITE :=
  C13_start_takes_READY_to_WRITE readyWorld 0x3FFE8000 sampleCtx (by decide) rfl rfl rfl

/-- C15: for every non-null handle that points to a record whose identity tag
differs from the handle's own address, `I2C_FreeContext`, `I2C_StartXmit`,
`I2C_Write` and `I2C_StopXmit` each return INVALID_ARGUMENT and leave the
machine exactly as it was (no allocation released, no line event, no field of
any record changed, no handler run); `I2C_FreeContext` leaves the caller's
handle variable holding the handle. -/
theorem C15_corrupt_handle_rejected (w : World) (h b : Nat) (c : i2c_type_t)
    (hnz : h ≠ 0) (hlive : w.heap h = some c) (htag : c.tag ≠ h) :
    I2C_FreeContext w (some h) = some (INVALID_ARGUMENT, w, some h) ∧
    I2C_StartXmit w h = some (INVALID_ARGUMENT, w) ∧
    I2C_Write w h b = some (INVALID_ARGUMENT, w) ∧
    I2C_StopXmit w h = some (INVALID_ARGUMENT, w) := by
  have ha : ASSIGN_CONTEXT w h = some (Except.error INVALID_ARGUMENT) := by
    simp [ASSIGN_CONTEXT, hnz, hlive, htag]
  refine ⟨?_, ?_, ?_, ?_⟩
  · simp [I2C_FreeContext, ha]
  · simp [I2C_StartXmit, ha]
  · simp [I2C_Write, ha]
  · simp [I2C_StopXmit, ha]

/-- C15 on `corruptWorld`, where the record at 0x3FFE8000 carries the tag 0. -/
theorem C15_corrupt_handle_rejected_witness :
    I2C_FreeContext corruptWorld (some 0x3FFE8000)
      = some (INVALID_ARGUMENT, corruptWorld, some 0x3FFE8000) ∧
    I2C_StartXmit corruptWorld 0x3FFE8000 = some (INVALID_ARGUMENT, corruptWorld) ∧
    I2C_Write corruptWorld 0x3FFE8000 0xFF = some (INVALID_ARGUMENT, corruptWorld) ∧
    I2C_StopXmit corruptWorld 0x3FFE8000 = some (INVALID_ARGUMENT, corruptWorld) :=
  C15_corrupt_handle_rejected corruptWorld 0x3FFE8000 0xFF { sampleCtx with tag := 0 }
    (by decide) rfl (by decide)

/-! ## Theorems about the life cycle of a context -/

/-- C14 fails as stated: on `readyWorld` a first `I2C_FreeContext` on the handle
variable holding 0x3FFE8000 returns OK, releases the record and clears the
variable; a second call on the same variable, now null, returns
INVALID_ARGUMENT, not OK. -/
theorem C14_second_free_returns_INVALID_ARGUMENT :
    I2C_FreeContext readyWorld (some 0x3FFE8000)
      = some (OK, readyWorld.free 0x3FFE8000, some 0) ∧
    I2C_FreeContext (readyWorld.free 0x3FFE8000) (some 0)
      = some (INVALID_ARGUMENT, readyWorld.free 0x3FFE8000, some 0) ∧
    INVALID_ARGUMENT ≠ OK := by
  refine ⟨rfl, rfl, by decide⟩

/-- C14 (amended): `I2C_FreeContext` returns OK and changes nothing when its
argument, the pointer to the handle variable, is null.  When the handle
variable itself holds null, it returns INVALID_ARGUMENT and changes nothing;
in particular, after a first call on a valid handle has returned OK, released
the record and cleared the variable, a second call on the same variable
returns INVALID_ARGUMENT and releases nothing. -/
theorem C14_free_null_handle (w : World) :
    I2C_FreeContext w none = some (OK, w, none) ∧
    I2C_FreeContext w (some 0) = some (INVALID_ARGUMENT, w, some 0) ∧
    (∀ (h : Nat) (c : i2c_type_t), h ≠ 0 → w.heap h = some c → c.tag = h →
      I2C_FreeContext w (some h) = some (OK, w.free h, some 0) ∧
      I2C_FreeContext (w.free h) (some 0) = some (INVALID_ARGUMENT, w.free h, some 0)) := by
  refine ⟨rfl, rfl, ?_⟩
  intro h c hnz hlive htag
  refine ⟨?_, rfl⟩
  simp [I2C_FreeContext, assign_ok hnz hlive htag, hlive, htag]

/-- C14 (amended) on `readyWorld`: the first call on the handle variable holding
0x3FFE8000 returns OK and clears it, the second returns INVALID_ARGUMENT. -/
theorem C14_free_null_handle_witness :
    (0x3FFE8000 : Nat) ≠ 0 ∧
    I2C_FreeContext readyWorld (some 0x3FFE8000)
      = some (OK, readyWorld.free 0x3FFE8000, some 0) ∧
    I2C_FreeContext (readyWorld.free 0x3FFE8000) (some 0)
      = some (INVALID_ARGUMENT, readyWorld.free 0x3FFE8000, some 0) :=
  ⟨by decide,
    (C14_free_null_handle readyWorld).2.2 0x3FFE8000 sampleCtx (by decide) (by decide) rfl⟩

/-- C16: whenever `I2C_Initialize` returns OK, the caller's handle variable
holds a non-null address at which a live record is stored whose state is
READY, whose counter is 0, whose stored address is the 8-bit value of
`slaveAddress << 1`, whose clock and data pins are the ones passed in and
whose identity tag is its own address; the call has configured the pins and
driven data high, then clock high.  On the sample platform
`I2C_Initialize(0x3C, 4, 5, true, &handle)` returns OK with state READY. -/
theorem C16_initialize_ok_creates_ready_context (env : Platform) (w w1 : World)
    (a scl sda : Nat) (useAck : Bool) (context slot : Option Nat)
    (hinit : I2C_Initialize env w a scl sda useAck context = some (OK, w1, slot)) :
    (∃ ptr c, slot = some ptr ∧ ptr ≠ 0 ∧ w1.heap ptr = some c ∧
      c.state = READY ∧ c.isrAckCount = 0 ∧ c.slaveAddress = (a <<< 1) % 2 ^ 8 ∧
      c.scl = scl ∧ c.sda = sda ∧ c.tag = ptr ∧
      w1.trace = w.trace ++ [LineEvent.config ((1 <<< scl) ||| (1 <<< sda)),
        LineEvent.HIGH sda, LineEvent.HIGH scl]) ∧
    initOutcome (I2C_Initialize samplePlatform emptyWorld 0x3C 4 5 true (some 0)) 0x3FFE8000
      = some (OK,
          some { tag := 0x3FFE8000, slaveAddress := 0x78, scl := 4, sda := 5, useAck := true,
                 state := READY, isrAckCount := 0 },
          some 0x3FFE8000) := by
  refine ⟨?_, by decide⟩
  cases context with
  | none => simp [I2C_Initialize] at hinit
  | some h =>
    obtain ⟨hslot, hp, ua, hheap, htr, _⟩ := initialize_ok hinit
    exact ⟨env.malloc, _, hslot, hp, hheap, rfl, rfl, rfl, rfl, rfl, rfl, htr⟩

/-- C16 on the sample platform for the display at 0x3C. -/
theorem C16_initialize_ok_creates_ready_context_witness :
    ∃ w1 slot, I2C_Initialize samplePlatform emptyWorld 0x3C 4 5 true (some 0)
        = some (OK, w1, slot) ∧
      (∃ ptr c, slot = some ptr ∧ ptr ≠ 0 ∧ w1.heap ptr = some c ∧
        c.state = READY ∧ c.isrAckCount = 0 ∧ c.slaveAddress = ((0x3C : Nat) <<< 1) % 2 ^ 8 ∧
        c.scl = 4 ∧ c.sda = 5 ∧ c.tag = ptr ∧
        w1.trace = emptyWorld.trace ++ [LineEvent.config ((1 <<< 4) ||| (1 <<< 5)),
          LineEvent.HIGH 5, LineEvent.HIGH 4]) :=
  ⟨_, _, rfl,
    (C16_initialize_ok_creates_ready_context samplePlatform emptyWorld _ 0x3C 4 5 true (some 0)
      _ rfl).1⟩

theorem enableACK_cases {env : Platform} {W W2 : World} {ptr : Nat} {r : RESULT}
    (h : enableACK env W ptr = some (r, W2)) :
    r = OK ∨ (W2 = W ∧ (r = FAILED_TO_INSTALL_ISR_SERVICE ∨ r = FAILED_TO_SET_INTERRUPT_TYPE ∨
      r = FAILED_TO_INSTALL_ISR_FUNCTION)) := by
  unfold enableACK at h
  by_cases h2 : env.gpio_set_intr_type = esp_err_t.ESP_OK
  · cases h1 : env.gpio_install_isr_service <;> cases h3 : env.gpio_isr_handler_add <;>
      simp only [h1, h2, h3, ne_eq, not_true_eq_false, if_false, Option.some.injEq,
        Prod.mk.injEq] at h <;>
      first
        | exact Or.inr ⟨h.2.symm, by simp [← h.1]⟩
        | (cases hh : W.heap ptr <;> simp only [hh, Option.some.injEq, Prod.mk.injEq,
            reduceCtorEq] at h
           exact Or.inl h.1.symm)
  · cases h1 : env.gpio_install_isr_service <;>
      simp only [h1, h2, ne_eq, not_false_eq_true, if_true, Option.some.injEq,
        Prod.mk.injEq] at h <;>
      exact Or.inr ⟨h.2.symm, by simp [← h.1]⟩

theorem enableACK_fail {env : Platform} {W W2 : World} {ptr : Nat} {r : RESULT}
    (h : enableACK env W ptr = some (r, W2)) (hr : r ≠ OK) : W2 = W := by
  rcases enableACK_cases h with h1 | ⟨h1, _⟩
  · exact absurd h1 hr
  · exact h1

theorem free_valid {W : World} {p : Nat} {c : i2c_type_t} (hp : p ≠ 0)
    (hlive : W.heap p = some c) (htag : c.tag = p) :
    I2C_FreeContext W (some p) = some (OK, W.free p, some 0) := by
  simp [I2C_FreeContext, assign_ok hp hlive htag, hlive, htag]

/-- What `I2C_Initialize` leaves behind when it returns an error: the handle
variable is as it was; unless the error is FAILED_TO_CONFIGURE_I2C_PINS, no
allocation is left over (given that the address returned by `malloc` was free
before the call); when the error is FAILED_TO_CONFIGURE_I2C_PINS the block
returned by `malloc` is still allocated, with its contents uninitialised. -/
theorem initialize_error {env : Platform} {w w1 : World} {a scl sda : Nat} {useAck : Bool}
    {context slot : Option Nat} {r : RESULT}
    (hinit : I2C_Initialize env w a scl sda useAck context = some (r, w1, slot))
    (hr : r ≠ OK) :
    slot = context ∧
      (r ≠ FAILED_TO_CONFIGURE_I2C_PINS → w.heap env.malloc = none →
        ∀ q, w1.heap q = w.heap q) ∧
      (r = FAILED_TO_CONFIGURE_I2C_PINS → w1.heap env.malloc = some env.uninit) := by
  unfold I2C_Initialize at hinit
  cases context with
  | none =>
    simp only [Option.some.injEq, Prod.mk.injEq] at hinit
    obtain ⟨h1, h2, h3⟩ := hinit
    subst h1 h2 h3
    exact ⟨rfl, fun _ _ _ => rfl, fun h => by simp at h⟩
  | some h =>
    simp only at hinit
    have early : ∀ e : RESULT, e ≠ FAILED_TO_CONFIGURE_I2C_PINS →
        some (e, w, some h) = some (r, w1, slot) →
        slot = some h ∧
          (r ≠ FAILED_TO_CONFIGURE_I2C_PINS → w.heap env.malloc = none →
            ∀ q, w1.heap q = w.heap q) ∧
          (r = FAILED_TO_CONFIGURE_I2C_PINS → w1.heap env.malloc = some env.uninit) := by
      intro e he heq
      simp only [Option.some.injEq, Prod.mk.injEq] at heq
      obtain ⟨h1, h2, h3⟩ := heq
      subst h1 h2 h3
      exact ⟨rfl, fun _ _ _ => rfl, fun hh => absurd hh he⟩
    by_cases h1 : ¬ env.validGpio scl = true
    · rw [if_pos h1] at hinit
      exact early _ (by decide) hinit
    rw [if_neg h1] at hinit
    by_cases h2 : ¬ env.validGpio sda = true
    · rw [if_pos h2] at hinit
      exact early _ (by decide) hinit
    rw [if_neg h2] at hinit
    split at hinit
    · exact early _ (by decide) hinit
    split at hinit
    · exact early _ (by decide) hinit
    by_cases h5 : env.malloc = 0
    · rw [if_pos h5] at hinit
      exact early _ (by decide) hinit
    rw [if_neg h5] at hinit
    split at hinit
    · simp only [Option.some.injEq, Prod.mk.injEq] at hinit
      obtain ⟨e1, e2, e3⟩ := hinit
      subst e1 e2 e3
      refine ⟨rfl, fun hh => absurd rfl hh, fun _ => ?_⟩
      simp [World.store, World.emit]
    cases hu : useAck with
    | false =>
      simp only [hu, Bool.false_eq_true, if_false, Option.some.injEq, Prod.mk.injEq] at hinit
      exact absurd hinit.1.symm hr
    | true =>
      simp only [hu, if_true] at hinit
      split at hinit
      · simp at hinit
      · rename_i result W2 heq
        by_cases h8 : result = OK
        · subst h8
          simp only [ne_eq, not_true_eq_false, if_false, Option.some.injEq,
            Prod.mk.injEq] at hinit
          exact absurd hinit.1.symm hr
        · rw [if_pos h8] at hinit
          have hcases := enableACK_cases heq
          have hW := enableACK_fail heq h8
          subst hW
          rw [free_valid h5 (store_heap_same _ _ _) rfl] at hinit
          simp only [Option.some_bind, Option.some.injEq, Prod.mk.injEq] at hinit
          obtain ⟨e1, e2, e3⟩ := hinit
          subst e1 e2 e3
          refine ⟨rfl, fun _ hfresh q => ?_, fun hh => ?_⟩
          · by_cases hq : q = env.malloc
            · subst hq
              simp [World.free, hfresh]
            · simp [World.free, World.store, World.emit, hq]
          · subst hh
            rcases hcases with h9 | ⟨_, h9 | h9 | h9⟩ <;> simp at h9

/-- C17 (evaluation of the code where the claim fails): with valid pins, the
address 0x3C and a successful allocation at an address that was free before,
a failing `gpio_config` makes `I2C_Initialize` return
FAILED_TO_CONFIGURE_I2C_PINS with the allocated block still live (its contents
are the uninitialised ones), although the handle variable is not written.  On
the sibling path, a failing `gpio_isr_handler_add`, the block is released
before returning, and `I2C_Initialize(0x00, ...)` allocates nothing.  In
general an error return never writes the handle variable, and it leaves no
allocation behind unless the error is FAILED_TO_CONFIGURE_I2C_PINS. -/
theorem C17_config_failure_leaks_block :
    emptyWorld.heap 0x3FFE8000 = none ∧
    initOutcome (I2C_Initialize configFailPlatform emptyWorld 0x3C 4 5 true (some 0))
        0x3FFE8000
      = some (FAILED_TO_CONFIGURE_I2C_PINS, some configFailPlatform.uninit, some 0) ∧
    initOutcome (I2C_Initialize handlerFailPlatform emptyWorld 0x3C 4 5 true (some 0))
        0x3FFE8000
      = some (FAILED_TO_INSTALL_ISR_FUNCTION, none, some 0) ∧
    initOutcome (I2C_Initialize samplePlatform emptyWorld 0x00 4 5 true (some 0)) 0x3FFE8000
      = some (INVALID_SLAVE_ADDRESS_RESERVED, none, some 0) ∧
    (∀ (env : Platform) (w w1 : World) (a scl sda : Nat) (useAck : Bool)
        (context slot : Option Nat) (r : RESULT),
      I2C_Initialize env w a scl sda useAck context = some (r, w1, slot) → r ≠ OK →
      slot = context ∧
        (r ≠ FAILED_TO_CONFIGURE_I2C_PINS → w.heap env.malloc = none →
          ∀ q, w1.heap q = w.heap q) ∧
        (r = FAILED_TO_CONFIGURE_I2C_PINS → w1.heap env.malloc = some env.uninit)) := by
  refine ⟨rfl, by decide, by decide, by decide, ?_⟩
  intro env w w1 a scl sda useAck context slot r hinit hr
  exact initialize_error hinit hr

/-- C18 fails as stated: a run of `ReadAckISR` on a record in state ACK whose
counter is 4294967295 sets the state to WRITE and the counter to 0, which is
not the counter increased by 1. -/
theorem C18_handler_counter_wraps :
    ReadAckISR { sampleCtx with state := ACK, isrAckCount := 4294967295 }
      = { sampleCtx with state := WRITE, isrAckCount := 0 } ∧
    (0 : Nat) ≠ 4294967295 + 1 := by
  refine ⟨by decide, by decide⟩

/-- C18 (amended): one run of `ReadAckISR` changes the record if and only if its
state is ACK.  In that case the state becomes WRITE and the counter is
incremented as a 32-bit value, to `(isrAckCount + 1) mod 2^32` (which is
`isrAckCount + 1` unless the counter was 2^32 - 1); in each of the states
READY, START, STOP and WRITE the record is unchanged.  In all cases the
identity tag, the address and the pin fields are unchanged. -/
theorem C18_handler_only_resolves_ACK (c : i2c_type_t) :
    ReadAckISR { c with state := ACK }
      = { c with state := WRITE, isrAckCount := (c.isrAckCount + 1) % 2 ^ 32 } ∧
    ReadAckISR { c with state := READY } = { c with state := READY } ∧
    ReadAckISR { c with state := START } = { c with state := START } ∧
    ReadAckISR { c with state := STOP } = { c with state := STOP } ∧
    ReadAckISR { c with state := WRITE } = { c with state := WRITE } ∧
    (ReadAckISR c ≠ c ↔ c.state = ACK) ∧
    (c.isrAckCount + 1 < 2 ^ 32 → (c.isrAckCount + 1) % 2 ^ 32 = c.isrAckCount + 1) ∧
    (ReadAckISR c).tag = c.tag ∧ (ReadAckISR c).slaveAddress = c.slaveAddress ∧
    (ReadAckISR c).scl = c.scl ∧ (ReadAckISR c).sda = c.sda ∧
    (ReadAckISR c).useAck = c.useAck := by
  refine ⟨rfl, rfl, rfl, rfl, rfl, ?_, fun h => Nat.mod_eq_of_lt h, ?_, ?_, ?_, ?_, ?_⟩
  · constructor
    · intro h
      by_contra hne
      exact h (ReadAckISR_of_ne c hne)
    · intro h heq
      have hs : (ReadAckISR c).state = WRITE := by simp [ReadAckISR, h]
      rw [heq, h] at hs
      exact absurd hs (by decide)
  all_goals (unfold ReadAckISR; split <;> rfl)

/-- C18 (amended) on `sampleCtx`, whose counter is 0: the incremented counter
is 1. -/
theorem C18_handler_only_resolves_ACK_witness :
    sampleCtx.isrAckCount + 1 < 2 ^ 32 ∧
    (sampleCtx.isrAckCount + 1) % 2 ^ 32 = sampleCtx.isrAckCount + 1 :=
  ⟨by decide, (C18_handler_only_resolves_ACK sampleCtx).2.2.2.2.2.2.1 (by decide)⟩

/-! ## How the counter evolves -/

section Counter

variable {w : World} {p : Nat} {c : i2c_type_t} {I : List Nat} {t : List LineEvent}
  {q : List (List Nat)} {k : Nat}

theorem Evolved.refl (c : i2c_type_t) : Evolved c c 0 :=
  ⟨rfl, rfl, rfl, rfl, rfl, rfl⟩

theorem Evolved.withState {c d : i2c_type_t} {j : Nat} (h : Evolved c d j) (s : I2C_STATE) :
    Evolved c { d with state := s } j :=
  ⟨h.tag, h.slaveAddress, h.scl, h.sda, h.useAck, h.counter⟩

theorem Evolved.trans {c d e : i2c_type_t} {i j : Nat} (h1 : Evolved c d i)
    (h2 : Evolved d e j) : Evolved c e (i + j) := by
  refine ⟨h2.tag.trans h1.tag, h2.slaveAddress.trans h1.slaveAddress, h2.scl.trans h1.scl,
    h2.sda.trans h1.sda, h2.useAck.trans h1.useAck, ?_⟩
  rw [h2.counter, h1.counter, Nat.add_comm i j, Function.iterate_add_apply]

theorem ReadAckISR_evolved (c : i2c_type_t) :
    ∃ j, j ≤ 1 ∧ Evolved c (ReadAckISR c) j ∧
      (c.state ≠ ACK → j = 0 ∧ (ReadAckISR c).state = c.state) ∧
      (ReadAckISR c).state ≠ ACK := by
  by_cases hs : c.state = ACK
  · refine ⟨1, le_refl 1, ?_, fun h => absurd hs h, ?_⟩
    · refine ⟨?_, ?_, ?_, ?_, ?_, ?_⟩ <;> simp [ReadAckISR, hs, incr32]
    · simp [ReadAckISR, hs]
  · refine ⟨0, by omega, ?_, fun _ => ⟨rfl, ?_⟩, ?_⟩
    · rw [ReadAckISR_of_ne c hs]
      exact Evolved.refl c
    · rw [ReadAckISR_of_ne c hs]
    · rw [ReadAckISR_of_ne c hs]
      exact hs

theorem afterIrq_evolved (c : i2c_type_t) :
    ∃ j, j ≤ 1 ∧ Evolved c (afterIrq I q p k c) j ∧
      (c.state ≠ ACK → j = 0 ∧ (afterIrq I q p k c).state = c.state) ∧
      (runsAt I q p k = false → j = 0) := by
  unfold afterIrq
  by_cases hr : runsAt I q p k = true
  · simp only [hr, if_true]
    obtain ⟨j, hj, hev, hne, _⟩ := ReadAckISR_evolved c
    exact ⟨j, hj, hev, hne, fun h => by simp [hr] at h⟩
  · simp only [hr, if_false]
    exact ⟨0, by omega, Evolved.refl c, fun _ => ⟨rfl, rfl⟩, fun _ => rfl⟩

theorem byteRecord_evolved (d : i2c_type_t) :
    ∃ i, i ≤ 1 ∧ Evolved d (byteRecord I q p k d) i ∧
      ((∀ n, runsAt I q p n = false) → i = 0) := by
  by_cases h : (runsIn I q p (k + 25) 6 || runsAt I q p (k + 31)) = true
  · refine ⟨1, le_refl 1, ⟨rfl, rfl, rfl, rfl, rfl, ?_⟩, fun hsil => ?_⟩
    · simp [byteRecord, h, incr32]
    · have h1 : runsIn I q p (k + 25) 6 = false := by simp [runsIn, hsil]
      simp [h1, hsil] at h
  · refine ⟨0, by omega, ⟨rfl, rfl, rfl, rfl, rfl, ?_⟩, fun _ => rfl⟩
    simp [byteRecord, h]

/-- What a call of one of the three operations on a valid handle does to the
record, whatever its state on entry. -/
theorem call_evolves (op : Op) (hop : op ≠ Op.handler) (hp : p ≠ 0) (htag : c.tag = p)
    (F : Focus w p c I t q k) :
    ∃ w1 c1 j, Op.apply p w op = some w1 ∧ w1.heap p = some c1 ∧ Evolved c c1 j ∧ j ≤ 2 ∧
      (c.state ≠ ACK → j ≤ 1 ∧ c1.state ≠ ACK) ∧
      ((∀ n, runsAt I q p n = false) → j = 0) := by
  obtain ⟨j0, hj0, hev0, hne0, hsil0⟩ := afterIrq_evolved (I := I) (q := q) (p := p) (k := k) c
  cases op with
  | handler => exact absurd rfl hop
  | write b =>
    rcases write_any b hp htag F with ⟨w3, _, e3, F3⟩ | ⟨w1, _, e1, F1⟩
    · obtain ⟨i, hi, hevb, hsilb⟩ := byteRecord_evolved (I := I) (q := q) (p := p)
        (k := k + 1) { afterIrq I q p k c with state := WRITE }
      refine ⟨w3, _, j0 + i, by simp [Op.apply, e3], F3.heap,
        ((hev0.withState WRITE).trans hevb).withState STOP, by omega, fun hs => ?_,
        fun hsil => ?_⟩
      · have := (hne0 hs).1
        exact ⟨by omega, by simp⟩
      · have h1 := hsil0 (hsil k)
        have h2 := hsilb hsil
        omega
    · refine ⟨w1, _, j0, by simp [Op.apply, e1], F1.heap, hev0, by omega, fun hs => ?_,
        fun hsil => hsil0 (hsil k)⟩
      obtain ⟨h1, h2⟩ := hne0 hs
      exact ⟨by omega, by rw [h2]; exact hs⟩
  | stopXmit =>
    rcases stopXmit_any hp htag F with ⟨w3, _, e3, F3⟩ | ⟨w1, _, e1, F1⟩
    · refine ⟨w3, _, j0, by simp [Op.apply, e3], F3.heap, hev0.withState READY, by omega,
        fun _ => ⟨hj0, by simp⟩, fun hsil => hsil0 (hsil k)⟩
    · refine ⟨w1, _, j0, by simp [Op.apply, e1], F1.heap, hev0, by omega, fun hs => ?_,
        fun hsil => hsil0 (hsil k)⟩
      obtain ⟨h1, h2⟩ := hne0 hs
      exact ⟨by omega, by rw [h2]; exact hs⟩
  | startXmit =>
    rcases startXmit_any hp htag F with ⟨w3, _, e3, F3⟩ | ⟨w1, _, e1, F1⟩
    · obtain ⟨i, hi, hevb, hsilb⟩ := byteRecord_evolved (I := I) (q := q) (p := p)
        (k := k + 4) { afterIrq I q p k c with state := START }
      refine ⟨w3, _, j0 + i, by simp [Op.apply, e3], F3.heap,
        (hev0.withState START).trans hevb, by omega, fun hs => ?_, fun hsil => ?_⟩
      · have := (hne0 hs).1
        exact ⟨by omega, by simp [byteRecord_state]⟩
      · have h1 := hsil0 (hsil k)
        have h2 := hsilb hsil
        omega
    · refine ⟨w1, _, j0, by simp [Op.apply, e1], F1.heap, hev0, by omega, fun hs => ?_,
        fun hsil => hsil0 (hsil k)⟩
      obtain ⟨h1, h2⟩ := hne0 hs
      exact ⟨by omega, by rw [h2]; exact hs⟩

end Counter

theorem iterate_incr32_of_lt : ∀ (j n : Nat), n + j < 2 ^ 32 → Nat.iterate incr32 j n = n + j := by
  intro j
  induction j with
  | zero => intro n _; rfl
  | succ j ih =>
    intro n h
    have h1 : incr32 n = n + 1 := Nat.mod_eq_of_lt (by omega)
    rw [Function.iterate_succ_apply, h1, ih (n + 1) (by omega)]
    omega

/-- What one step does to the record of a live context, whatever the handle
and the state on entry. -/
theorem step_evolves (op : Op) {w : World} {p : Nat} {c : i2c_type_t}
    (hlive : w.heap p = some c) :
    ∃ w1 c1 j, Op.apply p w op = some w1 ∧ w1.heap p = some c1 ∧ Evolved c c1 j ∧ j ≤ 2 ∧
      (c.state ≠ ACK → j ≤ 1 ∧ c1.state ≠ ACK) ∧
      (op ≠ Op.handler → (∀ n, w.handlerRunsAt p n = false) → j = 0) := by
  by_cases hop : op = Op.handler
  · subst hop
    obtain ⟨j, hj, hev, hne, hna⟩ := ReadAckISR_evolved c
    by_cases hreg : p ∈ w.isr
    · refine ⟨w.runISR p, ReadAckISR c, j, rfl, ?_, hev, by omega, fun hs => ?_,
        fun h => absurd rfl h⟩
      · rw [runISR_heap, hlive]
        simp [hreg]
      · exact ⟨hj, hna⟩
    · refine ⟨w.runISR p, c, 0, rfl, ?_, Evolved.refl c, by omega, fun hs => ⟨by omega, hs⟩,
        fun h => absurd rfl h⟩
      rw [runISR_heap, hlive]
      simp [hreg]
  · by_cases hvalid : p ≠ 0 ∧ c.tag = p
    · obtain ⟨w1, c1, j, e, hh, hev, hj, hne, hsil⟩ :=
        call_evolves op hop hvalid.1 hvalid.2 (focus_start w hlive)
      exact ⟨w1, c1, j, e, hh, hev, hj, hne, fun _ h => hsil h⟩
    · have ha : ASSIGN_CONTEXT w p = some (Except.error INVALID_ARGUMENT) := by
        unfold ASSIGN_CONTEXT
        by_cases hp : p = 0
        · simp [hp]
        · have ht : c.tag ≠ p := fun h => hvalid ⟨hp, h⟩
          simp [hp, hlive, ht]
      refine ⟨w, c, 0, ?_, hlive, Evolved.refl c, by omega, fun hs => ⟨by omega, hs⟩,
        fun _ _ => rfl⟩
      cases op with
      | handler => exact absurd rfl hop
      | write b => simp [Op.apply, I2C_Write, ha]
      | stopXmit => simp [Op.apply, I2C_StopXmit, ha]
      | startXmit => simp [Op.apply, I2C_StartXmit, ha]

/-- What a finite sequence of steps does to the record of a live context. -/
theorem runOps_evolves (p : Nat) :
    ∀ (ops : List Op) (w : World) (c : i2c_type_t), w.heap p = some c →
      ∃ w1 c1 j, runOps p w ops = some w1 ∧ w1.heap p = some c1 ∧ Evolved c c1 j ∧
        j ≤ 2 * ops.length ∧ (c.state ≠ ACK → j ≤ ops.length ∧ c1.state ≠ ACK) := by
  intro ops
  induction ops with
  | nil =>
    intro w c hlive
    exact ⟨w, c, 0, rfl, hlive, Evolved.refl c, by simp, fun hs => ⟨by simp, hs⟩⟩
  | cons op ops ih =>
    intro w c hlive
    obtain ⟨w1, c1, j1, e1, h1, hev1, hj1, hne1, _⟩ := step_evolves op hlive
    obtain ⟨w2, c2, j2, e2, h2, hev2, hj2, hne2⟩ := ih w1 c1 h1
    refine ⟨w2, c2, j1 + j2, ?_, h2, hev1.trans hev2, ?_, fun hs => ?_⟩
    · simp [runOps, e1, e2]
    · simp only [List.length_cons]
      omega
    · obtain ⟨ha, hb⟩ := hne1 hs
      obtain ⟨hc, hd⟩ := hne2 hb
      refine ⟨?_, hd⟩
      simp only [List.length_cons]
      omega

/-! ## Theorems about the counter -/

/-- C19 fails as stated: on `wrapWriteWorld` the counter is 4294967295 and the
byte written by `I2C_Write` is acknowledged; the call returns OK and the
counter is 0 afterwards: it has decreased, and it has not increased by 1. -/
theorem C19_counter_decreases_at_wrap :
    (wrapWriteWorld.heap 0x3FFE8000).map (fun c => (c.state, c.isrAckCount))
      = some (WRITE, 4294967295) ∧
    outcome (I2C_Write wrapWriteWorld 0x3FFE8000 0xFF) 0x3FFE8000
      = some (OK, some (STOP, 0)) ∧
    (0 : Nat) < 4294967295 := by
  refine ⟨by decide, by decide, by decide⟩

/-- C19 (amended): for every live context, every step of a sequence (a call of
`I2C_StartXmit`, `I2C_Write` or `I2C_StopXmit`, or a handler run between
calls) is defined, keeps the context live and leaves the counter equal to the
counter before incremented `j` times as a 32-bit value, with `j ≤ 2`, and
`j ≤ 1` when the state is not ACK before the step (which then also holds
after it); so the counter does not decrease from one step to the next unless
it wraps past 2^32 - 1.  The same holds along every finite sequence.  No
foreground statement changes the counter: a call during which the handler
does not run leaves it as it was.  Every `writeByte` entered in state START or
WRITE that returns OK has incremented it exactly once, to
`(isrAckCount + 1) mod 2^32`. -/
theorem C19_counter_changes_only_by_handler (w : World) (ptr : Nat) (c : i2c_type_t)
    (hlive : w.heap ptr = some c) :
    (∀ op : Op, ∃ w1 c1 j, Op.apply ptr w op = some w1 ∧ w1.heap ptr = some c1 ∧ j ≤ 2 ∧
      c1.isrAckCount = Nat.iterate incr32 j c.isrAckCount ∧
      (c.isrAckCount + j < 2 ^ 32 → c1.isrAckCount = c.isrAckCount + j) ∧
      (c.state ≠ ACK → j ≤ 1 ∧ c1.state ≠ ACK)) ∧
    (∀ ops : List Op, ∃ w1 c1 j, runOps ptr w ops = some w1 ∧ w1.heap ptr = some c1 ∧
      j ≤ 2 * ops.length ∧ c1.isrAckCount = Nat.iterate incr32 j c.isrAckCount ∧
      (c.isrAckCount + j < 2 ^ 32 → c1.isrAckCount = c.isrAckCount + j)) ∧
    (∀ op : Op, op ≠ Op.handler → (∀ n, w.handlerRunsAt ptr n = false) →
      ∃ w1 c1, Op.apply ptr w op = some w1 ∧ w1.heap ptr = some c1 ∧
        c1.isrAckCount = c.isrAckCount) ∧
    (∀ (b : Nat) (w1 : World), c.state = START ∨ c.state = WRITE →
      writeByte w ptr b = some (OK, w1) →
      ∃ c1, w1.heap ptr = some c1 ∧ c1.isrAckCount = incr32 c.isrAckCount) := by
  refine ⟨?_, ?_, ?_, ?_⟩
  · intro op
    obtain ⟨w1, c1, j, e, hh, hev, hj, hne, _⟩ := step_evolves op hlive
    refine ⟨w1, c1, j, e, hh, hj, hev.counter, fun h => ?_, hne⟩
    rw [hev.counter, iterate_incr32_of_lt j _ h]
  · intro ops
    obtain ⟨w1, c1, j, e, hh, hev, hj, _⟩ := runOps_evolves ptr ops w c hlive
    refine ⟨w1, c1, j, e, hh, hj, hev.counter, fun h => ?_⟩
    rw [hev.counter, iterate_incr32_of_lt j _ h]
  · intro op hop hsil
    obtain ⟨w1, c1, j, e, hh, hev, _, _, h0⟩ := step_evolves op hlive
    have hj := h0 hop hsil
    subst hj
    exact ⟨w1, c1, e, hh, hev.counter⟩
  · intro b w1 hs hok
    obtain ⟨w2, e2, F2⟩ := writeByte_spec b hs (focus_start w hlive)
    rw [e2] at hok
    simp only [Option.some.injEq, Prod.mk.injEq] at hok
    obtain ⟨hr, hw⟩ := hok
    subst hw
    have hack : runsIn w.isr w.irq ptr (0 + 25) 6 = true := by
      by_contra hne
      simp [hne] at hr
    refine ⟨_, F2.heap, ?_⟩
    simp [byteRecord, hack, incr32]

/-- C19 (amended) on `ackWorld`: an acknowledged `I2C_Write` takes the counter
from 0 to 1. -/
theorem C19_counter_changes_only_by_handler_witness :
    ∃ w1 c1 j, Op.apply 0x3FFE8000 ackWorld (Op.write 0xFF) = some w1 ∧
      w1.heap 0x3FFE8000 = some c1 ∧ j ≤ 2 ∧
      c1.isrAckCount = Nat.iterate incr32 j 0 ∧
      ((0 : Nat) + j < 2 ^ 32 → c1.isrAckCount = 0 + j) ∧
      (WRITE ≠ ACK → j ≤ 1 ∧ c1.state ≠ ACK) :=
  (C19_counter_changes_only_by_handler ackWorld 0x3FFE8000 { sampleCtx with state := WRITE }
    rfl).1 (Op.write 0xFF)

/-! ## The handler against the foreground, access by access -/

section FineGrained

variable {P : I2C_STATE → Prop}

theorem Fine.isr_inv (hP : P ACK → P WRITE) {m : Fine} (hg : m.Good) (hs : P m.ctx.state) :
    m.isr.Good ∧ P m.isr.ctx.state := by
  by_cases h : m.ctx.state = ACK
  · refine ⟨?_, ?_⟩
    · intro e he
      simp only [Fine.isr, h, if_true, List.mem_append, List.mem_singleton] at he
      rcases he with he | he
      · exact hg e he
      · subst he
        simp [StateWrite.allowed, ReadAckISR, h]
    · rw [h] at hs
      simpa [Fine.isr, ReadAckISR, h] using hP hs
  · refine ⟨?_, ?_⟩
    · intro e he
      simp only [Fine.isr, h, if_false] at he
      exact hg e he
    · simpa [Fine.isr, ReadAckISR, h] using hs

theorem Fine.iterate_isr_inv (hP : P ACK → P WRITE) :
    ∀ (n : Nat) (m : Fine), m.Good → P m.ctx.state →
      (Nat.iterate Fine.isr n m).Good ∧ P (Nat.iterate Fine.isr n m).ctx.state := by
  intro n
  induction n with
  | zero => intro m hg hs; exact ⟨hg, hs⟩
  | succ n ih =>
    intro m hg hs
    obtain ⟨hg1, hs1⟩ := Fine.isr_inv hP hg hs
    simpa [Function.iterate_succ] using ih m.isr hg1 hs1

theorem Fine.boundary_inv (hP : P ACK → P WRITE) {m : Fine} (hg : m.Good)
    (hs : P m.ctx.state) : m.boundary.Good ∧ P m.boundary.ctx.state :=
  Fine.iterate_isr_inv hP _ { m with irq := m.irq.tail } hg hs

theorem Fine.line_inv (hP : P ACK → P WRITE) {m : Fine} (e : LineEvent) (hg : m.Good)
    (hs : P m.ctx.state) : (m.line e).Good ∧ P (m.line e).ctx.state :=
  Fine.boundary_inv hP hg hs

theorem Fine.writeState_inv (hP : P ACK → P WRITE) {m : Fine} (s : I2C_STATE) (hg : m.Good)
    (hs : P m.ctx.state) (hw : P ACK → s = WRITE) :
    (m.writeState s).Good ∧ (m.writeState s).ctx.state = s := by
  obtain ⟨hg1, hs1⟩ := Fine.boundary_inv hP hg hs
  refine ⟨?_, rfl⟩
  intro e he
  simp only [Fine.writeState, List.mem_append, List.mem_singleton] at he
  rcases he with he | he
  · exact hg1 e he
  · subst he
    simp only [StateWrite.allowed, decide_eq_true_eq]
    intro h
    rw [h] at hs1
    exact hw hs1

/-- The sets of states closed under a run of the handler that are met in
`writeByte`. -/
theorem closed_entry : (ACK = START ∨ ACK = WRITE) → (WRITE = START ∨ WRITE = WRITE) :=
  fun _ => Or.inr rfl

theorem closed_window : (ACK = ACK ∨ ACK = WRITE) → (WRITE = ACK ∨ WRITE = WRITE) :=
  fun _ => Or.inr rfl

theorem setStateFine_ACK_inv {m : Fine} (hg : m.Good)
    (hs : m.ctx.state = START ∨ m.ctx.state = WRITE) :
    (setStateFine m ACK).2.Good ∧ (setStateFine m ACK).2.ctx.state = ACK := by
  obtain ⟨g1, s1⟩ :=
    Fine.boundary_inv (P := fun x => x = START ∨ x = WRITE) closed_entry hg hs
  obtain ⟨g2, s2⟩ :=
    Fine.boundary_inv (P := fun x => x = START ∨ x = WRITE) closed_entry g1 s1
  have hne : ¬ ACK = m.boundary.ctx.state := by
    rcases s1 with h | h <;> rw [h] <;> decide
  have hw : (ACK = START ∨ ACK = WRITE) → ACK = WRITE := by
    intro h
    rcases h with h | h <;> exact absurd h (by decide)
  have key := Fine.writeState_inv (P := fun x => x = START ∨ x = WRITE) closed_entry ACK g2 s2 hw
  simp only [setStateFine, Fine.readState, hne, if_false]
  rcases s2 with h | h
  · rw [h]
    exact key
  · rw [h]
    exact key

theorem setStateFine_WRITE_inv {m : Fine} (hg : m.Good)
    (hs : m.ctx.state = ACK ∨ m.ctx.state = WRITE) :
    (setStateFine m WRITE).2.Good ∧ (setStateFine m WRITE).2.ctx.state = WRITE := by
  obtain ⟨g1, s1⟩ :=
    Fine.boundary_inv (P := fun x => x = ACK ∨ x = WRITE) closed_window hg hs
  obtain ⟨g2, s2⟩ :=
    Fine.boundary_inv (P := fun x => x = ACK ∨ x = WRITE) closed_window g1 s1
  have key := Fine.writeState_inv (P := fun x => x = ACK ∨ x = WRITE) closed_window WRITE g2 s2
    (fun _ => rfl)
  by_cases h1 : WRITE = m.boundary.ctx.state
  · simp only [setStateFine, Fine.readState]
    rw [if_pos h1]
    exact ⟨g1, h1.symm⟩
  · simp only [setStateFine, Fine.readState]
    rw [if_neg h1]
    rcases s2 with h | h
    · rw [h]
      exact key
    · rw [h]
      obtain ⟨g3, s3⟩ :=
        Fine.boundary_inv (P := fun x => x = WRITE) (fun h => absurd h (by decide)) g2 h
      exact ⟨g3, s3⟩

theorem writeByteFine.body_inv {m : Fine} (b mask : Nat) (hg : m.Good)
    (hs : m.ctx.state = START ∨ m.ctx.state = WRITE) :
    (writeByteFine.body m b mask).Good ∧
      ((writeByteFine.body m b mask).ctx.state = START ∨
        (writeByteFine.body m b mask).ctx.state = WRITE) := by
  unfold writeByteFine.body
  simp only []
  split
  · obtain ⟨g1, s1⟩ :=
      Fine.line_inv (P := fun x => x = START ∨ x = WRITE) closed_entry (LineEvent.HIGH m.ctx.sda)
        hg hs
    obtain ⟨g2, s2⟩ :=
      Fine.line_inv (P := fun x => x = START ∨ x = WRITE) closed_entry
        (LineEvent.HIGH (m.line (LineEvent.HIGH m.ctx.sda)).ctx.scl) g1 s1
    exact Fine.line_inv (P := fun x => x = START ∨ x = WRITE) closed_entry _ g2 s2
  · obtain ⟨g1, s1⟩ :=
      Fine.line_inv (P := fun x => x = START ∨ x = WRITE) closed_entry (LineEvent.LOW m.ctx.sda)
        hg hs
    obtain ⟨g2, s2⟩ :=
      Fine.line_inv (P := fun x => x = START ∨ x = WRITE) closed_entry
        (LineEvent.HIGH (m.line (LineEvent.LOW m.ctx.sda)).ctx.scl) g1 s1
    exact Fine.line_inv (P := fun x => x = START ∨ x = WRITE) closed_entry _ g2 s2

theorem writeByteFine.loop_inv (b : Nat) :
    ∀ (n : Nat) (m : Fine), n ≤ 16 → m.Good → (m.ctx.state = START ∨ m.ctx.state = WRITE) →
      ∃ m2, (∀ fuel, writeByteFine.loop (n + fuel) m b (2 ^ n) = some m2) ∧ m2.Good ∧
        (m2.ctx.state = START ∨ m2.ctx.state = WRITE) := by
  intro n
  induction n with
  | zero =>
    intro m _ hg hs
    refine ⟨m, ?_, hg, hs⟩
    intro fuel
    unfold writeByteFine.loop
    simp
  | succ n ih =>
    intro m hn hg hs
    obtain ⟨g1, s1⟩ := writeByteFine.body_inv b (2 ^ n) hg hs
    obtain ⟨m2, e2, g2, s2⟩ := ih _ (by omega) g1 s1
    refine ⟨m2, ?_, g2, s2⟩
    intro fuel
    have hfuel : n + 1 + fuel = (n + fuel) + 1 := by omega
    rw [hfuel]
    unfold writeByteFine.loop
    simp only [mask_ne_one, ne_eq, not_false_eq_true, if_true, mask_shift n (by omega), e2]

theorem writeByteFine.ackPhase_inv {m : Fine} (hg : m.Good)
    (hs : m.ctx.state = START ∨ m.ctx.state = WRITE) :
    (writeByteFine.ackPhase m).2.Good ∧ (writeByteFine.ackPhase m).2.ctx.state = WRITE := by
  obtain ⟨g1, s1⟩ := setStateFine_ACK_inv hg hs
  have w1 : (setStateFine m ACK).2.ctx.state = ACK ∨ (setStateFine m ACK).2.ctx.state = WRITE :=
    Or.inl s1
  unfold writeByteFine.ackPhase
  simp only []
  generalize setStateFine m ACK = r1 at g1 w1 ⊢
  obtain ⟨g2, w2⟩ :=
    Fine.line_inv (P := fun x => x = ACK ∨ x = WRITE) closed_window
      (LineEvent.HIGH r1.2.ctx.sda) g1 w1
  generalize r1.2.line (LineEvent.HIGH r1.2.ctx.sda) = m2 at g2 w2 ⊢
  obtain ⟨g3, w3⟩ :=
    Fine.line_inv (P := fun x => x = ACK ∨ x = WRITE) closed_window
      (LineEvent.HIGH m2.ctx.scl) g2 w2
  generalize m2.line (LineEvent.HIGH m2.ctx.scl) = m3 at g3 w3 ⊢
  obtain ⟨g4, w4⟩ :=
    Fine.line_inv (P := fun x => x = ACK ∨ x = WRITE) closed_window
      (LineEvent.LOW m3.ctx.scl) g3 w3
  generalize m3.line (LineEvent.LOW m3.ctx.scl) = m4 at g4 w4 ⊢
  obtain ⟨g5, w5⟩ :=
    Fine.line_inv (P := fun x => x = ACK ∨ x = WRITE) closed_window
      (LineEvent.LOW m4.ctx.sda) g4 w4
  generalize m4.line (LineEvent.LOW m4.ctx.sda) = m5 at g5 w5 ⊢
  obtain ⟨g6, w6⟩ :=
    Fine.line_inv (P := fun x => x = ACK ∨ x = WRITE) closed_window
      (LineEvent.delay TICKS_IN_100_NS) g5 w5
  generalize m5.line (LineEvent.delay TICKS_IN_100_NS) = m6 at g6 w6 ⊢
  obtain ⟨g7, w7⟩ :=
    Fine.boundary_inv (P := fun x => x = ACK ∨ x = WRITE) closed_window g6 w6
  simp only [Fine.readState]
  split
  · obtain ⟨g8, s8⟩ := setStateFine_WRITE_inv g7 w7
    obtain ⟨g9, s9⟩ :=
      Fine.boundary_inv (P := fun x => x = WRITE) (fun h => absurd h (by decide)) g8 s8
    exact Fine.boundary_inv (P := fun x => x = WRITE) (fun h => absurd h (by decide)) g9 s9
  · rename_i hne
    have s7 : m6.boundary.ctx.state = WRITE := by
      rcases w7 with h | h
      · exact absurd h hne
      · exact h
    exact Fine.boundary_inv (P := fun x => x = WRITE) (fun h => absurd h (by decide)) g7 s7

end FineGrained

/-! ## Theorems about the handler preempting `writeByte` -/

theorem Fine.boundary_quiet (m : Fine) (h : m.irq = []) : m.boundary = m := by
  obtain ⟨ctx, tr, wr, irq⟩ := m
  simp only at h
  subst h
  rfl

/-- With no handler run, `setStateFine` is `setState`: same result code, same
record afterwards, no line event. -/
theorem setStateFine_quiet (m : Fine) (s : I2C_STATE) (h : m.irq = []) :
    (setStateFine m s).1 = (setState m.ctx s).1 ∧
    (setStateFine m s).2.ctx = (setState m.ctx s).2 ∧
    (setStateFine m s).2.trace = m.trace ∧ (setStateFine m s).2.irq = [] := by
  obtain ⟨ctx, tr, wr, irq⟩ := m
  obtain ⟨tag, a, scl, sda, u, st, n⟩ := ctx
  simp only at h
  subst h
  cases st <;> cases s <;> exact ⟨rfl, rfl, rfl, rfl⟩

/-- With no handler run, `writeByteFine` on the sample context gives what
`writeByte` gives: result code, record and line events. -/
theorem writeByteFine_quiet_sample :
    (writeByteFine quietFine 0xA5).map (fun x => (x.1, some x.2.ctx, x.2.trace))
      = (writeByte sampleWorld 0x3FFE8000 0xA5).map
          (fun x => (x.1, x.2.heap 0x3FFE8000, x.2.trace)) := by
  decide

set_option maxRecDepth 100000 in
/-- On `busyFine`, where the handler runs twice at every boundary, the writes
to the field `state` during `writeByte` are the write of ACK by the foreground
and the write of WRITE by the handler; the byte is acknowledged. -/
theorem writeByteFine_busy_sample :
    (writeByteFine busyFine 0xA5).map
        (fun x => (x.1, x.2.ctx.state, x.2.ctx.isrAckCount, x.2.writes))
      = some (OK, WRITE, 1,
          [{ writer := Writer.foreground, before := WRITE, after := ACK },
           { writer := Writer.handler, before := ACK, after := WRITE }]) := by
  decide

set_option maxRecDepth 100000 in
/-- On `lateFine` the handler runs inside the call `setState(ptr, WRITE)` that
gives up waiting, between its reads and its write: the handler writes WRITE
over ACK, then the foreground writes WRITE over WRITE. -/
theorem writeByteFine_late_sample :
    (writeByteFine lateFine 0xA5).map
        (fun x => (x.1, x.2.ctx.state, x.2.ctx.isrAckCount, x.2.writes))
      = some (FAILED_WRITE_RECEIVED_NACK, WRITE, 1,
          [{ writer := Writer.foreground, before := WRITE, after := ACK },
           { writer := Writer.handler, before := ACK, after := WRITE },
           { writer := Writer.foreground, before := WRITE, after := WRITE }]) := by
  decide

/-- C20: for every byte, every entry state in {START, WRITE} and every
schedule of handler runs at the boundaries of `writeByte` (in front of every
access to the record or to a line, also inside its calls of `setState`, any
number of runs at each), `writeByte` returns OK or
FAILED_WRITE_RECEIVED_NACK, and of the writes to the field `state` made
during the call: each write by the foreground made while the field holds ACK
stores WRITE, each write by the handler finds ACK and stores WRITE; the state
on return is WRITE. -/
theorem C20_state_writes_are_safe (m : Fine) (byteToSend : Nat)
    (hentry : m.ctx.state = START ∨ m.ctx.state = WRITE) (hlog : m.writes = []) :
    ∃ r m1, writeByteFine m byteToSend = some (r, m1) ∧
      (r = OK ∨ r = FAILED_WRITE_RECEIVED_NACK) ∧
      (∀ e ∈ m1.writes, e.writer = Writer.foreground → e.before = ACK → e.after = WRITE) ∧
      (∀ e ∈ m1.writes, e.writer = Writer.handler → e.before = ACK ∧ e.after = WRITE) ∧
      m1.ctx.state = WRITE := by
  have hg : m.Good := by
    intro e he
    rw [hlog] at he
    exact absurd he (List.not_mem_nil e)
  obtain ⟨m2, e2, g2, s2⟩ := writeByteFine.loop_inv byteToSend 8 m (by decide) hg hentry
  obtain ⟨g3, s3⟩ := writeByteFine.ackPhase_inv g2 s2
  have hloop : writeByteFine.loop 16 m byteToSend 0x0100 = some m2 := e2 8
  refine ⟨(writeByteFine.ackPhase m2).1, (writeByteFine.ackPhase m2).2, ?_, ?_, ?_, ?_, s3⟩
  · simp only [writeByteFine, hloop, Option.map_some']
  · unfold writeByteFine.ackPhase
    simp only []
    split
    · exact Or.inr rfl
    · exact Or.inl rfl
  · intro e he hw hb
    have h := g3 e he
    simp only [StateWrite.allowed, hw, decide_eq_true_eq] at h
    exact h hb
  · intro e he hw
    have h := g3 e he
    simp only [StateWrite.allowed, hw, decide_eq_true_eq] at h
    exact h

/-- C20 on `busyFine`, where the handler runs twice at every boundary, for
the byte 0xA5. -/
theorem C20_state_writes_are_safe_witness :
    ∃ r m1, writeByteFine busyFine 0xA5 = some (r, m1) ∧
      (r = OK ∨ r = FAILED_WRITE_RECEIVED_NACK) ∧
      (∀ e ∈ m1.writes, e.writer = Writer.foreground → e.before = ACK → e.after = WRITE) ∧
      (∀ e ∈ m1.writes, e.writer = Writer.handler → e.before = ACK ∧ e.after = WRITE) ∧
      m1.ctx.state = WRITE :=
  C20_state_writes_are_safe busyFine 0xA5 (Or.inr rfl) rfl

/-! ## Theorems about the transition switch as it is -/

/-- C24: `setState` on a record in state STOP with the request ACK returns OK
and sets the state to ACK: the body of `case STOP:` does not accept ACK and
hands the request to the body of `case WRITE:`, which does.  For every state
and every request, `setState` returns OK exactly when the request is the
current state, or one of the eight documented edges, or the pair STOP, ACK;
the request START in state STOP is rejected and leaves the record as it was. -/
theorem C24_setState_accepts_exactly (c : i2c_type_t) (s t : I2C_STATE) :
    setState { c with state := STOP } ACK = (OK, { c with state := ACK }) ∧
    setState.caseSTOP { c with state := STOP } ACK
      = setState.caseWRITE { c with state := STOP } ACK ∧
    documentedEdge STOP ACK = false ∧
    ((setState { c with state := s } t).1 = OK ↔
      (t = s ∨ documentedEdge s t = true ∨ (s = STOP ∧ t = ACK))) ∧
    ((setState { c with state := s } t).1 = OK ∨
      setState { c with state := s } t
        = (INVALID_STATE_CHANGE_REQUEST, { c with state := s })) ∧
    setState { c with state := STOP } START
      = (INVALID_STATE_CHANGE_REQUEST, { c with state := STOP }) := by
  refine ⟨rfl, rfl, rfl, ?_, ?_, rfl⟩
  · cases s <;> cases t <;> simp [setState, setState.caseACK, setState.caseREADY,
      setState.caseSTART, setState.caseSTOP, setState.caseWRITE, documentedEdge]
  · cases s <;> cases t <;> simp [setState, setState.caseACK, setState.caseREADY,
      setState.caseSTART, setState.caseSTOP, setState.caseWRITE]

/-! ## Theorems about `delay` -/

theorem timer_util.elapsed_eq (start c : Nat) :
    ((timer_util.elapsed start c : Nat) : Int)
      = ((c % 2 ^ 32 : Nat) - (start % 2 ^ 32 : Nat) : Int) % 2 ^ 32 := by
  unfold timer_util.elapsed
  have h1 : start % 2 ^ 32 < 2 ^ 32 := Nat.mod_lt _ (by decide)
  have h2 : c % 2 ^ 32 < 2 ^ 32 := Nat.mod_lt _ (by decide)
  omega

theorem timer_util.loop_iff (start ticks : Nat) :
    ∀ (readings : List Nat) (r : Nat × List Nat),
      timer_util.delay.loop start ticks readings = some r ↔
        ∃ pre c rest, readings = pre ++ c :: rest ∧
          (∀ x ∈ pre, timer_util.elapsed start x < ticks) ∧
          ticks ≤ timer_util.elapsed start c ∧ r = (c % 2 ^ 32, rest) := by
  intro readings
  induction readings with
  | nil =>
    intro r
    simp [timer_util.delay.loop]
  | cons x xs ih =>
    intro r
    by_cases hx : timer_util.elapsed start x < ticks
    · rw [timer_util.delay.loop, if_pos hx, ih r]
      constructor
      · rintro ⟨pre, c, rest, e, hpre, hc, hr⟩
        refine ⟨x :: pre, c, rest, by rw [e]; rfl, ?_, hc, hr⟩
        intro y hy
        rcases List.mem_cons.mp hy with h | h
        · rw [h]; exact hx
        · exact hpre y h
      · rintro ⟨pre, c, rest, e, hpre, hc, hr⟩
        cases pre with
        | nil =>
          simp only [List.nil_append, List.cons.injEq] at e
          rw [← e.1] at hc
          omega
        | cons y pre =>
          simp only [List.cons_append, List.cons.injEq] at e
          exact ⟨pre, c, rest, e.2, fun z hz => hpre z (List.mem_cons_of_mem _ hz), hc, hr⟩
    · rw [timer_util.delay.loop, if_neg hx]
      constructor
      · intro h
        simp only [Option.some.injEq] at h
        exact ⟨[], x, xs, rfl, by simp, by omega, h.symm⟩
      · rintro ⟨pre, c, rest, e, hpre, hc, hr⟩
        cases pre with
        | nil =>
          simp only [List.nil_append, List.cons.injEq] at e
          rw [hr, ← e.1, ← e.2]
        | cons y pre =>
          simp only [List.cons_append, List.cons.injEq] at e
          have := hpre y (List.mem_cons_self _ _)
          rw [← e.1] at this
          omega

/-- C30: let the first read of the cycle counter give `s` and let `t` be a
32-bit tick count.  `delay(t)` returns at reading `c` exactly when `c` is the
first of the following readings whose distance `(c - s) mod 2^32` from the
start is at least `t`: all readings before it are nearer than `t`.  So it does
not return before `t` ticks have gone by, also when the counter has wrapped
(start 2^32 - 5, ten ticks: the readings 2^32 - 1, 3 and 4 are passed over and
the wait ends at reading 5); `delay(0)` returns at the first reading; and if
no reading is far enough the loop is still running when the readings end. -/
theorem C30_delay_returns_at_first_elapsed (s t : Nat) (hs : s < 2 ^ 32) (ht : t < 2 ^ 32) :
    (∀ (readings : List Nat) (r : Nat × List Nat),
      timer_util.delay t (s :: readings) = some r ↔
        ∃ pre c rest, readings = pre ++ c :: rest ∧
          (∀ x ∈ pre, timer_util.elapsed s x < t) ∧
          t ≤ timer_util.elapsed s c ∧ r = (c % 2 ^ 32, rest)) ∧
    (∀ c : Nat, ((timer_util.elapsed s c : Nat) : Int)
      = ((c % 2 ^ 32 : Nat) - (s : Nat) : Int) % 2 ^ 32) ∧
    (∀ (c : Nat) (rest : List Nat),
      timer_util.delay 0 (s :: c :: rest) = some (c % 2 ^ 32, rest)) ∧
    (∀ readings : List Nat, (∀ x ∈ readings, timer_util.elapsed s x < t) →
      timer_util.delay t (s :: readings) = none) ∧
    timer_util.delay 10 [4294967291, 4294967295, 3, 4, 5, 6] = some (5, [6]) := by
  have hsm : s % 2 ^ 32 = s := Nat.mod_eq_of_lt hs
  have htm : t % 2 ^ 32 = t := Nat.mod_eq_of_lt ht
  have hd : ∀ readings, timer_util.delay t (s :: readings)
      = timer_util.delay.loop s t readings := by
    intro readings
    simp only [timer_util.delay, timer_util.getCCOUNT, hsm, htm]
  refine ⟨?_, ?_, ?_, ?_, by decide⟩
  · intro readings r
    rw [hd]
    exact timer_util.loop_iff s t readings r
  · intro c
    have h := timer_util.elapsed_eq s c
    rw [hsm] at h
    exact h
  · intro c rest
    simp [timer_util.delay, timer_util.getCCOUNT, timer_util.delay.loop]
  · intro readings hall
    rw [hd]
    cases h : timer_util.delay.loop s t readings with
    | none => rfl
    | some r =>
      obtain ⟨pre, c, rest, e, _, hc, _⟩ := (timer_util.loop_iff s t readings r).mp h
      have := hall c (by rw [e]; simp)
      omega

/-- C30 at the start reading 2^32 - 5 with ten ticks: the counter wraps during
the wait, which ends at reading 5, ten ticks after the start. -/
theorem C30_delay_returns_at_first_elapsed_witness :
    timer_util.delay 10 (4294967291 :: [4294967295, 3, 4, 5, 6]) = some (5, [6]) ↔
      ∃ pre c rest, [4294967295, 3, 4, 5, 6] = pre ++ c :: rest ∧
        (∀ x ∈ pre, timer_util.elapsed 4294967291 x < 10) ∧
        10 ≤ timer_util.elapsed 4294967291 c ∧ ((5 : Nat), [6]) = (c % 2 ^ 32, rest) :=
  (C30_delay_returns_at_first_elapsed 4294967291 10 (by decide) (by decide)).1
    [4294967295, 3, 4, 5, 6] (5, [6])

/-! ## Levels on the lines during the operations -/

section Levels

variable {scl sda : Nat}

theorem driven_append (pin : Nat) :
    ∀ (es fs : List LineEvent) (level : Bool),
      driven pin level (es ++ fs) = driven pin (driven pin level es) fs := by
  intro es
  induction es with
  | nil => intro fs level; rfl
  | cons e es ih =>
    intro fs level
    cases e <;> simp [driven, ih]

theorem driven_ack_scl (h : scl ≠ sda) (level : Bool) :
    driven scl level (ackEvents scl sda) = false := by
  simp [ackEvents, driven, h, Ne.symm h]

theorem driven_ack_sda (level : Bool) : driven sda level (ackEvents scl sda) = false := by
  simp [ackEvents, driven]

theorem dataEdges_ack (h : scl ≠ sda) (dat : Bool) :
    ∀ e ∈ dataEdges scl sda false dat (ackEvents scl sda), e.clock = false := by
  cases dat <;> simp [ackEvents, dataEdges, h, Ne.symm h]

theorem dataEdges_bits (h : scl ≠ sda) (b : Nat) (rest : List LineEvent)
    (hrest : ∀ dat, ∀ e ∈ dataEdges scl sda false dat rest, e.clock = false) :
    ∀ (n : Nat) (dat : Bool),
      ∀ e ∈ dataEdges scl sda false dat (bitEvents scl sda b n ++ rest), e.clock = false := by
  intro n
  induction n with
  | zero =>
    intro dat e he
    exact hrest dat e (by simpa [bitEvents] using he)
  | succ n ih =>
    intro dat e he
    by_cases hbit : (b &&& 2 ^ n) % 2 ^ 8 > 0
    · simp only [bitEvents, if_pos hbit, List.cons_append, dataEdges, h, Ne.symm h, if_true,
        if_false, true_and, false_and, List.nil_append, List.mem_append] at he
      rcases he with he | he
      · cases dat <;> simp at he
        rw [he]
      · exact ih true e he
    · simp only [bitEvents, if_neg hbit, List.cons_append, dataEdges, h, Ne.symm h, if_true,
        if_false, true_and, false_and, List.nil_append, List.mem_append] at he
      rcases he with he | he
      · cases dat <;> simp at he
        rw [he]
      · exact ih false e he

end Levels

theorem writeByte_result {w w1 : World} {p b : Nat} {r : RESULT}
    (h : writeByte w p b = some (r, w1)) : r = OK ∨ r = FAILED_WRITE_RECEIVED_NACK := by
  unfold writeByte writeByteFuel at h
  simp only [Option.bind_eq_some] at h
  obtain ⟨_, _, _, _, _, _, _, _, _, _, _, _, sw, _, h⟩ := h
  split at h
  · simp only [Option.bind_eq_some, Option.some.injEq, Prod.mk.injEq] at h
    obtain ⟨_, _, hr, _⟩ := h
    exact Or.inr hr.symm
  · simp only [Option.some.injEq, Prod.mk.injEq] at h
    exact Or.inl h.1.symm

/-- C25: on a valid handle whose record is in state READY, `I2C_StartXmit`
returns, and the events it adds to the trace are: data low, the hold time,
clock low, then the events of the address byte.  The events that set a line
before the address byte are exactly data low, then clock low; with both lines
driven high before the call (and distinct pins) the only change of the data
level is a fall while the clock is high, a START condition.  On a valid handle
whose record is in state STOP, `I2C_StopXmit` returns OK, and the events it
adds are: clock high, the setup time, data high, the bus-free time; the events
that set a line are exactly clock high, then data high; with both lines driven
low before the call the only change of the data level is a rise while the
clock is high, a STOP condition.  A call of `I2C_Initialize` that returns OK
has configured the pins and then driven data high before clock high. -/
theorem C25_start_and_stop_conditions (w : World) (ptr : Nat) (c : i2c_type_t)
    (hp : ptr ≠ 0) (hlive : w.heap ptr = some c) (htag : c.tag = ptr)
    (hpins : c.scl ≠ c.sda) :
    (c.state = READY → ∃ r w1, I2C_StartXmit w ptr = some (r, w1) ∧
      w1.trace = w.trace ++
        [LineEvent.LOW c.sda, LineEvent.delay TICKS_IN_600_NS, LineEvent.LOW c.scl] ++
        bitEvents c.scl c.sda (c.slaveAddress &&& 0xFE) 8 ++ ackEvents c.scl c.sda) ∧
    levelEvents [LineEvent.LOW c.sda, LineEvent.delay TICKS_IN_600_NS, LineEvent.LOW c.scl]
      = [LineEvent.LOW c.sda, LineEvent.LOW c.scl] ∧
    dataEdges c.scl c.sda true true
        [LineEvent.LOW c.sda, LineEvent.delay TICKS_IN_600_NS, LineEvent.LOW c.scl]
      = [{ rising := false, clock := true }] ∧
    (c.state = STOP → ∃ w1, I2C_StopXmit w ptr = some (OK, w1) ∧
      w1.trace = w.trace ++
        [LineEvent.HIGH c.scl, LineEvent.delay TICKS_IN_600_NS, LineEvent.HIGH c.sda,
         LineEvent.delay TICKS_IN_1300_NS]) ∧
    levelEvents [LineEvent.HIGH c.scl, LineEvent.delay TICKS_IN_600_NS, LineEvent.HIGH c.sda,
        LineEvent.delay TICKS_IN_1300_NS]
      = [LineEvent.HIGH c.scl, LineEvent.HIGH c.sda] ∧
    dataEdges c.scl c.sda false false
        [LineEvent.HIGH c.scl, LineEvent.delay TICKS_IN_600_NS, LineEvent.HIGH c.sda,
         LineEvent.delay TICKS_IN_1300_NS]
      = [{ rising := true, clock := true }] ∧
    (∀ (env : Platform) (w0 w2 : World) (a scl sda : Nat) (useAck : Bool)
        (context slot : Option Nat),
      I2C_Initialize env w0 a scl sda useAck context = some (OK, w2, slot) →
      w2.trace = w0.trace ++ [LineEvent.config ((1 <<< scl) ||| (1 <<< sda)),
        LineEvent.HIGH sda, LineEvent.HIGH scl] ∧
      levelEvents [LineEvent.config ((1 <<< scl) ||| (1 <<< sda)),
        LineEvent.HIGH sda, LineEvent.HIGH scl] = [LineEvent.HIGH sda, LineEvent.HIGH scl]) := by
  refine ⟨?_, rfl, ?_, ?_, rfl, ?_, ?_⟩
  · intro hs
    obtain ⟨w1, F1, e1⟩ := startXmit_spec hp htag hs (focus_start w hlive)
    obtain ⟨w2, e2, F2⟩ := writeByte_spec (c.slaveAddress &&& 0xFE) (Or.inl rfl) F1
    rw [e1]
    exact ⟨_, w2, e2, F2.trace⟩
  · simp [dataEdges, hpins, Ne.symm hpins]
  · intro hs
    obtain ⟨w2, e2, F2⟩ := stopXmit_spec hp htag (Or.inl hs) (focus_start w hlive)
    exact ⟨w2, e2, F2.trace⟩
  · simp [dataEdges, hpins, Ne.symm hpins]
  · intro env w0 w2 a scl sda useAck context slot hinit
    cases context with
    | none => simp [I2C_Initialize] at hinit
    | some h =>
      obtain ⟨_, _, _, _, htr, _⟩ := initialize_ok hinit
      exact ⟨htr, rfl⟩

/-- C25 on `readyWorld`: `I2C_StartXmit` on the idle sample context drives data
(pin 5) low, waits, drives clock (pin 4) low and then sends the address byte
0x78. -/
theorem C25_start_and_stop_conditions_witness :
    ∃ r w1, I2C_StartXmit readyWorld 0x3FFE8000 = some (r, w1) ∧
      w1.trace = readyWorld.trace ++
        [LineEvent.LOW sampleCtx.sda, LineEvent.delay TICKS_IN_600_NS,
         LineEvent.LOW sampleCtx.scl] ++
        bitEvents sampleCtx.scl sampleCtx.sda (sampleCtx.slaveAddress &&& 0xFE) 8 ++
        ackEvents sampleCtx.scl sampleCtx.sda :=
  (C25_start_and_stop_conditions readyWorld 0x3FFE8000 sampleCtx (by decide) rfl rfl
    (by decide)).1 rfl

/-- C26: on a live record with distinct clock and data pins, for every byte
and every schedule of the handler, `writeByte` returns OK or
FAILED_WRITE_RECEIVED_NACK, and the events it adds to the trace are the events
of the eight bits followed by those of the acknowledge phase.  With the clock
driven low on entry, whatever the data level on entry, every change of the
level driven on the data line along these events happens while the clock is
driven low, so none of them is a START or STOP condition; after the last
event both lines are driven low, whatever their levels on entry. -/
theorem C26_data_changes_while_clock_low (w : World) (ptr b : Nat) (c : i2c_type_t)
    (hlive : w.heap ptr = some c) (hpins : c.scl ≠ c.sda) :
    ∃ r w1, writeByte w ptr b = some (r, w1) ∧
      (r = OK ∨ r = FAILED_WRITE_RECEIVED_NACK) ∧
      w1.trace = w.trace ++ bitEvents c.scl c.sda b 8 ++ ackEvents c.scl c.sda ∧
      (∀ dat : Bool, ∀ e ∈ dataEdges c.scl c.sda false dat
          (bitEvents c.scl c.sda b 8 ++ ackEvents c.scl c.sda), e.clock = false) ∧
      (∀ clk : Bool,
        driven c.scl clk (bitEvents c.scl c.sda b 8 ++ ackEvents c.scl c.sda) = false) ∧
      (∀ dat : Bool,
        driven c.sda dat (bitEvents c.scl c.sda b 8 ++ ackEvents c.scl c.sda) = false) := by
  obtain ⟨r, w1, e1, htr⟩ := writeByteFuel_trace b 8 (focus_start w hlive)
  have e1 : writeByte w ptr b = some (r, w1) := e1
  refine ⟨r, w1, e1, writeByte_result e1, htr, ?_, ?_, ?_⟩
  · intro dat
    exact dataEdges_bits hpins b _ (dataEdges_ack hpins) 8 dat
  · intro clk
    rw [driven_append, driven_ack_scl hpins]
  · intro dat
    rw [driven_append, driven_ack_sda]

/-- C26 on `sampleWorld` for the byte 0xA5. -/
theorem C26_data_changes_while_clock_low_witness :
    ∃ r w1, writeByte sampleWorld 0x3FFE8000 0xA5 = some (r, w1) ∧
      (r = OK ∨ r = FAILED_WRITE_RECEIVED_NACK) ∧
      w1.trace = sampleWorld.trace ++ bitEvents 4 5 0xA5 8 ++ ackEvents 4 5 ∧
      (∀ dat : Bool, ∀ e ∈ dataEdges 4 5 false dat
          (bitEvents 4 5 0xA5 8 ++ ackEvents 4 5), e.clock = false) ∧
      (∀ clk : Bool, driven 4 clk (bitEvents 4 5 0xA5 8 ++ ackEvents 4 5) = false) ∧
      (∀ dat : Bool, driven 5 dat (bitEvents 4 5 0xA5 8 ++ ackEvents 4 5) = false) :=
  C26_data_changes_while_clock_low sampleWorld 0x3FFE8000 0xA5 { sampleCtx with state := WRITE }
    rfl (by decide)

/-- C29: on a live record entered in state START or WRITE, for every byte and
every schedule of the handler, `writeByte` runs as follows: the loop ends;
`setState(ptr, ACK)` returns OK and leaves the state ACK; then the foreground
drives data high, clock high, clock low and data low and calls `delay`; then
it reads the state; the result is OK exactly when the state read is not ACK.
The events added to the trace between the state being set to ACK and the state
being read are exactly these five, whatever the schedule: the level driven on
the data line is high after the first and low after the fourth, a fall of the
driven data level produced by the foreground itself before it checks whether
the handler has run.  No event follows the read. -/
theorem C29_master_drives_data_edge_in_ack_window (w : World) (ptr b : Nat) (c : i2c_type_t)
    (hlive : w.heap ptr = some c) (hs : c.state = START ∨ c.state = WRITE) :
    ∃ w1 w2 w3 w4 w5 w6 s w7 r w8,
      writeByte.loop 16 w ptr b 0x0100 = some w1 ∧
      setStateAt w1 ptr ACK = some (OK, w2) ∧
      (w2.heap ptr).map i2c_type_t.state = some ACK ∧
      GPIO_SET_LEVEL_HIGH w2 ptr i2c_type_t.sda = some w3 ∧
      GPIO_SET_LEVEL_HIGH w3 ptr i2c_type_t.scl = some w4 ∧
      GPIO_SET_LEVEL_LOW w4 ptr i2c_type_t.scl = some w5 ∧
      GPIO_SET_LEVEL_LOW w5 ptr i2c_type_t.sda = some w6 ∧
      readState (delay w6 TICKS_IN_100_NS) ptr = some (s, w7) ∧
      writeByte w ptr b = some (r, w8) ∧
      (r = OK ↔ s ≠ ACK) ∧
      w3.trace = w2.trace ++ [LineEvent.HIGH c.sda] ∧
      w6.trace = w2.trace ++ [LineEvent.HIGH c.sda, LineEvent.HIGH c.scl, LineEvent.LOW c.scl,
        LineEvent.LOW c.sda] ∧
      w7.trace = w2.trace ++ [LineEvent.HIGH c.sda, LineEvent.HIGH c.scl, LineEvent.LOW c.scl,
        LineEvent.LOW c.sda, LineEvent.delay TICKS_IN_100_NS] ∧
      w8.trace = w7.trace ∧
      (∀ dat : Bool, driven c.sda dat [LineEvent.HIGH c.sda] = true) ∧
      (∀ dat : Bool, driven c.sda dat [LineEvent.HIGH c.sda, LineEvent.HIGH c.scl,
        LineEvent.LOW c.scl, LineEvent.LOW c.sda] = false) := by
  have F := focus_start w hlive
  have hc : c.state ≠ ACK := by rcases hs with h | h <;> simp [h]
  obtain ⟨w1, c1, e1, F1, _, _, hst1⟩ := loop_spec b 8 w c w.trace 0 (by omega) F
  have e1 := e1 8
  rw [hst1 hc] at F1
  obtain ⟨w2, e2, F2⟩ := F1.setStateAt ACK
  rw [afterIrq_of_ne hc, setState_ACK_of hs] at e2 F2
  obtain ⟨w3, e3, F3⟩ := F2.high_sda
  obtain ⟨w4, e4, F4⟩ := F3.high_scl
  obtain ⟨w5, e5, F5⟩ := F4.low_scl
  obtain ⟨w6, e6, F6⟩ := F5.low_sda
  have F7 := F6.delay TICKS_IN_100_NS
  obtain ⟨w8, e8, F8⟩ := F7.readState
  simp only [afterIrq_scl, afterIrq_sda] at F3 F4 F5 F6 F7 F8
  have hpow : (0x0100 : Nat) = 2 ^ 8 := by norm_num
  have hloop : writeByte.loop 16 w ptr b 0x0100 = some w1 := by rw [hpow]; exact e1
  have hwb : ∀ r w9, (if (afterIrq w.isr w.irq ptr (0 + 3 * 8 + 1 + 1 + 1 + 1 + 1 + 1)
        (afterIrq w.isr w.irq ptr (0 + 3 * 8 + 1 + 1 + 1 + 1 + 1)
        (afterIrq w.isr w.irq ptr (0 + 3 * 8 + 1 + 1 + 1 + 1)
        (afterIrq w.isr w.irq ptr (0 + 3 * 8 + 1 + 1 + 1)
        (afterIrq w.isr w.irq ptr (0 + 3 * 8 + 1 + 1)
        (afterIrq w.isr w.irq ptr (0 + 3 * 8 + 1) { c with state := ACK })))))).state = ACK
      then (setStateAt w8 ptr WRITE).bind fun rw => some (FAILED_WRITE_RECEIVED_NACK, rw.2)
      else some (OK, w8)) = some (r, w9) → writeByte w ptr b = some (r, w9) := by
    intro r w9 h
    unfold writeByte writeByteFuel
    rw [hloop]
    simp only [Option.some_bind, e2, e3, e4, e5, e6, e8]
    exact h
  have htr6 : w6.trace = w2.trace ++ [LineEvent.HIGH c.sda, LineEvent.HIGH c.scl,
      LineEvent.LOW c.scl, LineEvent.LOW c.sda] := by
    rw [F6.trace, F2.trace]
    simp [List.append_assoc]
  have htr7 : w8.trace = w2.trace ++ [LineEvent.HIGH c.sda, LineEvent.HIGH c.scl,
      LineEvent.LOW c.scl, LineEvent.LOW c.sda, LineEvent.delay TICKS_IN_100_NS] := by
    rw [F8.trace, F2.trace]
    simp [List.append_assoc]
  have hdr1 : ∀ dat : Bool, driven c.sda dat [LineEvent.HIGH c.sda] = true := by
    intro dat
    simp [driven]
  have hdr2 : ∀ dat : Bool, driven c.sda dat [LineEvent.HIGH c.sda, LineEvent.HIGH c.scl,
      LineEvent.LOW c.scl, LineEvent.LOW c.sda] = false := by
    intro dat
    simp [driven]
  by_cases hst : (afterIrq w.isr w.irq ptr (0 + 3 * 8 + 1 + 1 + 1 + 1 + 1 + 1)
        (afterIrq w.isr w.irq ptr (0 + 3 * 8 + 1 + 1 + 1 + 1 + 1)
        (afterIrq w.isr w.irq ptr (0 + 3 * 8 + 1 + 1 + 1 + 1)
        (afterIrq w.isr w.irq ptr (0 + 3 * 8 + 1 + 1 + 1)
        (afterIrq w.isr w.irq ptr (0 + 3 * 8 + 1 + 1)
        (afterIrq w.isr w.irq ptr (0 + 3 * 8 + 1) { c with state := ACK })))))).state = ACK
  · obtain ⟨w9, e9, F9⟩ := F8.setStateAt WRITE
    refine ⟨w1, w2, w3, w4, w5, w6, _, w8, FAILED_WRITE_RECEIVED_NACK, w9, hloop, e2, ?_, e3,
      e4, e5, e6, e8, ?_, ?_, ?_, htr6, htr7, ?_, hdr1, hdr2⟩
    · rw [F2.heap]; rfl
    · apply hwb
      rw [if_pos hst, e9]
      rfl
    · simp [hst]
    · rw [F3.trace, F2.trace]
    · rw [F9.trace, F8.trace]
  · refine ⟨w1, w2, w3, w4, w5, w6, _, w8, OK, w8, hloop, e2, ?_, e3,
      e4, e5, e6, e8, ?_, ?_, ?_, htr6, htr7, rfl, hdr1, hdr2⟩
    · rw [F2.heap]; rfl
    · apply hwb
      rw [if_neg hst]
    · simp [hst]
    · rw [F3.trace, F2.trace]

/-- C29 on `ackWorld` for the byte 0xA5. -/
theorem C29_master_drives_data_edge_in_ack_window_witness :
    ∃ w1 w2 w3 w4 w5 w6 s w7 r w8,
      writeByte.loop 16 ackWorld 0x3FFE8000 0xA5 0x0100 = some w1 ∧
      setStateAt w1 0x3FFE8000 ACK = some (OK, w2) ∧
      (w2.heap 0x3FFE8000).map i2c_type_t.state = some ACK ∧
      GPIO_SET_LEVEL_HIGH w2 0x3FFE8000 i2c_type_t.sda = some w3 ∧
      GPIO_SET_LEVEL_HIGH w3 0x3FFE8000 i2c_type_t.scl = some w4 ∧
      GPIO_SET_LEVEL_LOW w4 0x3FFE8000 i2c_type_t.scl = some w5 ∧
      GPIO_SET_LEVEL_LOW w5 0x3FFE8000 i2c_type_t.sda = some w6 ∧
      readState (delay w6 TICKS_IN_100_NS) 0x3FFE8000 = some (s, w7) ∧
      writeByte ackWorld 0x3FFE8000 0xA5 = some (r, w8) ∧
      (r = OK ↔ s ≠ ACK) ∧
      w3.trace = w2.trace ++ [LineEvent.HIGH 5] ∧
      w6.trace = w2.trace ++ [LineEvent.HIGH 5, LineEvent.HIGH 4, LineEvent.LOW 4,
        LineEvent.LOW 5] ∧
      w7.trace = w2.trace ++ [LineEvent.HIGH 5, LineEvent.HIGH 4, LineEvent.LOW 4,
        LineEvent.LOW 5, LineEvent.delay TICKS_IN_100_NS] ∧
      w8.trace = w7.trace ∧
      (∀ dat : Bool, driven 5 dat [LineEvent.HIGH 5] = true) ∧
      (∀ dat : Bool, driven 5 dat [LineEvent.HIGH 5, LineEvent.HIGH 4,
        LineEvent.LOW 4, LineEvent.LOW 5] = false) :=
  C29_master_drives_data_edge_in_ack_window ackWorld 0x3FFE8000 0xA5
    { sampleCtx with state := WRITE } rfl (Or.inr rfl)

/-! ## The calls of the I2C driver made by the display driver -/

theorem assign_cases (w : World) (p : Nat) :
    ASSIGN_CONTEXT w p = none ∨ ASSIGN_CONTEXT w p = some (Except.error INVALID_ARGUMENT) ∨
      ASSIGN_CONTEXT w p = some (Except.ok p) := by
  unfold ASSIGN_CONTEXT
  by_cases hp : p = 0
  · simp [hp]
  · cases h : w.heap p with
    | none => simp [hp]
    | some c =>
      by_cases ht : c.tag = p <;> simp [hp, ht]

theorem setStateAt_result {w w1 : World} {p : Nat} {s : I2C_STATE} {r : RESULT}
    (h : setStateAt w p s = some (r, w1)) : r = OK ∨ r = INVALID_STATE_CHANGE_REQUEST := by
  unfold setStateAt at h
  split at h
  · rename_i c _
    simp only [Option.some.injEq, Prod.mk.injEq] at h
    rw [← h.1]
    rcases setState_fst c s with h1 | h1
    · exact Or.inl h1.1
    · exact Or.inr h1.1
  · simp at h

theorem I2C_Write_result {w w1 : World} {p b : Nat} {r : RESULT}
    (h : I2C_Write w p b = some (r, w1)) : Allowed r := by
  unfold I2C_Write at h
  rcases assign_cases w p with ha | ha | ha
  · rw [ha] at h
    simp at h
  · rw [ha] at h
    simp only [Option.some.injEq, Prod.mk.injEq] at h
    exact Or.inr (Or.inr (Or.inl h.1.symm))
  · rw [ha] at h
    simp only [Option.bind_eq_some] at h
    obtain ⟨rw, h1, h2⟩ := h
    split at h2
    · rename_i hne
      simp only [Option.some.injEq, Prod.mk.injEq] at h2
      have h1 : setStateAt w p WRITE = some (rw.1, rw.2) := h1
      rcases setStateAt_result h1 with h3 | h3
      · exact absurd h3 hne
      · rw [← h2.1]
        exact Or.inr (Or.inr (Or.inr h3))
    · simp only [Option.bind_eq_some, Option.some.injEq, Prod.mk.injEq] at h2
      obtain ⟨bw, hb, sw, _, hr, _⟩ := h2
      rw [← hr]
      have hb : writeByte rw.2 p b = some (bw.1, bw.2) := hb
      rcases writeByte_result hb with h3 | h3
      · exact Or.inl h3
      · exact Or.inr (Or.inl h3)

theorem I2C_call_total (op : Op) (hop : op ≠ Op.handler) {w : World} {p : Nat}
    (h : w.nullOrLive p) :
    ∃ w1, Op.apply p w op = some w1 ∧ w1.nullOrLive p := by
  rcases h with h | ⟨c, hc⟩
  · subst h
    have ha : ASSIGN_CONTEXT w 0 = some (Except.error INVALID_ARGUMENT) := by
      simp [ASSIGN_CONTEXT]
    refine ⟨w, ?_, Or.inl rfl⟩
    cases op with
    | handler => exact absurd rfl hop
    | write b => simp [Op.apply, I2C_Write, ha]
    | stopXmit => simp [Op.apply, I2C_StopXmit, ha]
    | startXmit => simp [Op.apply, I2C_StartXmit, ha]
  · obtain ⟨w1, c1, _, e, hh, _⟩ := step_evolves op hc
    exact ⟨w1, e, Or.inr ⟨c1, hh⟩⟩

section DisplayCalls

variable {m : Board} {ptr : Nat} {s : ssd1306_t}

theorem Board.startXmit_total (hs : m.ssd ptr = some s) (hl : m.world.nullOrLive s.i2c) :
    ∃ r m1, m.startXmit ptr = some (r, m1) ∧ m1.ssd ptr = some s ∧
      m1.world.nullOrLive s.i2c ∧ m1.calls = m.calls ++ [I2CCall.StartXmit s.i2c r] := by
  obtain ⟨w1, e, hl1⟩ := I2C_call_total Op.startXmit (by simp) hl
  simp only [Op.apply, Option.map_eq_some'] at e
  obtain ⟨x, e, rfl⟩ := e
  exact ⟨x.1, { m with world := x.2, calls := m.calls ++ [I2CCall.StartXmit s.i2c x.1] },
    by simp [Board.startXmit, hs, e], hs, hl1, rfl⟩

theorem Board.write_total (b : Nat) (hs : m.ssd ptr = some s)
    (hl : m.world.nullOrLive s.i2c) :
    ∃ r m1, m.write ptr b = some (r, m1) ∧ m1.ssd ptr = some s ∧
      m1.world.nullOrLive s.i2c ∧ m1.calls = m.calls ++ [I2CCall.Write s.i2c b r] := by
  obtain ⟨w1, e, hl1⟩ := I2C_call_total (Op.write b) (by simp) hl
  simp only [Op.apply, Option.map_eq_some'] at e
  obtain ⟨x, e, rfl⟩ := e
  exact ⟨x.1, { m with world := x.2, calls := m.calls ++ [I2CCall.Write s.i2c b x.1] },
    by simp [Board.write, hs, e], hs, hl1, rfl⟩

theorem Board.stopXmit_total (hs : m.ssd ptr = some s) (hl : m.world.nullOrLive s.i2c) :
    ∃ r m1, m.stopXmit ptr = some (r, m1) ∧ m1.ssd ptr = some s ∧
      m1.world.nullOrLive s.i2c ∧ m1.calls = m.calls ++ [I2CCall.StopXmit s.i2c r] := by
  obtain ⟨w1, e, hl1⟩ := I2C_call_total Op.stopXmit (by simp) hl
  simp only [Op.apply, Option.map_eq_some'] at e
  obtain ⟨x, e, rfl⟩ := e
  exact ⟨x.1, { m with world := x.2, calls := m.calls ++ [I2CCall.StopXmit s.i2c x.1] },
    by simp [Board.stopXmit, hs, e], hs, hl1, rfl⟩

theorem Board.write_result {b : Nat} {r : RESULT} {m1 : Board}
    (h : m.write ptr b = some (r, m1)) : Allowed r := by
  unfold Board.write at h
  split at h
  · simp at h
  · simp only [Option.map_eq_some', Prod.mk.injEq] at h
    obtain ⟨x, e, hr, _⟩ := h
    rw [← hr]
    have e : I2C_Write m.world _ b = some (x.1, x.2) := e
    exact I2C_Write_result e

end DisplayCalls

/-! ## Composing the pieces of a function of the display driver -/

section Pieces

variable {ptr : Nat} {s : ssd1306_t} {rest : Board → Option (RESULT × Board)}
  {expected : List I2CCall}

theorem Codes.codes_ret : Codes (fun m => some (OK, m)) := by
  intro m r m1 h
  simp only [Option.some.injEq, Prod.mk.injEq] at h
  exact Or.inl h.1.symm

theorem Codes.codes_bind {α : Type} (g : Board → Option (α × Board)) (h : Codes rest) :
    Codes (fun m => (g m).bind fun x => rest x.2) := by
  intro m r m1 e
  simp only [Option.bind_eq_some] at e
  obtain ⟨x, _, e⟩ := e
  exact h _ _ _ e

theorem Codes.codes_bindBoard (g : Board → Option Board) (h : Codes rest) :
    Codes (fun m => (g m).bind rest) := by
  intro m r m1 e
  simp only [Option.bind_eq_some] at e
  obtain ⟨x, _, e⟩ := e
  exact h _ _ _ e

theorem Codes.codes_send (cmd : Nat) (h : Codes rest) :
    Codes (fun m => SSD1306_SEND_CMD m ptr cmd rest) := by
  intro m r m1 e
  simp only [SSD1306_SEND_CMD, sendCommand, Option.bind_eq_some] at e
  obtain ⟨x, e0, e⟩ := e
  split at e
  · simp only [Option.some.injEq, Prod.mk.injEq] at e
    rw [← e.1]
    have e0 : m.write ptr cmd = some (x.1, x.2) := e0
    exact Board.write_result e0
  · exact h _ _ _ e

theorem Codes.codes_seq {f : Board → Option (RESULT × Board)} (hf : Codes f) (h : Codes rest) :
    Codes (fun m => (f m).bind fun x => if x.1 ≠ OK then some (x.1, x.2) else rest x.2) := by
  intro m r m1 e
  simp only [Option.bind_eq_some] at e
  obtain ⟨x, e0, e⟩ := e
  split at e
  · simp only [Option.some.injEq, Prod.mk.injEq] at e
    rw [← e.1]
    exact hf m x.1 x.2 e0
  · exact h _ _ _ e

theorem Runs.runs_ret : Runs ptr s (fun m => some (OK, m)) [] := by
  intro m hs hl
  exact ⟨OK, m, [], rfl, hs, hl, by simp, fun _ => ⟨rfl, rfl⟩⟩

/-- A call whose result is discarded, followed by `rest`. -/
theorem Runs.runs_step (g : Board → Option (RESULT × Board)) (mk : RESULT → I2CCall)
    (hmk : ∀ r, (mk r).result = r)
    (hg : ∀ m : Board, m.ssd ptr = some s → m.world.nullOrLive s.i2c →
      ∃ r m1, g m = some (r, m1) ∧ m1.ssd ptr = some s ∧ m1.world.nullOrLive s.i2c ∧
        m1.calls = m.calls ++ [mk r])
    (h : Runs ptr s rest expected) :
    Runs ptr s (fun m => (g m).bind fun x => rest x.2) (mk OK :: expected) := by
  intro m hs hl
  obtain ⟨r0, m0, e0, hs0, hl0, hc0⟩ := hg m hs hl
  obtain ⟨r, m1, l, e, hs1, hl1, hc1, hok⟩ := h m0 hs0 hl0
  refine ⟨r, m1, mk r0 :: l, ?_, hs1, hl1, ?_, ?_⟩
  · simp only [e0, Option.some_bind]
    exact e
  · rw [hc1, hc0]
    simp
  · intro hall
    have h0 : r0 = OK := by
      have := hall (mk r0) (List.mem_cons_self _ _)
      rw [hmk] at this
      exact this
    obtain ⟨hr, hl⟩ := hok (fun x hx => hall x (List.mem_cons_of_mem _ hx))
    exact ⟨hr, by rw [h0, hl]⟩

/-- A call whose result, when it is not OK, is returned at once, followed by
`rest`. -/
theorem Runs.runs_stepChecked (g : Board → Option (RESULT × Board)) (mk : RESULT → I2CCall)
    (hmk : ∀ r, (mk r).result = r)
    (hg : ∀ m : Board, m.ssd ptr = some s → m.world.nullOrLive s.i2c →
      ∃ r m1, g m = some (r, m1) ∧ m1.ssd ptr = some s ∧ m1.world.nullOrLive s.i2c ∧
        m1.calls = m.calls ++ [mk r])
    (h : Runs ptr s rest expected) :
    Runs ptr s (fun m => (g m).bind fun x => if x.1 ≠ OK then some (x.1, x.2) else rest x.2)
      (mk OK :: expected) := by
  intro m hs hl
  obtain ⟨r0, m0, e0, hs0, hl0, hc0⟩ := hg m hs hl
  by_cases h0 : r0 = OK
  · obtain ⟨r, m1, l, e, hs1, hl1, hc1, hok⟩ := h m0 hs0 hl0
    refine ⟨r, m1, mk r0 :: l, ?_, hs1, hl1, ?_, ?_⟩
    · simp only [e0, Option.some_bind, h0, ne_eq, not_true_eq_false, if_false]
      exact e
    · rw [hc1, hc0]
      simp
    · intro hall
      obtain ⟨hr, hl⟩ := hok (fun x hx => hall x (List.mem_cons_of_mem _ hx))
      exact ⟨hr, by rw [h0, hl]⟩
  · refine ⟨r0, m0, [mk r0], ?_, hs0, hl0, hc0, ?_⟩
    · simp only [e0, Option.some_bind, ne_eq, h0, not_false_eq_true, if_true]
    · intro hall
      have := hall (mk r0) (List.mem_cons_self _ _)
      rw [hmk] at this
      exact absurd this h0

theorem Runs.runs_start (h : Runs ptr s rest expected) :
    Runs ptr s (fun m => (m.startXmit ptr).bind fun x => rest x.2)
      (I2CCall.StartXmit s.i2c OK :: expected) :=
  Runs.runs_step (fun m => m.startXmit ptr) (I2CCall.StartXmit s.i2c) (fun _ => rfl)
    (fun _ hs hl => Board.startXmit_total hs hl) h

theorem Runs.runs_stop (h : Runs ptr s rest expected) :
    Runs ptr s (fun m => (m.stopXmit ptr).bind fun x => rest x.2)
      (I2CCall.StopXmit s.i2c OK :: expected) :=
  Runs.runs_step (fun m => m.stopXmit ptr) (I2CCall.StopXmit s.i2c) (fun _ => rfl)
    (fun _ hs hl => Board.stopXmit_total hs hl) h

theorem Runs.runs_write (b : Nat) (h : Runs ptr s rest expected) :
    Runs ptr s (fun m => (m.write ptr b).bind fun x => rest x.2)
      (I2CCall.Write s.i2c b OK :: expected) :=
  Runs.runs_step (fun m => m.write ptr b) (I2CCall.Write s.i2c b) (fun _ => rfl)
    (fun _ hs hl => Board.write_total b hs hl) h

theorem Runs.runs_send (cmd : Nat) (h : Runs ptr s rest expected) :
    Runs ptr s (fun m => SSD1306_SEND_CMD m ptr cmd rest)
      (I2CCall.Write s.i2c cmd OK :: expected) :=
  Runs.runs_stepChecked (fun m => m.write ptr cmd) (I2CCall.Write s.i2c cmd) (fun _ => rfl)
    (fun _ hs hl => Board.write_total cmd hs hl) h

theorem Runs.runs_seq {f : Board → Option (RESULT × Board)} {first : List I2CCall}
    (hf : Runs ptr s f first) (h : Runs ptr s rest expected) :
    Runs ptr s (fun m => (f m).bind fun x => if x.1 ≠ OK then some (x.1, x.2) else rest x.2)
      (first ++ expected) := by
  intro m hs hl
  obtain ⟨r0, m0, l0, e0, hs0, hl0, hc0, hok0⟩ := hf m hs hl
  by_cases h0 : r0 = OK
  · obtain ⟨r, m1, l, e, hs1, hl1, hc1, hok⟩ := h m0 hs0 hl0
    refine ⟨r, m1, l0 ++ l, ?_, hs1, hl1, ?_, ?_⟩
    · simp only [e0, Option.some_bind, h0, ne_eq, not_true_eq_false, if_false]
      exact e
    · rw [hc1, hc0, List.append_assoc]
    · intro hall
      obtain ⟨_, hl0⟩ := hok0 (fun x hx => hall x (List.mem_append_left _ hx))
      obtain ⟨hr, hl⟩ := hok (fun x hx => hall x (List.mem_append_right _ hx))
      exact ⟨hr, by rw [hl0, hl]⟩
  · refine ⟨r0, m0, l0, ?_, hs0, hl0, hc0, ?_⟩
    · simp only [e0, Option.some_bind, ne_eq, h0, not_false_eq_true, if_true]
    · intro hall
      exact absurd (hok0 hall).1 h0

theorem Runs.runs_congr {f g : Board → Option (RESULT × Board)} (hfg : ∀ m, f m = g m)
    (h : Runs ptr s g expected) : Runs ptr s f expected := by
  intro m hs hl
  rw [hfg]
  exact h m hs hl

theorem Codes.codes_congr {f g : Board → Option (RESULT × Board)} (hfg : ∀ m, f m = g m)
    (h : Codes g) : Codes f := by
  intro m r m1 e
  rw [hfg] at e
  exact h m r m1 e

end Pieces

/-! ## The functions of the display driver, piece by piece -/

section DisplayFunctions

variable {ptr : Nat} {s : ssd1306_t}

theorem setWriteLocation_runs (scol ecol spage epage : Nat) :
    Runs ptr s (fun m => setWriteLocation m ptr scol ecol spage epage)
      (setWriteLocationCalls s.i2c scol ecol spage epage) :=
  Runs.runs_start (Runs.runs_send _ (Runs.runs_send _ (Runs.runs_send _ (Runs.runs_send _ (Runs.runs_send _ (Runs.runs_send _
    (Runs.runs_send _ (Runs.runs_stop Runs.runs_ret))))))))

theorem setWriteLocation_codes (scol ecol spage epage : Nat) :
    Codes (fun m => setWriteLocation m ptr scol ecol spage epage) :=
  Codes.codes_bind (fun m => m.startXmit ptr) (Codes.codes_send _ (Codes.codes_send _ (Codes.codes_send _
    (Codes.codes_send _ (Codes.codes_send _ (Codes.codes_send _ (Codes.codes_send _
      (Codes.codes_bind (fun m => m.stopXmit ptr) Codes.codes_ret))))))))

end DisplayFunctions

section DisplayFunctionsMore

variable {ptr : Nat} {s : ssd1306_t}

theorem ssd_assign_ok {m : Board} {context : Nat} (hctx : context ≠ 0)
    (hs : m.ssd context = some s) (hh : s.header = context) :
    ssd1306.ASSIGN_CONTEXT m context = some (Except.ok context) := by
  simp [ssd1306.ASSIGN_CONTEXT, hctx, hs, hh]

theorem ssd_assign_cases (m : Board) (context : Nat) :
    ssd1306.ASSIGN_CONTEXT m context = none ∨
      ssd1306.ASSIGN_CONTEXT m context = some (Except.error INVALID_ARGUMENT) ∨
      ssd1306.ASSIGN_CONTEXT m context = some (Except.ok context) := by
  unfold ssd1306.ASSIGN_CONTEXT
  by_cases hp : context = 0
  · simp [hp]
  · cases h : m.ssd context with
    | none => simp [hp]
    | some c =>
      by_cases ht : c.header = context <;> simp [hp, ht]

theorem drawPixel_runs (row col : Nat) :
    Runs ptr s (fun m => drawPixel m ptr row col)
      (setWriteLocationCalls s.i2c col col ((row / SSD1306_PAGES) % 2 ^ 8)
          ((row / SSD1306_PAGES) % 2 ^ 8) ++
        dataTransaction s.i2c
          [(1 <<< (row - 8 * ((row / SSD1306_PAGES) % 2 ^ 8))) % 2 ^ 8]) :=
  Runs.runs_seq (setWriteLocation_runs _ _ _ _)
    (Runs.runs_start (Runs.runs_send _ (Runs.runs_write _ (Runs.runs_stop Runs.runs_ret))))

theorem drawPixel_codes (row col : Nat) : Codes (fun m => drawPixel m ptr row col) :=
  Codes.codes_seq (setWriteLocation_codes _ _ _ _)
    (Codes.codes_bind (fun m => m.startXmit ptr) (Codes.codes_send _
      (Codes.codes_bind (fun m => m.write ptr _) (Codes.codes_bind (fun m => m.stopXmit ptr) Codes.codes_ret))))

theorem fillCols_runs (fillChar : Nat) {rest : Board → Option (RESULT × Board)}
    {expected : List I2CCall} (h : Runs ptr s rest expected) :
    ∀ n : Nat, Runs ptr s (fun m => (SSD1306_FillDisplay.cols ptr fillChar n m).bind rest)
      ((List.replicate n fillChar).map (fun b => I2CCall.Write s.i2c b OK) ++ expected) := by
  intro n
  induction n with
  | zero =>
    exact Runs.runs_congr (fun m => by simp [SSD1306_FillDisplay.cols]) h
  | succ n ih =>
    have h1 := Runs.runs_write fillChar ih
    rw [List.replicate_succ, List.map_cons, List.cons_append]
    exact Runs.runs_congr (fun m => by simp [SSD1306_FillDisplay.cols, Option.bind_assoc]) h1

theorem fillPages_runs (fillChar : Nat) :
    ∀ n : Nat, Runs ptr s (SSD1306_FillDisplay.pages ptr fillChar n)
      (List.replicate n (dataTransaction s.i2c (List.replicate 16 fillChar))).flatten := by
  intro n
  induction n with
  | zero =>
    exact Runs.runs_congr (fun m => by simp [SSD1306_FillDisplay.pages]) Runs.runs_ret
  | succ n ih =>
    have h1 := Runs.runs_start (Runs.runs_send SSD1306_DATA_STREAM (fillCols_runs fillChar
      (Runs.runs_stop ih) 16))
    have hl : (List.replicate (n + 1)
          (dataTransaction s.i2c (List.replicate 16 fillChar))).flatten
        = I2CCall.StartXmit s.i2c OK :: I2CCall.Write s.i2c SSD1306_DATA_STREAM OK ::
          ((List.replicate 16 fillChar).map (fun b => I2CCall.Write s.i2c b OK) ++
            I2CCall.StopXmit s.i2c OK ::
              (List.replicate n
                (dataTransaction s.i2c (List.replicate 16 fillChar))).flatten) := by
      rw [List.replicate_succ, List.flatten_cons]
      simp [dataTransaction, SSD1306_DATA_STREAM]
    rw [hl]
    exact Runs.runs_congr (fun m => by rw [SSD1306_FillDisplay.pages]) h1

theorem dataBytes_writes (i2c : Nat) (rest : List I2CCall) :
    ∀ bytes : List Nat,
      dataBytes ((bytes.map fun b => I2CCall.Write i2c b OK) ++ I2CCall.StopXmit i2c OK :: rest)
        = bytes ++ dataBytes rest := by
  intro bytes
  induction bytes with
  | nil => simp [dataBytes]
  | cons b bytes ih => simp [dataBytes, ih]

theorem dataBytes_transaction (i2c : Nat) (bytes : List Nat) (rest : List I2CCall) :
    dataBytes (dataTransaction i2c bytes ++ rest) = bytes ++ dataBytes rest := by
  simp [dataTransaction, dataBytes, dataBytes_writes]

theorem dataBytes_fill (i2c fillChar : Nat) :
    ∀ n : Nat,
      dataBytes (List.replicate n (dataTransaction i2c (List.replicate 16 fillChar))).flatten
        = List.replicate (16 * n) fillChar := by
  intro n
  induction n with
  | zero => simp [dataBytes]
  | succ n ih =>
    rw [List.replicate_succ, List.flatten_cons, dataBytes_transaction, ih,
      ← List.replicate_add]
    congr 1
    omega

end DisplayFunctionsMore

/-! ## The display driver on a known schedule -/

theorem runsIn_of_runsAt {I : List Nat} {q : List (List Nat)} {p k n : Nat}
    (h : runsAt I q p k = true) : runsIn I q p k (n + 1) = true := by
  unfold runsIn
  rw [List.any_eq_true]
  exact ⟨0, by simp, by simpa using h⟩

theorem runsIn_false_of {I : List Nat} {q : List (List Nat)} {p k n : Nat}
    (h : ∀ j, k ≤ j → runsAt I q p j = false) : runsIn I q p k n = false := by
  unfold runsIn
  rw [List.any_eq_false]
  intro j _
  rw [h (k + j) (by omega)]
  simp

theorem runsAt_replicate_lt {p n j : Nat} (hj : j < n) :
    runsAt [p] (List.replicate n [p]) p j = true := by
  simp [runsAt, List.getD_eq_getElem?_getD, List.getElem?_replicate, hj]

theorem runsAt_replicate_ge {I : List Nat} {p n j : Nat} (hj : n ≤ j) :
    runsAt I (List.replicate n [p]) p j = false := by
  have : ¬ j < n := by omega
  simp [runsAt, List.getD_eq_getElem?_getD, List.getElem?_replicate, this]

section KnownSchedule

variable {m : Board} {ptr : Nat} {s : ssd1306_t} {I : List Nat} {q : List (List Nat)}
  {k : Nat} {st : I2C_STATE} {l : List I2CCall}

theorem Ctl.write_step (b : Nat) (hp : s.i2c ≠ 0) (hst : st = START ∨ st = WRITE ∨ st = STOP)
    (h : Ctl m ptr s I q k st l) :
    ∃ m1, m.write ptr b
        = some (if runsIn I q s.i2c (k + 26) 6 then OK else FAILED_WRITE_RECEIVED_NACK, m1) ∧
      Ctl m1 ptr s I q (if runsIn I q s.i2c (k + 26) 6 then k + 33 else k + 34) STOP
        (l ++ [I2CCall.Write s.i2c b
          (if runsIn I q s.i2c (k + 26) 6 then OK else FAILED_WRITE_RECEIVED_NACK)]) := by
  obtain ⟨c, t, F, htag, hs⟩ := h.context
  rw [← hs] at hst
  obtain ⟨_, _, w3, _, _, _, e, F3⟩ := write_spec b hp htag hst F
  refine ⟨{ m with world := w3, calls := m.calls ++ [I2CCall.Write s.i2c b
      (if runsIn I q s.i2c (k + 26) 6 then OK else FAILED_WRITE_RECEIVED_NACK)] }, ?_, ?_⟩
  · simp [Board.write, h.ssd, e]
  · exact ⟨h.ssd, by simp [h.calls], _, _, F3, htag, rfl⟩

theorem Ctl.write_ack (b : Nat) (hp : s.i2c ≠ 0) (hst : st = START ∨ st = WRITE ∨ st = STOP)
    (hack : runsAt I q s.i2c (k + 26) = true) (h : Ctl m ptr s I q k st l) :
    ∃ m1, m.write ptr b = some (OK, m1) ∧
      Ctl m1 ptr s I q (k + 33) STOP (l ++ [I2CCall.Write s.i2c b OK]) := by
  obtain ⟨m1, e, C⟩ := h.write_step b hp hst
  rw [runsIn_of_runsAt hack] at e C
  exact ⟨m1, e, C⟩

theorem Ctl.write_nack (b : Nat) (hp : s.i2c ≠ 0) (hst : st = START ∨ st = WRITE ∨ st = STOP)
    (hsil : ∀ j, k + 26 ≤ j → runsAt I q s.i2c j = false) (h : Ctl m ptr s I q k st l) :
    ∃ m1, m.write ptr b = some (FAILED_WRITE_RECEIVED_NACK, m1) ∧
      Ctl m1 ptr s I q (k + 34) STOP
        (l ++ [I2CCall.Write s.i2c b FAILED_WRITE_RECEIVED_NACK]) := by
  obtain ⟨m1, e, C⟩ := h.write_step b hp hst
  rw [runsIn_false_of hsil] at e C
  exact ⟨m1, e, C⟩

theorem Ctl.start_step (hp : s.i2c ≠ 0) (h : Ctl m ptr s I q k READY l) :
    ∃ m1, m.startXmit ptr
        = some (if runsIn I q s.i2c (k + 29) 6 then OK else FAILED_WRITE_RECEIVED_NACK, m1) ∧
      Ctl m1 ptr s I q (if runsIn I q s.i2c (k + 29) 6 then k + 35 else k + 36) WRITE
        (l ++ [I2CCall.StartXmit s.i2c
          (if runsIn I q s.i2c (k + 29) 6 then OK else FAILED_WRITE_RECEIVED_NACK)]) := by
  obtain ⟨c, t, F, htag, hs⟩ := h.context
  obtain ⟨w1, F1, e1⟩ := startXmit_spec hp htag hs F
  obtain ⟨w2, e2, F2⟩ := writeByte_spec (c.slaveAddress &&& 0xFE) (Or.inl rfl) F1
  have hk : k + 4 + 25 = k + 29 := by omega
  have hk1 : k + 4 + 31 = k + 35 := by omega
  have hk2 : k + 4 + 32 = k + 36 := by omega
  rw [hk] at e2 F2
  rw [hk1, hk2] at F2
  rw [← e1] at e2
  refine ⟨{ m with world := w2, calls := m.calls ++ [I2CCall.StartXmit s.i2c
      (if runsIn I q s.i2c (k + 29) 6 then OK else FAILED_WRITE_RECEIVED_NACK)] }, ?_, ?_⟩
  · simp [Board.startXmit, h.ssd, e2]
  · exact ⟨h.ssd, by simp [h.calls], _, _, F2, htag, rfl⟩

theorem Ctl.start_ack (hp : s.i2c ≠ 0) (hack : runsAt I q s.i2c (k + 29) = true)
    (h : Ctl m ptr s I q k READY l) :
    ∃ m1, m.startXmit ptr = some (OK, m1) ∧
      Ctl m1 ptr s I q (k + 35) WRITE (l ++ [I2CCall.StartXmit s.i2c OK]) := by
  obtain ⟨m1, e, C⟩ := h.start_step hp
  rw [runsIn_of_runsAt hack] at e C
  exact ⟨m1, e, C⟩

theorem Ctl.start_nack (hp : s.i2c ≠ 0)
    (hsil : ∀ j, k + 29 ≤ j → runsAt I q s.i2c j = false) (h : Ctl m ptr s I q k READY l) :
    ∃ m1, m.startXmit ptr = some (FAILED_WRITE_RECEIVED_NACK, m1) ∧
      Ctl m1 ptr s I q (k + 36) WRITE
        (l ++ [I2CCall.StartXmit s.i2c FAILED_WRITE_RECEIVED_NACK]) := by
  obtain ⟨m1, e, C⟩ := h.start_step hp
  rw [runsIn_false_of hsil] at e C
  exact ⟨m1, e, C⟩

theorem Ctl.stop_step (hp : s.i2c ≠ 0) (hst : st = STOP ∨ st = READY)
    (h : Ctl m ptr s I q k st l) :
    ∃ m1, m.stopXmit ptr = some (OK, m1) ∧
      Ctl m1 ptr s I q (k + 5) READY (l ++ [I2CCall.StopXmit s.i2c OK]) := by
  obtain ⟨c, t, F, htag, hs⟩ := h.context
  rw [← hs] at hst
  obtain ⟨w2, e2, F2⟩ := stopXmit_spec hp htag hst F
  refine ⟨{ m with world := w2, calls := m.calls ++ [I2CCall.StopXmit s.i2c OK] }, ?_, ?_⟩
  · simp [Board.stopXmit, h.ssd, e2]
  · exact ⟨h.ssd, by simp [h.calls], _, _, F2, htag, rfl⟩

theorem Ctl.state (h : Ctl m ptr s I q k st l) :
    (m.world.heap s.i2c).map i2c_type_t.state = some st := by
  obtain ⟨c, t, F, _, hs⟩ := h.context
  rw [F.heap, ← hs]
  rfl

end KnownSchedule

section AckedPieces

variable {ptr : Nat} {s : ssd1306_t} {I : List Nat} {rest : Board → Option (RESULT × Board)}
  {st st2 : I2C_STATE} {cost : Nat} {expected : List I2CCall}

theorem Acked.acked_ret : Acked ptr s I (fun m => some (OK, m)) st 0 st [] := by
  intro m q k l C _
  exact ⟨m, rfl, by simpa using C⟩

theorem Acked.acked_congr {f g : Board → Option (RESULT × Board)} (hfg : ∀ m, f m = g m)
    (h : Acked ptr s I g st cost st2 expected) : Acked ptr s I f st cost st2 expected := by
  intro m q k l C hb
  rw [hfg]
  exact h m q k l C hb

theorem Acked.acked_start (hp : s.i2c ≠ 0) (h : Acked ptr s I rest WRITE cost st2 expected) :
    Acked ptr s I (fun m => (m.startXmit ptr).bind fun x => rest x.2) READY (35 + cost) st2
      (I2CCall.StartXmit s.i2c OK :: expected) := by
  intro m q k l C hb
  obtain ⟨m1, e1, C1⟩ := C.start_ack hp (hb (k + 29) (by omega) (by omega))
  obtain ⟨m2, e2, C2⟩ := h m1 q (k + 35) _ C1 (fun j h1 h2 => hb j (by omega) (by omega))
  refine ⟨m2, by simp only [e1, Option.some_bind]; exact e2, ?_⟩
  have hk : k + (35 + cost) = k + 35 + cost := by omega
  rw [hk]
  simpa [List.append_assoc] using C2

theorem Acked.acked_write (b : Nat) (hp : s.i2c ≠ 0) (hst : st = START ∨ st = WRITE ∨ st = STOP)
    (h : Acked ptr s I rest STOP cost st2 expected) :
    Acked ptr s I (fun m => (m.write ptr b).bind fun x => rest x.2) st (33 + cost) st2
      (I2CCall.Write s.i2c b OK :: expected) := by
  intro m q k l C hb
  obtain ⟨m1, e1, C1⟩ := C.write_ack b hp hst (hb (k + 26) (by omega) (by omega))
  obtain ⟨m2, e2, C2⟩ := h m1 q (k + 33) _ C1 (fun j h1 h2 => hb j (by omega) (by omega))
  refine ⟨m2, by simp only [e1, Option.some_bind]; exact e2, ?_⟩
  have hk : k + (33 + cost) = k + 33 + cost := by omega
  rw [hk]
  simpa [List.append_assoc] using C2

theorem Acked.acked_send (cmd : Nat) (hp : s.i2c ≠ 0) (hst : st = START ∨ st = WRITE ∨ st = STOP)
    (h : Acked ptr s I rest STOP cost st2 expected) :
    Acked ptr s I (fun m => SSD1306_SEND_CMD m ptr cmd rest) st (33 + cost) st2
      (I2CCall.Write s.i2c cmd OK :: expected) := by
  intro m q k l C hb
  obtain ⟨m1, e1, C1⟩ := C.write_ack cmd hp hst (hb (k + 26) (by omega) (by omega))
  obtain ⟨m2, e2, C2⟩ := h m1 q (k + 33) _ C1 (fun j h1 h2 => hb j (by omega) (by omega))
  refine ⟨m2, ?_, ?_⟩
  · simp only [SSD1306_SEND_CMD, sendCommand, e1, Option.some_bind, ne_eq, not_true_eq_false,
      if_false]
    exact e2
  · have hk : k + (33 + cost) = k + 33 + cost := by omega
    rw [hk]
    simpa [List.append_assoc] using C2

theorem Acked.acked_stop (hp : s.i2c ≠ 0) (hst : st = STOP ∨ st = READY)
    (h : Acked ptr s I rest READY cost st2 expected) :
    Acked ptr s I (fun m => (m.stopXmit ptr).bind fun x => rest x.2) st (5 + cost) st2
      (I2CCall.StopXmit s.i2c OK :: expected) := by
  intro m q k l C hb
  obtain ⟨m1, e1, C1⟩ := C.stop_step hp hst
  obtain ⟨m2, e2, C2⟩ := h m1 q (k + 5) _ C1 (fun j h1 h2 => hb j (by omega) (by omega))
  refine ⟨m2, by simp only [e1, Option.some_bind]; exact e2, ?_⟩
  have hk : k + (5 + cost) = k + 5 + cost := by omega
  rw [hk]
  simpa [List.append_assoc] using C2

theorem Acked.acked_seq {f : Board → Option (RESULT × Board)} {first : List I2CCall}
    {st1 : I2C_STATE} {cost1 : Nat} (hf : Acked ptr s I f st cost1 st1 first)
    (h : Acked ptr s I rest st1 cost st2 expected) :
    Acked ptr s I
      (fun m => (f m).bind fun x => if x.1 ≠ OK then some (x.1, x.2) else rest x.2) st
      (cost1 + cost) st2 (first ++ expected) := by
  intro m q k l C hb
  obtain ⟨m1, e1, C1⟩ := hf m q k l C (fun j h1 h2 => hb j h1 (by omega))
  obtain ⟨m2, e2, C2⟩ := h m1 q (k + cost1) _ C1 (fun j h1 h2 => hb j (by omega) (by omega))
  refine ⟨m2, ?_, ?_⟩
  · simp only [e1, Option.some_bind, ne_eq, not_true_eq_false, if_false]
    exact e2
  · have hk : k + (cost1 + cost) = k + cost1 + cost := by omega
    rw [hk]
    simpa [List.append_assoc] using C2

theorem setWriteLocation_acked (hp : s.i2c ≠ 0) (scol ecol spage epage : Nat) :
    Acked ptr s I (fun m => setWriteLocation m ptr scol ecol spage epage) READY 271 READY
      (setWriteLocationCalls s.i2c scol ecol spage epage) :=
  Acked.acked_start hp (Acked.acked_send _ hp (Or.inr (Or.inl rfl)) (Acked.acked_send _ hp (Or.inr (Or.inr rfl))
    (Acked.acked_send _ hp (Or.inr (Or.inr rfl)) (Acked.acked_send _ hp (Or.inr (Or.inr rfl))
    (Acked.acked_send _ hp (Or.inr (Or.inr rfl)) (Acked.acked_send _ hp (Or.inr (Or.inr rfl))
    (Acked.acked_send _ hp (Or.inr (Or.inr rfl)) (Acked.acked_stop hp (Or.inl rfl) Acked.acked_ret))))))))

theorem drawPixel_acked (hp : s.i2c ≠ 0) (row col : Nat) :
    Acked ptr s I (fun m => drawPixel m ptr row col) READY 377 READY
      (setWriteLocationCalls s.i2c col col ((row / SSD1306_PAGES) % 2 ^ 8)
          ((row / SSD1306_PAGES) % 2 ^ 8) ++
        dataTransaction s.i2c
          [(1 <<< (row - 8 * ((row / SSD1306_PAGES) % 2 ^ 8))) % 2 ^ 8]) :=
  Acked.acked_seq (setWriteLocation_acked hp _ _ _ _)
    (Acked.acked_start hp (Acked.acked_send _ hp (Or.inr (Or.inl rfl))
      (Acked.acked_write _ hp (Or.inr (Or.inr rfl)) (Acked.acked_stop hp (Or.inl rfl) Acked.acked_ret))))

theorem fillCols_acked (hp : s.i2c ≠ 0) (fillChar : Nat)
    (h : Acked ptr s I rest STOP cost st2 expected) :
    ∀ n : Nat, Acked ptr s I (fun m => (SSD1306_FillDisplay.cols ptr fillChar n m).bind rest)
      STOP (33 * n + cost) st2
      ((List.replicate n fillChar).map (fun b => I2CCall.Write s.i2c b OK) ++ expected) := by
  intro n
  induction n with
  | zero =>
    have h0 : 33 * 0 + cost = cost := by omega
    rw [h0]
    exact Acked.acked_congr (fun m => by simp [SSD1306_FillDisplay.cols]) h
  | succ n ih =>
    have h1 := Acked.acked_write fillChar hp (Or.inr (Or.inr rfl)) ih
    have hk : 33 * (n + 1) + cost = 33 + (33 * n + cost) := by omega
    rw [hk, List.replicate_succ, List.map_cons, List.cons_append]
    exact Acked.acked_congr (fun m => by simp [SSD1306_FillDisplay.cols, Option.bind_assoc]) h1

theorem fillPages_acked (hp : s.i2c ≠ 0) (fillChar : Nat) :
    ∀ n : Nat, Acked ptr s I (SSD1306_FillDisplay.pages ptr fillChar n) READY (601 * n) READY
      (List.replicate n (dataTransaction s.i2c (List.replicate 16 fillChar))).flatten := by
  intro n
  induction n with
  | zero =>
    exact Acked.acked_congr (fun m => by simp [SSD1306_FillDisplay.pages]) Acked.acked_ret
  | succ n ih =>
    have h1 := Acked.acked_start hp (Acked.acked_send SSD1306_DATA_STREAM hp (Or.inr (Or.inl rfl))
      (fillCols_acked hp fillChar (Acked.acked_stop hp (Or.inl rfl) ih) 16))
    have hl : (List.replicate (n + 1)
          (dataTransaction s.i2c (List.replicate 16 fillChar))).flatten
        = I2CCall.StartXmit s.i2c OK :: I2CCall.Write s.i2c SSD1306_DATA_STREAM OK ::
          ((List.replicate 16 fillChar).map (fun b => I2CCall.Write s.i2c b OK) ++
            I2CCall.StopXmit s.i2c OK ::
              (List.replicate n
                (dataTransaction s.i2c (List.replicate 16 fillChar))).flatten) := by
      rw [List.replicate_succ, List.flatten_cons]
      simp [dataTransaction, SSD1306_DATA_STREAM]
    have hk : 601 * (n + 1) = 35 + (33 + (33 * 16 + (5 + 601 * n))) := by omega
    rw [hl, hk]
    exact Acked.acked_congr (fun m => by rw [SSD1306_FillDisplay.pages]) h1

end AckedPieces

theorem ackBoard_ctl (n : Nat) :
    Ctl (ackBoard n) 0x3FFE9000 { header := 0x3FFE9000, i2c := 0x3FFE8000 } [0x3FFE8000]
      (List.replicate n [0x3FFE8000]) 0 READY [] :=
  ⟨rfl, rfl, sampleCtx, [], ⟨rfl, rfl, rfl, rfl⟩, rfl, rfl⟩

theorem allOK_setWriteLocationCalls (i2c scol ecol spage epage : Nat) :
    ∀ x ∈ setWriteLocationCalls i2c scol ecol spage epage, x.result = OK := by
  simp [setWriteLocationCalls, I2CCall.result]

theorem allOK_dataTransaction (i2c : Nat) (bytes : List Nat) :
    ∀ x ∈ dataTransaction i2c bytes, x.result = OK := by
  intro x hx
  simp only [dataTransaction, List.mem_cons, List.mem_append, List.mem_map,
    List.mem_singleton, List.not_mem_nil, or_false] at hx
  rcases hx with (h | h | ⟨_, _, h⟩) | h <;> subst h <;> rfl

/-! ## Theorems about the display driver -/

/-- C21 (evaluation of the code where the claim fails): on the board
`ackBoard 340` the peer acknowledges the ten bytes that `SSD1306_DrawPixel`
sends first and does not acknowledge the data byte.  The call of `I2C_Write`
for the data byte returns FAILED_WRITE_RECEIVED_NACK, and
`SSD1306_DrawPixel(context, 30, 5)` returns OK. -/
theorem C21_data_byte_nack_returns_OK :
    report (SSD1306_DrawPixel (ackBoard 340) 0x3FFE9000 30 5) 0 0x3FFE8000
      = some (OK,
          [I2CCall.StartXmit 0x3FFE8000 OK, I2CCall.Write 0x3FFE8000 0x00 OK,
           I2CCall.Write 0x3FFE8000 0x21 OK, I2CCall.Write 0x3FFE8000 5 OK,
           I2CCall.Write 0x3FFE8000 5 OK, I2CCall.Write 0x3FFE8000 0x22 OK,
           I2CCall.Write 0x3FFE8000 3 OK, I2CCall.Write 0x3FFE8000 3 OK,
           I2CCall.StopXmit 0x3FFE8000 OK,
           I2CCall.StartXmit 0x3FFE8000 OK, I2CCall.Write 0x3FFE8000 0x40 OK,
           I2CCall.Write 0x3FFE8000 0x40 FAILED_WRITE_RECEIVED_NACK,
           I2CCall.StopXmit 0x3FFE8000 OK],
          some READY) := by
  have hp : ({ header := 0x3FFE9000, i2c := 0x3FFE8000 } : ssd1306_t).i2c ≠ 0 := by decide
  have hb : ∀ j, j < 340 →
      runsAt [0x3FFE8000] (List.replicate 340 [0x3FFE8000]) 0x3FFE8000 j = true :=
    fun j hj => runsAt_replicate_lt hj
  obtain ⟨m1, e1, C1⟩ := setWriteLocation_acked hp 5 5 ((30 / SSD1306_PAGES) % 2 ^ 8)
    ((30 / SSD1306_PAGES) % 2 ^ 8) (ackBoard 340) _ 0 [] (ackBoard_ctl 340)
    (fun j _ h2 => hb j (by omega))
  obtain ⟨m2, e2, C2⟩ := C1.start_ack hp (hb _ (by omega))
  obtain ⟨m3, e3, C3⟩ := C2.write_ack SSD1306_DATA_STREAM hp (Or.inr (Or.inl rfl))
    (hb _ (by omega))
  obtain ⟨m4, e4, C4⟩ := C3.write_nack ((1 <<< (30 - 8 * ((30 / SSD1306_PAGES) % 2 ^ 8))) % 2 ^ 8)
    hp (Or.inr (Or.inr rfl)) (fun j hj => runsAt_replicate_ge (by omega))
  obtain ⟨m5, e5, C5⟩ := C4.stop_step hp (Or.inl rfl)
  have hrun : SSD1306_DrawPixel (ackBoard 340) 0x3FFE9000 30 5 = some (OK, m5) := by
    have ha : ssd1306.ASSIGN_CONTEXT (ackBoard 340) 0x3FFE9000 = some (Except.ok 0x3FFE9000) :=
      ssd_assign_ok (by decide) (ackBoard_ctl 340).ssd rfl
    have hr : ¬ (30 ≥ SSD1306_HEIGHT ∨ 5 ≥ SSD1306_WIDTH) := by decide
    unfold SSD1306_DrawPixel
    rw [if_neg hr, ha]
    simp only [drawPixel, e1, Option.some_bind, ne_eq, not_true_eq_false, if_false, e2,
      SSD1306_SEND_CMD, sendCommand, e3, e4, e5]
  rw [hrun]
  simp only [report, Option.map_some', C5.calls, C5.state, List.drop_zero]
  rfl

/-- C22 (evaluation of the code where the claim fails): on the board
`silentBoard` the peer acknowledges nothing.  `SSD1306_TurnDisplayOn` calls
`I2C_StartXmit` and then `I2C_Write` for the control byte 0x80, which returns
FAILED_WRITE_RECEIVED_NACK; the function returns that result at once, without
a call of `I2C_StopXmit`, and leaves the I2C context in state STOP, not
READY. -/
theorem C22_nack_return_skips_stop :
    report (SSD1306_TurnDisplayOn silentBoard 0x3FFE9000) 0 0x3FFE8000
      = some (FAILED_WRITE_RECEIVED_NACK,
          [I2CCall.StartXmit 0x3FFE8000 FAILED_WRITE_RECEIVED_NACK,
           I2CCall.Write 0x3FFE8000 0x80 FAILED_WRITE_RECEIVED_NACK],
          some STOP) := by
  have hp : ({ header := 0x3FFE9000, i2c := 0x3FFE8000 } : ssd1306_t).i2c ≠ 0 := by decide
  have hsil : ∀ j, runsAt [0x3FFE8000] [] 0x3FFE8000 j = false :=
    fun j => runsAt_silent (Or.inr (by simp)) j
  have C0 : Ctl silentBoard 0x3FFE9000 { header := 0x3FFE9000, i2c := 0x3FFE8000 }
      [0x3FFE8000] [] 0 READY [] :=
    ⟨rfl, rfl, sampleCtx, [], ⟨rfl, rfl, rfl, rfl⟩, rfl, rfl⟩
  obtain ⟨m1, e1, C1⟩ := C0.start_nack hp (fun j _ => hsil j)
  obtain ⟨m2, e2, C2⟩ := C1.write_nack SSD1306_COMMAND_SINGLE_BYTE hp (Or.inr (Or.inl rfl))
    (fun j _ => hsil j)
  have hrun : SSD1306_TurnDisplayOn silentBoard 0x3FFE9000
      = some (FAILED_WRITE_RECEIVED_NACK, m2) := by
    have ha : ssd1306.ASSIGN_CONTEXT silentBoard 0x3FFE9000 = some (Except.ok 0x3FFE9000) :=
      ssd_assign_ok (by decide) C0.ssd rfl
    unfold SSD1306_TurnDisplayOn
    rw [ha]
    simp [e1, SSD1306_SEND_CMD, sendCommand, e2]
  rw [hrun]
  simp only [report, Option.map_some', C2.calls, C2.state, List.drop_zero]
  rfl

/-- C23: whatever the context argument, `SSD1306_DrawPixel` with `row >= 64` or
`col >= 128` returns COORDINATE_OUT_OF_RANGE and leaves the board as it was:
no call of the I2C driver is made.  With `row < 64` and `col < 128` every
result it returns is one of OK, FAILED_WRITE_RECEIVED_NACK, INVALID_ARGUMENT
and INVALID_STATE_CHANGE_REQUEST, so never COORDINATE_OUT_OF_RANGE; and it
does return when the context argument is null or points to a live display
record whose I2C handle is null or live. -/
theorem C23_draw_pixel_range_check (m : Board) (context row col : Nat) :
    ((row ≥ 64 ∨ col ≥ 128) →
      SSD1306_DrawPixel m context row col = some (COORDINATE_OUT_OF_RANGE, m)) ∧
    (row < 64 → col < 128 → ∀ r m1, SSD1306_DrawPixel m context row col = some (r, m1) →
      r ≠ COORDINATE_OUT_OF_RANGE ∧ Allowed r) ∧
    (row < 64 → col < 128 →
      (context = 0 ∨ ∃ s, m.ssd context = some s ∧ m.world.nullOrLive s.i2c) →
      ∃ r m1, SSD1306_DrawPixel m context row col = some (r, m1)) := by
  refine ⟨?_, ?_, ?_⟩
  · intro h
    have h2 : row ≥ SSD1306_HEIGHT ∨ col ≥ SSD1306_WIDTH := h
    simp [SSD1306_DrawPixel, h2]
  · intro hrow hcol r m1 hrun
    have h2 : ¬ (row ≥ SSD1306_HEIGHT ∨ col ≥ SSD1306_WIDTH) := by
      simp only [SSD1306_HEIGHT, SSD1306_WIDTH]
      omega
    have hall : Allowed r := by
      unfold SSD1306_DrawPixel at hrun
      rw [if_neg h2] at hrun
      rcases ssd_assign_cases m context with ha | ha | ha
      · rw [ha] at hrun
        simp at hrun
      · rw [ha] at hrun
        simp only [Option.some.injEq, Prod.mk.injEq] at hrun
        exact Or.inr (Or.inr (Or.inl hrun.1.symm))
      · rw [ha] at hrun
        exact drawPixel_codes row col m r m1 hrun
    refine ⟨?_, hall⟩
    rcases hall with h | h | h | h <;> rw [h] <;> decide
  · intro hrow hcol hlive
    have h2 : ¬ (row ≥ SSD1306_HEIGHT ∨ col ≥ SSD1306_WIDTH) := by
      simp only [SSD1306_HEIGHT, SSD1306_WIDTH]
      omega
    unfold SSD1306_DrawPixel
    rw [if_neg h2]
    rcases hlive with h0 | ⟨s, hs, hl⟩
    · refine ⟨INVALID_ARGUMENT, m, ?_⟩
      simp [ssd1306.ASSIGN_CONTEXT, h0]
    · by_cases hh : context ≠ 0 ∧ s.header = context
      · rw [ssd_assign_ok hh.1 hs hh.2]
        obtain ⟨r, m1, _, e, _⟩ := drawPixel_runs row col m hs hl
        exact ⟨r, m1, e⟩
      · refine ⟨INVALID_ARGUMENT, m, ?_⟩
        unfold ssd1306.ASSIGN_CONTEXT
        by_cases h0 : context = 0
        · simp [h0]
        · have hne : s.header ≠ context := fun h => hh ⟨h0, h⟩
          simp [h0, hs, hne]

/-- C23 on `silentBoard` with row 64: the call returns COORDINATE_OUT_OF_RANGE
and the board is as before. -/
theorem C23_draw_pixel_range_check_witness :
    SSD1306_DrawPixel silentBoard 0x3FFE9000 64 0 = some (COORDINATE_OUT_OF_RANGE, silentBoard) :=
  (C23_draw_pixel_range_check silentBoard 0x3FFE9000 64 0).1 (Or.inl (by decide))

/-- C27: let `context` be a valid handle of a live display record whose I2C
handle is null or live, `row < 64` and `col < 128`, so that
`SSD1306_DrawPixel` hands the call to `drawPixel`.  `drawPixel` returns, and
if every call of the I2C driver it made returned OK (every byte was
acknowledged), it returned OK and the calls are exactly: the transaction of
`setWriteLocation` for columns `col..col` and pages `p..p` with `p = row / 8`,
then one data transaction: `I2C_StartXmit`, the control byte 0x40, the data
byte `2^(row mod 8)`, `I2C_StopXmit`.  The page is at most 7; the byte passed
to `I2C_Write`, `1 << (row - 8*p)` as a `uint8_t`, is `2^(row mod 8)`, whose
only bit set is bit `row mod 8`; for row 30 the page is 3 and the byte is
0x40. -/
theorem C27_draw_pixel_sends_one_bit (m : Board) (context row col : Nat) (s : ssd1306_t)
    (hrow : row < 64) (hcol : col < 128) (hctx : context ≠ 0) (hs : m.ssd context = some s)
    (hh : s.header = context) (hl : m.world.nullOrLive s.i2c) :
    SSD1306_DrawPixel m context row col = drawPixel m context row col ∧
    (∃ r m1 l, drawPixel m context row col = some (r, m1) ∧ m1.calls = m.calls ++ l ∧
      ((∀ x ∈ l, x.result = OK) →
        r = OK ∧
        l = setWriteLocationCalls s.i2c col col (row / 8) (row / 8) ++
          [I2CCall.StartXmit s.i2c OK, I2CCall.Write s.i2c 0x40 OK,
           I2CCall.Write s.i2c (2 ^ (row % 8)) OK, I2CCall.StopXmit s.i2c OK])) ∧
    row / 8 ≤ 7 ∧
    (1 <<< (row - 8 * ((row / SSD1306_PAGES) % 2 ^ 8))) % 2 ^ 8 = 2 ^ (row % 8) ∧
    (∀ j : Nat, (2 ^ (row % 8)).testBit j = decide (row % 8 = j)) ∧
    30 / 8 = 3 ∧ 2 ^ (30 % 8) = 0x40 := by
  have hpage : (row / SSD1306_PAGES) % 2 ^ 8 = row / 8 := by
    simp only [SSD1306_PAGES]
    omega
  have hbyte : (1 <<< (row - 8 * ((row / SSD1306_PAGES) % 2 ^ 8))) % 2 ^ 8 = 2 ^ (row % 8) := by
    rw [hpage, Nat.one_shiftLeft]
    have h1 : row - 8 * (row / 8) = row % 8 := by omega
    rw [h1]
    apply Nat.mod_eq_of_lt
    exact Nat.pow_lt_pow_right (by decide) (by omega)
  have h2 : ¬ (row ≥ SSD1306_HEIGHT ∨ col ≥ SSD1306_WIDTH) := by
    simp only [SSD1306_HEIGHT, SSD1306_WIDTH]
    omega
  refine ⟨?_, ?_, by omega, hbyte, fun j => Nat.testBit_two_pow, by decide, by decide⟩
  · unfold SSD1306_DrawPixel
    rw [if_neg h2, ssd_assign_ok hctx hs hh]
  · obtain ⟨r, m1, l, e, _, _, hc, hok⟩ := drawPixel_runs row col m hs hl
    refine ⟨r, m1, l, e, hc, ?_⟩
    intro hall
    obtain ⟨hr, hlist⟩ := hok hall
    refine ⟨hr, ?_⟩
    rw [hlist, hbyte, hpage]
    rfl

/-- C27 on `ackBoard 377`, on which the peer acknowledges every byte, for row
30 and column 5: every call returns OK, the page is 3 and the data byte is
0x40. -/
theorem C27_draw_pixel_sends_one_bit_witness :
    ∃ r m1 l, drawPixel (ackBoard 377) 0x3FFE9000 30 5 = some (r, m1) ∧
      m1.calls = (ackBoard 377).calls ++ l ∧ (∀ x ∈ l, x.result = OK) ∧ r = OK ∧
      l = setWriteLocationCalls 0x3FFE8000 5 5 3 3 ++
        [I2CCall.StartXmit 0x3FFE8000 OK, I2CCall.Write 0x3FFE8000 0x40 OK,
         I2CCall.Write 0x3FFE8000 0x40 OK, I2CCall.StopXmit 0x3FFE8000 OK] := by
  obtain ⟨_, ⟨r, m1, l, e, hc, hok⟩, _⟩ :=
    C27_draw_pixel_sends_one_bit (ackBoard 377) 0x3FFE9000 30 5
      { header := 0x3FFE9000, i2c := 0x3FFE8000 } (by decide) (by decide) (by decide) rfl rfl
      (Or.inr ⟨sampleCtx, rfl⟩)
  have hp : ({ header := 0x3FFE9000, i2c := 0x3FFE8000 } : ssd1306_t).i2c ≠ 0 := by decide
  obtain ⟨m2, hrun, C2⟩ := drawPixel_acked hp 30 5 (ackBoard 377) _ 0 [] (ackBoard_ctl 377)
    (fun j _ h2 => runsAt_replicate_lt (by omega))
  have hrun : drawPixel (ackBoard 377) 0x3FFE9000 30 5 = some (OK, m2) := hrun
  rw [hrun] at e
  simp only [Option.some.injEq, Prod.mk.injEq] at e
  obtain ⟨hr, hm⟩ := e
  subst hr hm
  have hl : l = setWriteLocationCalls 0x3FFE8000 5 5 ((30 / SSD1306_PAGES) % 2 ^ 8)
      ((30 / SSD1306_PAGES) % 2 ^ 8) ++ dataTransaction 0x3FFE8000
        [(1 <<< (30 - 8 * ((30 / SSD1306_PAGES) % 2 ^ 8))) % 2 ^ 8] := by
    have h1 := C2.calls
    rw [hc] at h1
    exact List.append_cancel_left h1
  have hall : ∀ x ∈ l, x.result = OK := by
    rw [hl]
    intro x hx
    rcases List.mem_append.mp hx with h | h
    · exact allOK_setWriteLocationCalls _ _ _ _ _ x h
    · exact allOK_dataTransaction _ _ x h
  exact ⟨OK, m2, l, hrun, hc, hall, hok hall⟩

/-- C28: let `context` be a valid handle of a live display record whose I2C
handle is null or live.  `SSD1306_FillDisplay` returns, and if every call of
the I2C driver it made returned OK (every byte was acknowledged), it returned
OK and the calls are exactly: the transaction of `setWriteLocation` for
columns 0..127 and pages 0..7, then 64 transactions, each of `I2C_StartXmit`,
the control byte 0x40, sixteen data bytes `fillChar` and `I2C_StopXmit`.  The
data bytes of the 64 transactions are 1024 bytes `fillChar`, and
64 * 16 = 1024 = 128 * 8, the size of the display memory. -/
theorem C28_fill_display_transactions (m : Board) (context fillChar : Nat) (s : ssd1306_t)
    (hctx : context ≠ 0) (hs : m.ssd context = some s) (hh : s.header = context)
    (hl : m.world.nullOrLive s.i2c) :
    (∃ r m1 l, SSD1306_FillDisplay m context fillChar = some (r, m1) ∧
      m1.calls = m.calls ++ l ∧
      ((∀ x ∈ l, x.result = OK) →
        r = OK ∧
        l = setWriteLocationCalls s.i2c 0 127 0 7 ++
          (List.replicate 64
            (I2CCall.StartXmit s.i2c OK :: I2CCall.Write s.i2c 0x40 OK ::
              List.replicate 16 (I2CCall.Write s.i2c fillChar OK) ++
                [I2CCall.StopXmit s.i2c OK])).flatten)) ∧
    dataBytes (List.replicate 64
        (I2CCall.StartXmit s.i2c OK :: I2CCall.Write s.i2c 0x40 OK ::
          List.replicate 16 (I2CCall.Write s.i2c fillChar OK) ++
            [I2CCall.StopXmit s.i2c OK])).flatten
      = List.replicate 1024 fillChar ∧
    64 * 16 = 1024 ∧ SSD1306_WIDTH * SSD1306_PAGES = 1024 := by
  have htx : (I2CCall.StartXmit s.i2c OK :: I2CCall.Write s.i2c 0x40 OK ::
      List.replicate 16 (I2CCall.Write s.i2c fillChar OK) ++ [I2CCall.StopXmit s.i2c OK])
      = dataTransaction s.i2c (List.replicate 16 fillChar) := by
    simp [dataTransaction]
  rw [htx]
  refine ⟨?_, dataBytes_fill s.i2c fillChar 64, by decide, by decide⟩
  have hruns : Runs context s
      (fun m => (setWriteLocation m context 0 (SSD1306_WIDTH - 1) 0 (SSD1306_PAGES - 1)).bind
        fun x => if x.1 ≠ OK then some (x.1, x.2)
          else SSD1306_FillDisplay.pages context fillChar 64 x.2)
      (setWriteLocationCalls s.i2c 0 (SSD1306_WIDTH - 1) 0 (SSD1306_PAGES - 1) ++
        (List.replicate 64 (dataTransaction s.i2c (List.replicate 16 fillChar))).flatten) :=
    Runs.runs_seq (setWriteLocation_runs _ _ _ _) (fillPages_runs fillChar 64)
  obtain ⟨r, m1, l, e, _, _, hc, hok⟩ := hruns m hs hl
  refine ⟨r, m1, l, ?_, hc, hok⟩
  unfold SSD1306_FillDisplay
  rw [ssd_assign_ok hctx hs hh]
  exact e

/-- C28 on `ackBoard 38735`, on which the peer acknowledges every byte, for
the fill byte 0xAA: every call returns OK. -/
theorem C28_fill_display_transactions_witness :
    ∃ r m1 l, SSD1306_FillDisplay (ackBoard 38735) 0x3FFE9000 0xAA = some (r, m1) ∧
      m1.calls = (ackBoard 38735).calls ++ l ∧ (∀ x ∈ l, x.result = OK) ∧ r = OK ∧
      l = setWriteLocationCalls 0x3FFE8000 0 127 0 7 ++
        (List.replicate 64
          (I2CCall.StartXmit 0x3FFE8000 OK :: I2CCall.Write 0x3FFE8000 0x40 OK ::
            List.replicate 16 (I2CCall.Write 0x3FFE8000 0xAA OK) ++
              [I2CCall.StopXmit 0x3FFE8000 OK])).flatten := by
  obtain ⟨⟨r, m1, l, e, hc, hok⟩, _⟩ :=
    C28_fill_display_transactions (ackBoard 38735) 0x3FFE9000 0xAA
      { header := 0x3FFE9000, i2c := 0x3FFE8000 } (by decide) rfl rfl
      (Or.inr ⟨sampleCtx, rfl⟩)
  have hp : ({ header := 0x3FFE9000, i2c := 0x3FFE8000 } : ssd1306_t).i2c ≠ 0 := by decide
  have hacked : Acked 0x3FFE9000 { header := 0x3FFE9000, i2c := 0x3FFE8000 } [0x3FFE8000]
      (fun m => (setWriteLocation m 0x3FFE9000 0 (SSD1306_WIDTH - 1) 0 (SSD1306_PAGES - 1)).bind
        fun x => if x.1 ≠ OK then some (x.1, x.2)
          else SSD1306_FillDisplay.pages 0x3FFE9000 0xAA 64 x.2)
      READY (271 + 601 * 64) READY
      (setWriteLocationCalls 0x3FFE8000 0 (SSD1306_WIDTH - 1) 0 (SSD1306_PAGES - 1) ++
        (List.replicate 64 (dataTransaction 0x3FFE8000 (List.replicate 16 0xAA))).flatten) :=
    Acked.acked_seq (setWriteLocation_acked hp _ _ _ _) (fillPages_acked hp 0xAA 64)
  obtain ⟨m2, e2, C2⟩ := hacked (ackBoard 38735) _ 0 [] (ackBoard_ctl 38735)
    (fun j _ h2 => runsAt_replicate_lt (by omega))
  have hrun : SSD1306_FillDisplay (ackBoard 38735) 0x3FFE9000 0xAA = some (OK, m2) := by
    have ha : ssd1306.ASSIGN_CONTEXT (ackBoard 38735) 0x3FFE9000
        = some (Except.ok 0x3FFE9000) :=
      ssd_assign_ok (by decide) (ackBoard_ctl 38735).ssd rfl
    unfold SSD1306_FillDisplay
    rw [ha]
    exact e2
  rw [hrun] at e
  simp only [Option.some.injEq, Prod.mk.injEq] at e
  obtain ⟨hr, hm⟩ := e
  subst hr hm
  have hl : l = setWriteLocationCalls 0x3FFE8000 0 (SSD1306_WIDTH - 1) 0 (SSD1306_PAGES - 1) ++
      (List.replicate 64 (dataTransaction 0x3FFE8000 (List.replicate 16 0xAA))).flatten := by
    have h1 := C2.calls
    rw [hc] at h1
    exact List.append_cancel_left h1
  have hall : ∀ x ∈ l, x.result = OK := by
    rw [hl]
    intro x hx
    rcases List.mem_append.mp hx with h | h
    · exact allOK_setWriteLocationCalls _ _ _ _ _ x h
    · obtain ⟨t, ht, hxt⟩ := List.mem_flatten.mp h
      rw [List.eq_of_mem_replicate ht] at hxt
      exact allOK_dataTransaction _ _ x hxt
  exact ⟨OK, m2, l, hrun, hc, hall, hok hall⟩

end I2C
